import Mathlib

/-!
# Level editor of `nothing`: a shallow embedding

Embedded source files: `src/game/level/level_editor.c`, `src/game/camera.c`,
`src/game/level/boxes.c`.

Conventions of the embedding.

* In the editor and in the camera `float` values are rationals and the arithmetic is
  exact.  What `sscanf` stores for `%f` is a value of the type `Binary32`, and the
  functions whose names end in `_binary32` are the functions of camera.c and of the
  pointer-motion branch of `level_editor_event` computed in that type, every operation
  rounded to the nearest `float`.
* A text is the list of its `char`s: one `Char` of the embedding for every byte.
* A `FILE *` opened for writing is the text written so far; a `LineStream` is the
  text not yet read.
* Heap and stack allocation always succeeds; the `Lt` lifetime lists only free
  memory and are not represented.
* `trace_assert` is an active check: a failed assertion stops the program.  Calling
  `fprintf` or `sscanf` with a null pointer stops the program as well.
* Code of the repository that is not part of the embedded files (the layers, the
  layer picker, the edit field, the metadata reader, the rigid bodies, `hexstr`) is
  taken as a parameter, collected in the structure `Env`.
-/

namespace Nothing

/-! ## Plain data -/

/-- The two-dimensional vector of `math/point.h` (`Vec` and `Point` are the same type). -/
structure Vec where
  x : ℚ
  y : ℚ
deriving DecidableEq, Repr

/-- Constructor `vec(x, y)`. -/
def vec (x y : ℚ) : Vec := ⟨x, y⟩

/-- Component-wise sum `vec_sum`. -/
def vec_sum (v1 v2 : Vec) : Vec := ⟨v1.x + v2.x, v1.y + v2.y⟩

/-- Component-wise difference `vec_sub`. -/
def vec_sub (v1 v2 : Vec) : Vec := ⟨v1.x - v2.x, v1.y - v2.y⟩

/-- Negation `vec_neg`. -/
def vec_neg (v : Vec) : Vec := ⟨-v.x, -v.y⟩

/-- Multiplication by a scalar `vec_scala_mult`. -/
def vec_scala_mult (v : Vec) (scalar : ℚ) : Vec := ⟨v.x * scalar, v.y * scalar⟩

/-- Component-wise product `vec_entry_mult`. -/
def vec_entry_mult (v1 v2 : Vec) : Vec := ⟨v1.x * v2.x, v1.y * v2.y⟩

/-- Component-wise quotient `vec_entry_div`. -/
def vec_entry_div (v1 v2 : Vec) : Vec := ⟨v1.x / v2.x, v1.y / v2.y⟩

/-! ## The type `float` -/

/-- A value of the type `float` in the format binary32 of IEEE 754.  The finite number
`finite negative mantissa exponent` is `mantissa * 2 ^ exponent`, negated when `negative`
is set; it is written with `mantissa < 2 ^ 24` and `-149 ≤ exponent ≤ 104`, and with
`2 ^ 23 ≤ mantissa` unless `exponent = -149`.  The payload and the sign of a NaN are not
kept. -/
inductive Binary32 where
  | finite (negative : Bool) (mantissa : Nat) (exponent : Int)
  | infinite (negative : Bool)
  | nan
deriving DecidableEq, Repr

/-- The exponent of the last place of the binary32 numbers around the positive number
`p / q`, as a distance from `-149`: the largest `j` among `fuel`, ..., `1` with
`2 ^ (j - 149 + 23) ≤ p / q`, and `0` when there is none. -/
def Binary32.last_place (p q : Nat) : Nat → Nat
  | 0 => 0
  | j + 1 =>
    if q * 2 ^ (j + 1 - 126) ≤ p * 2 ^ (126 - (j + 1)) then j + 1
    else Binary32.last_place p q j

/-- The integer nearest to `p / q`, the even one of two that are equally near. -/
def Binary32.nearest_even (p q : Nat) : Nat :=
  if 2 * (p % q) < q then p / q
  else if q < 2 * (p % q) then p / q + 1
  else if p / q % 2 = 0 then p / q
  else p / q + 1

/-- Rounding to binary32, to the nearest number and to the even mantissa in a tie: the
value of type `float` for the number `p / q` (with `0 < q`), negated when `negative` is
set.  A number that rounds to `2 ^ 128` or more becomes an infinity. -/
def Binary32.round (negative : Bool) (p q : Nat) : Binary32 :=
  if 2 ^ 128 * q ≤ p then
    .infinite negative
  else if Binary32.nearest_even (p * 2 ^ (149 - Binary32.last_place p q 253))
      (q * 2 ^ (Binary32.last_place p q 253 - 149)) = 2 ^ 24 then
    if Binary32.last_place p q 253 = 253 then .infinite negative
    else .finite negative (2 ^ 23) ((Binary32.last_place p q 253 : Int) + 1 - 149)
  else
    .finite negative
      (Binary32.nearest_even (p * 2 ^ (149 - Binary32.last_place p q 253))
        (q * 2 ^ (Binary32.last_place p q 253 - 149)))
      ((Binary32.last_place p q 253 : Int) - 149)

/-- The value of type `float` for the number `p / q * 2 ^ e`. -/
def Binary32.round_scaled (negative : Bool) (p q : Nat) (e : Int) : Binary32 :=
  Binary32.round negative (p * 2 ^ e.toNat) (q * 2 ^ (-e).toNat)

/-- The conversion `(float) n` of an integer. -/
def Binary32.of_int (n : Int) : Binary32 :=
  Binary32.round (decide (n < 0)) n.natAbs 1

/-- A literal such as `16.0f`. -/
instance (n : Nat) : OfNat Binary32 n := ⟨Binary32.of_int n⟩

/-- The integer `m * 2 ^ (e - k)`, negated when `negative` is set: a finite `float` in
units of `2 ^ k`, for `k ≤ e`. -/
def Binary32.units (negative : Bool) (m : Nat) (e k : Int) : Int :=
  (if negative then -1 else 1) * ((m * 2 ^ (e - k).toNat : Nat) : Int)

/-- Negation `-a`. -/
def Binary32.neg : Binary32 → Binary32
  | .finite s m e => .finite (!s) m e
  | .infinite s => .infinite (!s)
  | .nan => .nan

/-- The sum `a + b`. -/
def Binary32.add : Binary32 → Binary32 → Binary32
  | .nan, _ => .nan
  | _, .nan => .nan
  | .infinite s1, .infinite s2 => if s1 = s2 then .infinite s1 else .nan
  | .infinite s1, .finite _ _ _ => .infinite s1
  | .finite _ _ _, .infinite s2 => .infinite s2
  | .finite s1 m1 e1, .finite s2 m2 e2 =>
    if Binary32.units s1 m1 e1 (min e1 e2) + Binary32.units s2 m2 e2 (min e1 e2) = 0 then
      .finite (s1 && s2) 0 (-149)
    else
      Binary32.round_scaled
        (decide (Binary32.units s1 m1 e1 (min e1 e2) + Binary32.units s2 m2 e2 (min e1 e2) < 0))
        (Binary32.units s1 m1 e1 (min e1 e2) + Binary32.units s2 m2 e2 (min e1 e2)).natAbs 1
        (min e1 e2)

/-- The difference `a - b`. -/
def Binary32.sub (a b : Binary32) : Binary32 := a.add b.neg

/-- The product `a * b`. -/
def Binary32.mul : Binary32 → Binary32 → Binary32
  | .nan, _ => .nan
  | _, .nan => .nan
  | .infinite s1, .infinite s2 => .infinite (xor s1 s2)
  | .infinite s1, .finite s2 m2 _ => if m2 = 0 then .nan else .infinite (xor s1 s2)
  | .finite s1 m1 _, .infinite s2 => if m1 = 0 then .nan else .infinite (xor s1 s2)
  | .finite s1 m1 e1, .finite s2 m2 e2 =>
    Binary32.round_scaled (xor s1 s2) (m1 * m2) 1 (e1 + e2)

/-- The quotient `a / b`. -/
def Binary32.div : Binary32 → Binary32 → Binary32
  | .nan, _ => .nan
  | _, .nan => .nan
  | .infinite _, .infinite _ => .nan
  | .infinite s1, .finite s2 _ _ => .infinite (xor s1 s2)
  | .finite s1 _ _, .infinite s2 => .finite (xor s1 s2) 0 (-149)
  | .finite s1 m1 e1, .finite s2 m2 e2 =>
    if m2 = 0 then
      if m1 = 0 then .nan else .infinite (xor s1 s2)
    else
      Binary32.round_scaled (xor s1 s2) m1 m2 (e1 - e2)

/-- The comparison `a > b`. -/
def Binary32.gt : Binary32 → Binary32 → Bool
  | .nan, _ => false
  | _, .nan => false
  | .infinite s1, .infinite s2 => !s1 && s2
  | .infinite s1, .finite _ _ _ => !s1
  | .finite _ _ _, .infinite s2 => s2
  | .finite s1 m1 e1, .finite s2 m2 e2 =>
    decide (Binary32.units s2 m2 e2 (min e1 e2) < Binary32.units s1 m1 e1 (min e1 e2))

/-- The number a finite `float` stands for. -/
def Binary32.value : Binary32 → Option ℚ
  | .finite s m e => some ((if s then -1 else 1) * (m : ℚ) * (2 : ℚ) ^ e)
  | _ => none

/-- The rectangle of `math/rect.h`. -/
structure Rect where
  x : Binary32
  y : Binary32
  w : Binary32
  h : Binary32
deriving DecidableEq, Repr

/-- The integer rectangle of SDL; only `w` and `h` of a view port are read. -/
structure SDL_Rect where
  x : Int
  y : Int
  w : Int
  h : Int
deriving DecidableEq, Repr

/-- The result of `fmaxf` on rationals. -/
def fmaxf (a b : ℚ) : ℚ := if a < b then b else a

/-! ## Input events -/

/-- Key code of the Return key (`SDLK_RETURN`, the character `\r`). -/
def SDLK_RETURN : Int := 13

/-- Key code of the key `s` (`SDLK_s`). -/
def SDLK_s : Int := 115

/-- Identity of the middle mouse button (`SDL_BUTTON_MIDDLE`). -/
def SDL_BUTTON_MIDDLE : Nat := 2

/-- The part of the `SDL_Event` union that `level_editor_event` reads: the event type
together with the fields of the variant that belongs to it.  `OTHER` stands for every
event type that has no `case` in the function. -/
inductive SDL_Event where
  | SDL_TEXTINPUT (text : String)
  | SDL_KEYUP (sym : Int)
  | SDL_KEYDOWN (sym : Int)
  | SDL_MOUSEWHEEL (y : Int)
  | SDL_MOUSEBUTTONUP (button : Nat)
  | SDL_MOUSEBUTTONDOWN (button : Nat)
  | SDL_MOUSEMOTION (x y xrel yrel : Int)
  | OTHER (type : Nat)
deriving DecidableEq, Repr

/-! ## Camera (`game/camera.c`) -/

/-- The `struct Camera`; `view_port` is what `SDL_RenderGetViewport` reports for the
renderer of the camera. -/
structure Camera where
  debug_mode : Bool
  blackwhite_mode : Bool
  position : Vec
  scale : ℚ
  view_port : SDL_Rect
deriving DecidableEq, Repr

/-- The constant `RATIO_X`. -/
def RATIO_X : ℚ := 16

/-- The constant `RATIO_Y`. -/
def RATIO_Y : ℚ := 9

/-- The function `effective_ratio` (camera.c, lines 337-344). -/
def effective_ratio (view_port : SDL_Rect) : Vec :=
  if (view_port.w : ℚ) / RATIO_X > (view_port.h : ℚ) / RATIO_Y then
    vec RATIO_X ((view_port.h : ℚ) / ((view_port.w : ℚ) / RATIO_X))
  else
    vec ((view_port.w : ℚ) / ((view_port.h : ℚ) / RATIO_Y)) RATIO_Y

/-- The function `effective_scale` (camera.c, lines 346-351). -/
def effective_scale (view_port : SDL_Rect) : Vec :=
  vec_entry_div
    (vec (view_port.w : ℚ) (view_port.h : ℚ))
    (vec_scala_mult (effective_ratio view_port) 50)

/-- The function `camera_point`, world to screen (camera.c, lines 353-366). -/
def camera_point (camera : Camera) (p : Vec) : Vec :=
  vec_sum
    (vec_scala_mult
      (vec_entry_mult
        (vec_sum p (vec_neg camera.position))
        (effective_scale camera.view_port))
      camera.scale)
    (vec ((camera.view_port.w : ℚ) * (1 / 2)) ((camera.view_port.h : ℚ) * (1 / 2)))

/-- The function `camera_map_screen`, screen to world (camera.c, lines 405-429). -/
def camera_map_screen (camera : Camera) (x y : Int) : Vec :=
  let es0 := effective_scale camera.view_port
  let es : Vec := ⟨1 / es0.x, 1 / es0.y⟩
  let p := vec (x : ℚ) (y : ℚ)
  vec_sum
    (vec_entry_mult
      (vec_scala_mult
        (vec_sum p
          (vec ((camera.view_port.w : ℚ) * (-(1 / 2))) ((camera.view_port.h : ℚ) * (-(1 / 2)))))
        (1 / camera.scale))
      es)
    camera.position

/-- The function `camera_center_at` (camera.c, lines 247-251). -/
def camera_center_at (camera : Camera) (position : Vec) : Camera :=
  { camera with position := position }

/-- The function `camera_scale` (camera.c, lines 253-257). -/
def camera_scale (camera : Camera) (scale : ℚ) : Camera :=
  { camera with scale := fmaxf (1 / 10) scale }

/-! ## Level editor (`game/level/level_editor.c`) -/

/-- The line feed character that ends a line of a level file. -/
def newline : Char := Char.ofNat 10

/-- The enumerators of `LayerPicker` that index the array `layers` (they are named in
level_editor.c, lines 126-134).  Their numeric values are fixed by the declaration in
`layer_picker.h`, which is not among the embedded files: see `Env.layer_picker_decl`. -/
inductive LayerPicker where
  | LAYER_PICKER_BOXES
  | LAYER_PICKER_PLATFORMS
  | LAYER_PICKER_BACK_PLATFORMS
  | LAYER_PICKER_GOALS
  | LAYER_PICKER_PLAYER
  | LAYER_PICKER_LAVA
  | LAYER_PICKER_REGIONS
  | LAYER_PICKER_BACKGROUND
  | LAYER_PICKER_LABELS
deriving DecidableEq, Repr

/-- Modelled from the spec: the enumeration `LevelEditorState` of `level_editor.h`, which is
not among the embedded files.  The source names the two enumerators; the spec has
`Editing` as the state of a new editor, which the source leaves at the zero of
`nth_calloc`, so `LEVEL_EDITOR_EDITING` is the enumerator of value `0`. -/
inductive LevelEditorState where
  | LEVEL_EDITOR_EDITING
  | LEVEL_EDITOR_SAVEAS
deriving DecidableEq, Repr

/-- The `struct LevelEditor` with the fields `level_editor.c` reads and writes, without the
lifetime list `lt`.  `metadata` is the title held by the `LevelMetadata`; the array
`layers` is the function `layers` below, since every entry of the array points at one of
the nine layer fields. -/
structure LevelEditor (EditField Layer : Type) where
  edit_field_filename : EditField
  metadata : List Char
  background_layer : Layer
  player_layer : Layer
  platforms_layer : Layer
  goals_layer : Layer
  lava_layer : Layer
  back_platforms_layer : Layer
  boxes_layer : Layer
  label_layer : Layer
  regions_layer : Layer
  supa_script_source : List Char
  layer_picker : LayerPicker
  state : LevelEditorState
  file_name : Option String
  camera_scale : ℚ
  camera_position : Vec
  drag : Bool

/-- The files of the host: the text stored under every name that exists. -/
abbrev FileSystem := String → Option (List Char)

/-- The file system after the text of `file_name` has been replaced. -/
def FileSystem.write (fs : FileSystem) (file_name : String) (text : List Char) : FileSystem :=
  fun name => if name = file_name then some text else fs name

/-- A `LineStream` is the part of the file that has not been read yet. -/
abbrev LineStream := List Char

/-- Modelled from the spec: `create_line_stream(file_name, "r", ...)` of
`system/line_stream.c` opens the file for reading; it yields no stream when the file
cannot be opened. -/
def create_line_stream (fs : FileSystem) (file_name : String) : Option LineStream :=
  fs file_name

/-- Everything `level_editor.c` calls but does not define.  A function that returns an
`int` status in C returns that status here together with the object it may have changed;
a function that returns a pointer returns `none` for `NULL`.

* `layer_picker_decl`: the enumerators of `LayerPicker` in declaration order, so that the
  enumerator at position `i` has the value `i` and `LAYER_PICKER_N` is the length.
* `layer_picker_event` returns the status, the picker and the final value of `selected`.
* `layer_dump_stream` returns the status and the text it appended to the file.
* `fopen_fails` tells whether `fopen(file_name, "w")` returns `NULL`; `fprintf_fails`
  tells whether a `fprintf` of the given text to the given file fails (nothing is
  written then). -/
structure Env (EditField Layer Color : Type) where
  layer_picker_decl : List LayerPicker
  hexstr : List Char → Color
  create_edit_field : EditField
  edit_field_text_input : EditField → SDL_Event → Int × EditField
  edit_field_keyboard : EditField → SDL_Event → Int × EditField
  edit_field_as_text : EditField → String
  create_color_picker_from_rgba : Color → Layer
  create_player_layer : Vec → Color → Layer
  create_rect_layer : Layer
  create_point_layer : Layer
  create_label_layer : Layer
  create_level_metadata_from_line_stream : LineStream → Option (List Char × LineStream)
  color_picker_read_from_line_stream : LineStream → Option (Layer × LineStream)
  create_player_layer_from_line_stream : LineStream → Option (Layer × LineStream)
  create_rect_layer_from_line_stream : LineStream → Option (Layer × LineStream)
  create_point_layer_from_line_stream : LineStream → Option (Layer × LineStream)
  create_label_layer_from_line_stream : LineStream → Option (Layer × LineStream)
  line_stream_collect_until_end : LineStream → Option (List Char)
  layer_picker_event : LayerPicker → SDL_Event → Camera → Int × LayerPicker × Bool
  layer_event : Layer → SDL_Event → Camera → Int × Layer
  layer_dump_stream : Layer → Int × List Char
  fopen_fails : String → Bool
  fprintf_fails : String → List Char → Bool

section Editor

variable {EditField Layer Color : Type}

/-- The array `layers` as filled in lines 126-134 and 276-284: the entry of every
enumerator is the layer field of the same name. -/
def layers (level_editor : LevelEditor EditField Layer) : LayerPicker → Layer
  | .LAYER_PICKER_BOXES => level_editor.boxes_layer
  | .LAYER_PICKER_PLATFORMS => level_editor.platforms_layer
  | .LAYER_PICKER_BACK_PLATFORMS => level_editor.back_platforms_layer
  | .LAYER_PICKER_GOALS => level_editor.goals_layer
  | .LAYER_PICKER_PLAYER => level_editor.player_layer
  | .LAYER_PICKER_LAVA => level_editor.lava_layer
  | .LAYER_PICKER_REGIONS => level_editor.regions_layer
  | .LAYER_PICKER_BACKGROUND => level_editor.background_layer
  | .LAYER_PICKER_LABELS => level_editor.label_layer

/-- A write through the pointer `layers[k]`: it changes the layer field the entry
points at. -/
def set_layer (level_editor : LevelEditor EditField Layer) (k : LayerPicker) (l : Layer) :
    LevelEditor EditField Layer :=
  match k with
  | .LAYER_PICKER_BOXES => { level_editor with boxes_layer := l }
  | .LAYER_PICKER_PLATFORMS => { level_editor with platforms_layer := l }
  | .LAYER_PICKER_BACK_PLATFORMS => { level_editor with back_platforms_layer := l }
  | .LAYER_PICKER_GOALS => { level_editor with goals_layer := l }
  | .LAYER_PICKER_PLAYER => { level_editor with player_layer := l }
  | .LAYER_PICKER_LAVA => { level_editor with lava_layer := l }
  | .LAYER_PICKER_REGIONS => { level_editor with regions_layer := l }
  | .LAYER_PICKER_BACKGROUND => { level_editor with background_layer := l }
  | .LAYER_PICKER_LABELS => { level_editor with label_layer := l }

/-- The function `create_level_editor` (lines 27-139).  The structure comes from
`nth_calloc`, so every field the function does not assign is zero: `file_name` is
`NULL`, `camera_scale` and `camera_position` are `0`, `layer_picker` is the enumerator
of value `0` and `state` is `LEVEL_EDITOR_EDITING`, the first enumerator of
`LevelEditorState`. -/
def create_level_editor (env : Env EditField Layer Color) : LevelEditor EditField Layer where
  edit_field_filename := env.create_edit_field
  metadata := "New Level".toList
  background_layer := env.create_color_picker_from_rgba (env.hexstr "fffda5".toList)
  player_layer := env.create_player_layer (vec 0 0) (env.hexstr "ff8080".toList)
  platforms_layer := env.create_rect_layer
  goals_layer := env.create_point_layer
  lava_layer := env.create_rect_layer
  back_platforms_layer := env.create_rect_layer
  boxes_layer := env.create_rect_layer
  label_layer := env.create_label_layer
  regions_layer := env.create_rect_layer
  supa_script_source := []
  layer_picker := env.layer_picker_decl.headD .LAYER_PICKER_BOXES
  state := .LEVEL_EDITOR_EDITING
  file_name := none
  camera_scale := 0
  camera_position := vec 0 0
  drag := false

/-- The function `create_level_editor_from_file` (lines 141-289): the sections are read
from one stream in the order of the source, and the first one that fails ends the load.
The fields the function does not assign are zero as in `create_level_editor`. -/
def create_level_editor_from_file (env : Env EditField Layer Color) (fs : FileSystem)
    (file_name : String) : Option (LevelEditor EditField Layer) :=
  match create_line_stream fs file_name with
  | none => none
  | some level_stream =>
  match env.create_level_metadata_from_line_stream level_stream with
  | none => none
  | some (metadata, s1) =>
  match env.color_picker_read_from_line_stream s1 with
  | none => none
  | some (background_layer, s2) =>
  match env.create_player_layer_from_line_stream s2 with
  | none => none
  | some (player_layer, s3) =>
  match env.create_rect_layer_from_line_stream s3 with
  | none => none
  | some (platforms_layer, s4) =>
  match env.create_point_layer_from_line_stream s4 with
  | none => none
  | some (goals_layer, s5) =>
  match env.create_rect_layer_from_line_stream s5 with
  | none => none
  | some (lava_layer, s6) =>
  match env.create_rect_layer_from_line_stream s6 with
  | none => none
  | some (back_platforms_layer, s7) =>
  match env.create_rect_layer_from_line_stream s7 with
  | none => none
  | some (boxes_layer, s8) =>
  match env.create_label_layer_from_line_stream s8 with
  | none => none
  | some (label_layer, s9) =>
  match env.create_rect_layer_from_line_stream s9 with
  | none => none
  | some (regions_layer, s10) =>
  match env.line_stream_collect_until_end s10 with
  | none => none
  | some supa_script_source =>
    some
      { edit_field_filename := env.create_edit_field
        metadata := metadata
        background_layer := background_layer
        player_layer := player_layer
        platforms_layer := platforms_layer
        goals_layer := goals_layer
        lava_layer := lava_layer
        back_platforms_layer := back_platforms_layer
        boxes_layer := boxes_layer
        label_layer := label_layer
        regions_layer := regions_layer
        supa_script_source := supa_script_source
        layer_picker := env.layer_picker_decl.headD .LAYER_PICKER_BOXES
        state := .LEVEL_EDITOR_EDITING
        file_name := some file_name
        camera_scale := 0
        camera_position := vec 0 0
        drag := false }

/-- How control leaves a function: it returns an `int`, or the program stops inside it
(failed `trace_assert`, or a null `FILE *` handed to `fprintf`). -/
inductive Status where
  | returned (code : Int)
  | aborted
deriving DecidableEq, Repr

/-- What has happened when control leaves `level_editor_dump`. -/
structure DumpResult where
  status : Status
  fs : FileSystem

/-- The loop over `layers[i]` in `level_editor_dump` (lines 487-493): `out` is the text
in the file so far; the first layer whose `layer_dump_stream` is negative ends the loop
with `-1`. -/
def dump_layers (env : Env EditField Layer Color) : List Layer → List Char → Int × List Char
  | [], out => (0, out)
  | l :: ls, out =>
    if (env.layer_dump_stream l).1 < 0 then
      (-1, out ++ (env.layer_dump_stream l).2)
    else
      dump_layers env ls (out ++ (env.layer_dump_stream l).2)

/-- The function `level_editor_dump` (lines 474-500).  `layers[i]` for `i` from `0` to
`LAYER_PICKER_N - 1` is the layer of the `i`-th enumerator of the declaration.  The
result of the last `fprintf` (the script) is not looked at by the source. -/
def level_editor_dump (env : Env EditField Layer Color)
    (level_editor : LevelEditor EditField Layer) (fs : FileSystem) : DumpResult :=
  match level_editor.file_name with
  | none => ⟨.aborted, fs⟩
  | some file_name =>
    if env.fopen_fails file_name then
      ⟨.aborted, fs⟩
    else if env.fprintf_fails file_name (level_editor.metadata ++ [newline]) then
      ⟨.returned (-1), fs.write file_name []⟩
    else
      let r := dump_layers env (env.layer_picker_decl.map (layers level_editor))
        (level_editor.metadata ++ [newline])
      if r.1 < 0 then
        ⟨.returned (-1), fs.write file_name r.2⟩
      else if env.fprintf_fails file_name level_editor.supa_script_source then
        ⟨.returned 0, fs.write file_name r.2⟩
      else
        ⟨.returned 0, fs.write file_name (r.2 ++ level_editor.supa_script_source)⟩

/-- A call that leaves `level_editor_event`, in the order of the calls. -/
inductive Call where
  | edit_field_text_input
  | edit_field_keyboard
  | level_editor_dump (file_name : Option String)
  | SDL_StartTextInput
  | SDL_StopTextInput
  | layer_picker_event
  | layer_event (layer : LayerPicker)
deriving DecidableEq, Repr

/-- What has happened when control leaves `level_editor_event`: the status, the editor
as it is in memory at that moment, the files, and the calls made. -/
structure EventResult (EditField Layer : Type) where
  status : Status
  level_editor : LevelEditor EditField Layer
  fs : FileSystem
  calls : List Call

/-- The `SDL_KEYUP`/`SDL_KEYDOWN` case of the save-as branch (lines 366-387). -/
def saveas_key (env : Env EditField Layer Color) (level_editor : LevelEditor EditField Layer)
    (fs : FileSystem) (event : SDL_Event) (sym : Int) : EventResult EditField Layer :=
  if sym = SDLK_RETURN then
    match level_editor.file_name with
    | some _ => ⟨.aborted, level_editor, fs, []⟩
    | none =>
      let named :=
        { level_editor with
          file_name := some (env.edit_field_as_text level_editor.edit_field_filename) }
      let d := level_editor_dump env named fs
      match d.status with
      | .aborted => ⟨.aborted, named, d.fs, [.level_editor_dump named.file_name]⟩
      | .returned _ =>
        ⟨.returned 0, { named with state := .LEVEL_EDITOR_EDITING }, d.fs,
          [.level_editor_dump named.file_name, .SDL_StopTextInput]⟩
  else
    let r := env.edit_field_keyboard level_editor.edit_field_filename event
    ⟨.returned (if r.1 < 0 then -1 else 0),
      { level_editor with edit_field_filename := r.2 }, fs, [.edit_field_keyboard]⟩

/-- The `switch` of the editing branch (lines 392-441).  The status is `aborted` when
the program stops inside `level_editor_dump` and `returned 0` when control leaves the
`switch`.  The sums `x + xrel` and `y + yrel` are those of the integers: coordinates on a
screen are far from the ends of `Sint32`. -/
def editing_switch (env : Env EditField Layer Color) (level_editor : LevelEditor EditField Layer)
    (fs : FileSystem) (event : SDL_Event) (camera : Camera) : EventResult EditField Layer :=
  match event with
  | .SDL_KEYDOWN sym =>
    if sym = SDLK_s then
      match level_editor.file_name with
      | some _ =>
        let d := level_editor_dump env level_editor fs
        match d.status with
        | .aborted => ⟨.aborted, level_editor, d.fs, [.level_editor_dump level_editor.file_name]⟩
        | .returned _ =>
          ⟨.returned 0, level_editor, d.fs, [.level_editor_dump level_editor.file_name]⟩
      | none =>
        ⟨.returned 0, { level_editor with state := .LEVEL_EDITOR_SAVEAS }, fs,
          [.SDL_StartTextInput]⟩
    else
      ⟨.returned 0, level_editor, fs, []⟩
  | .SDL_MOUSEWHEEL y =>
    if y > 0 then
      ⟨.returned 0,
        { level_editor with camera_scale := level_editor.camera_scale + 1 / 10 }, fs, []⟩
    else if y < 0 then
      ⟨.returned 0,
        { level_editor with camera_scale := fmaxf (1 / 10) (level_editor.camera_scale - 1 / 10) },
        fs, []⟩
    else
      ⟨.returned 0, level_editor, fs, []⟩
  | .SDL_MOUSEBUTTONDOWN button =>
    if button = SDL_BUTTON_MIDDLE then
      ⟨.returned 0, { level_editor with drag := true }, fs, []⟩
    else
      ⟨.returned 0, level_editor, fs, []⟩
  | .SDL_MOUSEBUTTONUP button =>
    if button = SDL_BUTTON_MIDDLE then
      ⟨.returned 0, { level_editor with drag := false }, fs, []⟩
    else
      ⟨.returned 0, level_editor, fs, []⟩
  | .SDL_MOUSEMOTION x y xrel yrel =>
    if level_editor.drag then
      let next_position := camera_map_screen camera x y
      let prev_position := camera_map_screen camera (x + xrel) (y + yrel)
      ⟨.returned 0,
        { level_editor with
          camera_position :=
            vec_sum level_editor.camera_position (vec_sub next_position prev_position) },
        fs, []⟩
    else
      ⟨.returned 0, level_editor, fs, []⟩
  | _ => ⟨.returned 0, level_editor, fs, []⟩

/-- The end of the editing branch (lines 443-459): the event goes to the layer picker
and, when the picker did not select anything, to the layer it points at. -/
def offer_event (env : Env EditField Layer Color) (level_editor : LevelEditor EditField Layer)
    (fs : FileSystem) (calls : List Call) (event : SDL_Event) (camera : Camera) :
    EventResult EditField Layer :=
  let p := env.layer_picker_event level_editor.layer_picker event camera
  let picked := { level_editor with layer_picker := p.2.1 }
  if p.1 < 0 then
    ⟨.returned (-1), picked, fs, calls ++ [.layer_picker_event]⟩
  else if p.2.2 then
    ⟨.returned 0, picked, fs, calls ++ [.layer_picker_event]⟩
  else
    let l := env.layer_event (layers picked picked.layer_picker) event camera
    ⟨.returned (if l.1 < 0 then -1 else 0), set_layer picked picked.layer_picker l.2, fs,
      calls ++ [.layer_picker_event, .layer_event picked.layer_picker]⟩

/-- The `switch` of the save-as branch (lines 358-388). -/
def saveas_switch (env : Env EditField Layer Color) (level_editor : LevelEditor EditField Layer)
    (fs : FileSystem) (event : SDL_Event) : EventResult EditField Layer :=
  match event with
  | .SDL_TEXTINPUT _ =>
    let r := env.edit_field_text_input level_editor.edit_field_filename event
    ⟨.returned (if r.1 < 0 then -1 else 0),
      { level_editor with edit_field_filename := r.2 }, fs, [.edit_field_text_input]⟩
  | .SDL_KEYUP sym => saveas_key env level_editor fs event sym
  | .SDL_KEYDOWN sym => saveas_key env level_editor fs event sym
  | _ => ⟨.returned 0, level_editor, fs, []⟩

/-- The function `level_editor_event` (lines 349-463). -/
def level_editor_event (env : Env EditField Layer Color)
    (level_editor : LevelEditor EditField Layer) (fs : FileSystem) (event : SDL_Event)
    (camera : Camera) : EventResult EditField Layer :=
  match level_editor.state with
  | .LEVEL_EDITOR_SAVEAS => saveas_switch env level_editor fs event
  | .LEVEL_EDITOR_EDITING =>
    match (editing_switch env level_editor fs event camera).status with
    | .aborted => editing_switch env level_editor fs event camera
    | .returned _ =>
      offer_event env (editing_switch env level_editor fs event camera).level_editor
        (editing_switch env level_editor fs event camera).fs
        (editing_switch env level_editor fs event camera).calls event camera

/-- The function `level_editor_focus_camera` (lines 465-471): the value returned, and the
editor and the camera after the call. -/
def level_editor_focus_camera (level_editor : LevelEditor EditField Layer) (camera : Camera) :
    Int × LevelEditor EditField Layer × Camera :=
  (0, level_editor,
    camera_scale (camera_center_at camera level_editor.camera_position)
      level_editor.camera_scale)

/-- The host hands events to the editor one at a time, in arrival order; an event is
processed completely before the next one, whatever status the previous one returned.
Nothing follows once the program has stopped. -/
def level_editor_events (env : Env EditField Layer Color) :
    LevelEditor EditField Layer → FileSystem → List (SDL_Event × Camera) →
      LevelEditor EditField Layer × FileSystem
  | level_editor, fs, [] => (level_editor, fs)
  | level_editor, fs, (event, camera) :: rest =>
    match (level_editor_event env level_editor fs event camera).status with
    | .aborted =>
      ((level_editor_event env level_editor fs event camera).level_editor,
        (level_editor_event env level_editor fs event camera).fs)
    | .returned _ =>
      level_editor_events env
        (level_editor_event env level_editor fs event camera).level_editor
        (level_editor_event env level_editor fs event camera).fs rest

end Editor

/-! ## Reading text: `sscanf` and the line stream -/

/-- Modelled from the spec: `line_stream_next` of `system/line_stream.c` hands out the
next line of the newline-delimited text, the line feed included, and `NULL` at the end
of the text.  Lines are taken to be shorter than the capacity of the stream. -/
def line_stream_next : LineStream → Option (List Char × LineStream)
  | [] => none
  | c :: cs =>
    if c = newline then
      some ([c], cs)
    else
      match line_stream_next cs with
      | none => some ([c], [])
      | some (line, rest) => some (c :: line, rest)

/-- The white-space characters of `isspace`: space, and the control characters from the
horizontal tab to the carriage return. -/
def isspace (c : Char) : Bool :=
  c.toNat = 32 || (9 ≤ c.toNat && c.toNat ≤ 13)

/-- The outcome of one conversion of `sscanf`. -/
inductive Scanned (α : Type) where
  | input_failure
  | matching_failure
  | converted (value : α) (rest : List Char)
deriving DecidableEq, Repr

/-- The number written by a string of decimal digits. -/
def digits_value (ds : List Char) : Nat :=
  ds.foldl (fun n c => 10 * n + (c.toNat - 48)) 0

/-- The largest `unsigned long` (64 bits). -/
def ULONG_MAX : Nat := 2 ^ 64 - 1

/-- The conversion `%lu`: white space is skipped, then an optional sign and decimal
digits are read.  The text ending before any character is an input failure; no digit
is a matching failure.  A negative number is negated in `unsigned long`, a number that
does not fit becomes `ULONG_MAX`, as `strtoul` does. -/
def scan_lu (input : List Char) : Scanned Nat :=
  match input.dropWhile isspace with
  | [] => .input_failure
  | c :: cs =>
    let negative := decide (c = '-')
    let body := if c = '-' ∨ c = '+' then cs else c :: cs
    let ds := body.takeWhile Char.isDigit
    if ds = [] then
      .matching_failure
    else if ULONG_MAX < digits_value ds then
      .converted ULONG_MAX (body.dropWhile Char.isDigit)
    else if negative then
      .converted ((2 ^ 64 - digits_value ds) % 2 ^ 64) (body.dropWhile Char.isDigit)
    else
      .converted (digits_value ds) (body.dropWhile Char.isDigit)

/-- The conversion `%<width>s`: white space is skipped, then at most `width` `char`s
that are not white space are read. -/
def scan_s (width : Nat) (input : List Char) : Scanned (List Char) :=
  match input.dropWhile isspace with
  | [] => .input_failure
  | c :: cs =>
    .converted (((c :: cs).takeWhile (fun d => !isspace d)).take width)
      ((c :: cs).drop (((c :: cs).takeWhile (fun d => !isspace d)).take width).length)

/-- Whether `c` is the lower-case letter `lower` or its upper-case form. -/
def is_letter (lower c : Char) : Bool :=
  c = lower || c.toNat + 32 = lower.toNat

/-- Whether the text starts with the letters of `word`, in either case. -/
def starts_with_word : List Char → List Char → Bool
  | [], _ => true
  | _ :: _, [] => false
  | w :: ws, c :: cs => is_letter w c && starts_with_word ws cs

/-- The hexadecimal digits. -/
def is_hex_digit (c : Char) : Bool :=
  c.isDigit || (97 ≤ c.toNat && c.toNat ≤ 102) || (65 ≤ c.toNat && c.toNat ≤ 70)

/-- The number written by a string of hexadecimal digits. -/
def hex_digits_value (ds : List Char) : Nat :=
  ds.foldl
    (fun n c =>
      16 * n + (if c.isDigit then c.toNat - 48
        else if 97 ≤ c.toNat then c.toNat - 87 else c.toNat - 55))
    0

/-- The `float` nearest to the number with the digits `ip` before the point, the digits
`fp` after it and the decimal exponent `x`, as `strtof` returns it. -/
def decimal_binary32 (negative : Bool) (ip fp : List Char) (x : Int) : Binary32 :=
  Binary32.round negative
    (digits_value (ip ++ fp) * 10 ^ (x - (fp.length : Int)).toNat)
    (10 ^ ((fp.length : Int) - x).toNat)

/-- The `float` nearest to the number with the hexadecimal digits `ip` before the point,
the hexadecimal digits `fp` after it and the binary exponent `x`. -/
def hexadecimal_binary32 (negative : Bool) (ip fp : List Char) (x : Int) : Binary32 :=
  Binary32.round_scaled negative (hex_digits_value (ip ++ fp)) 1 (x - 4 * (fp.length : Int))

/-- The text after the sign of an exponent, if there is a sign. -/
def exponent_digits (text : List Char) : List Char :=
  match text with
  | [] => []
  | c :: cs => if c = '-' ∨ c = '+' then cs else c :: cs

/-- The exponent part that `%f` reads after the digits of a number: when the text starts
with the letter `marker`, in either case, the letter is read, then a sign if one follows
at once, then the decimal digits that follow.  The result is the exponent and the text
that is left; without digits the exponent is `0`, as `strtof` then stops before the
letter. -/
def scan_exponent (marker : Char) (text : List Char) : Int × List Char :=
  match text with
  | [] => (0, [])
  | c :: cs =>
    if is_letter marker c then
      ((if cs.head? = some '-' then -1 else 1)
          * (digits_value ((exponent_digits cs).takeWhile Char.isDigit) : Int),
        (exponent_digits cs).dropWhile Char.isDigit)
    else
      (0, c :: cs)

/-- The conversion `%f` on a number in decimal notation, the sign already read: digits,
a point, digits and an exponent part, of which a digit must be there. -/
def scan_float_decimal (negative : Bool) (body : List Char) : Scanned Binary32 :=
  match body.dropWhile Char.isDigit with
  | '.' :: after =>
    if body.takeWhile Char.isDigit = [] ∧ after.takeWhile Char.isDigit = [] then
      .matching_failure
    else
      .converted
        (decimal_binary32 negative (body.takeWhile Char.isDigit)
          (after.takeWhile Char.isDigit)
          (scan_exponent 'e' (after.dropWhile Char.isDigit)).1)
        (scan_exponent 'e' (after.dropWhile Char.isDigit)).2
  | other =>
    if body.takeWhile Char.isDigit = [] then
      .matching_failure
    else
      .converted
        (decimal_binary32 negative (body.takeWhile Char.isDigit) [] (scan_exponent 'e' other).1)
        (scan_exponent 'e' other).2

/-- The conversion `%f` on a number in hexadecimal notation, the sign and `0x` already
read: hexadecimal digits, a point, hexadecimal digits and an exponent part with the
letter `p`.  With nothing after `0x` the conversion fails; with a point and no digit,
`strtof` reads the `0` before the `x` as the number. -/
def scan_float_hexadecimal (negative : Bool) (body : List Char) : Scanned Binary32 :=
  match body.dropWhile is_hex_digit with
  | '.' :: after =>
    if body.takeWhile is_hex_digit = [] ∧ after.takeWhile is_hex_digit = [] then
      .converted (.finite negative 0 (-149)) after
    else
      .converted
        (hexadecimal_binary32 negative (body.takeWhile is_hex_digit)
          (after.takeWhile is_hex_digit)
          (scan_exponent 'p' (after.dropWhile is_hex_digit)).1)
        (scan_exponent 'p' (after.dropWhile is_hex_digit)).2
  | other =>
    if body.takeWhile is_hex_digit = [] then
      .matching_failure
    else
      .converted
        (hexadecimal_binary32 negative (body.takeWhile is_hex_digit) []
          (scan_exponent 'p' other).1)
        (scan_exponent 'p' other).2

/-- The conversion `%f` on a text that starts with the letter `i`, the sign already
read: `inf`, and `infinity` when another `i` follows `inf`. -/
def scan_float_infinity (negative : Bool) (body : List Char) : Scanned Binary32 :=
  if starts_with_word "inf".toList body then
    if starts_with_word "i".toList (body.drop 3) then
      if starts_with_word "inity".toList (body.drop 3) then
        .converted (.infinite negative) (body.drop 8)
      else
        .matching_failure
    else
      .converted (.infinite negative) (body.drop 3)
  else
    .matching_failure

/-- The conversion `%f` on a text that starts with the letter `n`: `nan`. -/
def scan_float_nan (body : List Char) : Scanned Binary32 :=
  if starts_with_word "nan".toList body then
    .converted .nan (body.drop 3)
  else
    .matching_failure

/-- The conversion `%f`, the white space and the sign already read. -/
def scan_float (negative : Bool) (body : List Char) : Scanned Binary32 :=
  match body with
  | [] => .matching_failure
  | c :: cs =>
    if is_letter 'n' c then
      scan_float_nan (c :: cs)
    else if is_letter 'i' c then
      scan_float_infinity negative (c :: cs)
    else if c = '0' ∧ starts_with_word "x".toList cs then
      scan_float_hexadecimal negative (cs.drop 1)
    else
      scan_float_decimal negative (c :: cs)

/-- The conversion `%f`, as the GNU C library does it: white space is skipped, then a
sign is read, then the longest text that can start a number in decimal notation, in
hexadecimal notation, `inf`, `infinity` or `nan`; `strtof` turns the text read into the
nearest `float`.  The text ending before any character is an input failure. -/
def scan_f (input : List Char) : Scanned Binary32 :=
  match input.dropWhile isspace with
  | [] => .input_failure
  | c :: cs => scan_float (decide (c = '-')) (if c = '-' ∨ c = '+' then cs else c :: cs)

/-- The call `sscanf(line, "%lu", &count)` of boxes.c, line 46: the value returned (`-1`
is `EOF`) and the content of `count` after the call, `count` being its content before. -/
def sscanf_count (line : List Char) (count : Nat) : Int × Nat :=
  match scan_lu line with
  | .input_failure => (-1, count)
  | .matching_failure => (0, count)
  | .converted value _ => (1, value)

/-- The call `sscanf(line, "%36s%f%f%f%f%6s\n", id, &rect.x, &rect.y, &rect.w, &rect.h,
color)` of boxes.c, line 73: the value returned and the contents of `rect` and `color`
after the call.  The conversions are done from left to right; the first one that fails
ends the call, which then returns the number of conversions done, or `EOF` when there
is none and the text has ended. -/
def sscanf_rect (line : List Char) (rect : Rect) (color : List Char) :
    Int × Rect × List Char :=
  match scan_s 36 line with
  | .input_failure => (-1, rect, color)
  | .matching_failure => (0, rect, color)
  | .converted _ r1 =>
  match scan_f r1 with
  | .input_failure => (1, rect, color)
  | .matching_failure => (1, rect, color)
  | .converted x r2 =>
  match scan_f r2 with
  | .input_failure => (2, { rect with x := x }, color)
  | .matching_failure => (2, { rect with x := x }, color)
  | .converted y r3 =>
  match scan_f r3 with
  | .input_failure => (3, { rect with x := x, y := y }, color)
  | .matching_failure => (3, { rect with x := x, y := y }, color)
  | .converted w r4 =>
  match scan_f r4 with
  | .input_failure => (4, { rect with x := x, y := y, w := w }, color)
  | .matching_failure => (4, { rect with x := x, y := y, w := w }, color)
  | .converted h r5 =>
  match scan_s 6 r5 with
  | .input_failure => (5, ⟨x, y, w, h⟩, color)
  | .matching_failure => (5, ⟨x, y, w, h⟩, color)
  | .converted c _ => (6, ⟨x, y, w, h⟩, c)

/-! ## Boxes (`game/level/boxes.c`) -/

/-- The constant `BOXES_CAPACITY`. -/
def BOXES_CAPACITY : Nat := 1000

/-- The constant `BOXES_MAX_ID_SIZE`. -/
def BOXES_MAX_ID_SIZE : Nat := 36

/-- The `struct Boxes` without `lt`; the `RigidBodies` it points at are shared with the
level and passed next to it.  The two arrays have `BOXES_CAPACITY` entries, of which the
first `count` are in use. -/
structure Boxes (RigidBodyId Color : Type) where
  body_ids : Nat → RigidBodyId
  body_colors : Nat → Color
  count : Nat

/-- What boxes.c calls but does not define, and the contents of the memory it reads
before writing it.

* `uninit_count` is what `boxes->count` holds when `nth_alloc` returns;
  `uninit_rect i` and `uninit_color i` are what `rect` and `color` hold at the start of
  round `i` of the loop; `uninit_id` and `uninit_body_color` fill the fresh arrays. -/
structure BoxesEnv (RigidBodies RigidBodyId Color : Type) where
  hexstr : List Char → Color
  rigid_bodies_add : RigidBodies → Rect → RigidBodies × RigidBodyId
  rigid_bodies_remove : RigidBodies → RigidBodyId → RigidBodies
  rigid_bodies_hitbox : RigidBodies → RigidBodyId → Rect
  uninit_count : Nat
  uninit_rect : Nat → Rect
  uninit_color : Nat → List Char
  uninit_id : RigidBodyId
  uninit_body_color : Color

/-- How control leaves `create_boxes_from_line_stream`: the program stops or its
behaviour is undefined (failed `trace_assert`, `sscanf` on the `NULL` of an exhausted
stream, a write past the end of `id`), or the function returns `boxes` (`none` is `NULL`)
and leaves the rigid bodies and the stream behind. -/
inductive BoxesOutcome (RigidBodies RigidBodyId Color : Type) where
  | aborted
  | returned (boxes : Option (Boxes RigidBodyId Color)) (rigid_bodies : RigidBodies)
      (line_stream : LineStream)

/-- Whether the conversion `%36s` of boxes.c, line 73, writes past the end of
`char id[BOXES_MAX_ID_SIZE]`: it stores the characters it reads and a terminating zero,
so an id of `BOXES_MAX_ID_SIZE` characters or more needs one byte more than the array
has. -/
def id_overflows (line : List Char) : Bool :=
  match scan_s 36 line with
  | .converted id _ => decide (BOXES_MAX_ID_SIZE ≤ id.length)
  | _ => false

section BoxesCode

variable {RigidBodies RigidBodyId Color : Type}

/-- The loop of `create_boxes_from_line_stream` (boxes.c, lines 67-85): `rounds` rounds
are left to do, the next one being round `i`. -/
def read_boxes (env : BoxesEnv RigidBodies RigidBodyId Color) :
    Nat → Nat → Boxes RigidBodyId Color → RigidBodies → LineStream →
      BoxesOutcome RigidBodies RigidBodyId Color
  | 0, _, boxes, rigid_bodies, line_stream => .returned (some boxes) rigid_bodies line_stream
  | rounds + 1, i, boxes, rigid_bodies, line_stream =>
    match line_stream_next line_stream with
    | none => .aborted
    | some (line, rest) =>
      if id_overflows line then
        .aborted
      else if (sscanf_rect line (env.uninit_rect i) (env.uninit_color i)).1 < 0 then
        .returned none rigid_bodies rest
      else
        read_boxes env rounds (i + 1)
          { boxes with
            body_colors :=
              Function.update boxes.body_colors i
                (env.hexstr (sscanf_rect line (env.uninit_rect i) (env.uninit_color i)).2.2)
            body_ids :=
              Function.update boxes.body_ids i
                (env.rigid_bodies_add rigid_bodies
                  (sscanf_rect line (env.uninit_rect i) (env.uninit_color i)).2.1).2 }
          (env.rigid_bodies_add rigid_bodies
            (sscanf_rect line (env.uninit_rect i) (env.uninit_color i)).2.1).1
          rest

/-- The function `create_boxes_from_line_stream` (boxes.c, lines 28-88). -/
def create_boxes_from_line_stream (env : BoxesEnv RigidBodies RigidBodyId Color)
    (line_stream : LineStream) (rigid_bodies : RigidBodies) :
    BoxesOutcome RigidBodies RigidBodyId Color :=
  match line_stream_next line_stream with
  | none => .aborted
  | some (line, rest) =>
    if (sscanf_count line env.uninit_count).1 = -1 then
      .returned none rigid_bodies rest
    else if (sscanf_count line env.uninit_count).2 < BOXES_CAPACITY then
      read_boxes env (sscanf_count line env.uninit_count).2 0
        { body_ids := fun _ => env.uninit_id
          body_colors := fun _ => env.uninit_body_color
          count := (sscanf_count line env.uninit_count).2 }
        rigid_bodies rest
    else
      .aborted

/-- The inner loop of `boxes_delete_at` (boxes.c, lines 210-212): `rounds` rounds are left
to do, the next one being round `j`. -/
def shift_body_ids (body_ids : Nat → RigidBodyId) : Nat → Nat → Nat → RigidBodyId
  | 0, _ => body_ids
  | rounds + 1, j =>
    shift_body_ids (Function.update body_ids j (body_ids (j + 1))) rounds (j + 1)

/-- The outer loop of `boxes_delete_at` (boxes.c, lines 204-216): `rounds` rounds are left
to do, the next one being round `i`.  `rect_contains_point` of `math/rect.h` is not among
the embedded files and is a parameter. -/
def delete_first_hit (env : BoxesEnv RigidBodies RigidBodyId Color)
    (rect_contains_point : Rect → Vec → Bool) (position : Vec) :
    Nat → Nat → Boxes RigidBodyId Color → RigidBodies →
      Boxes RigidBodyId Color × RigidBodies
  | 0, _, boxes, rigid_bodies => (boxes, rigid_bodies)
  | rounds + 1, i, boxes, rigid_bodies =>
    if rect_contains_point (env.rigid_bodies_hitbox rigid_bodies (boxes.body_ids i)) position
    then
      ({ boxes with
          body_ids := shift_body_ids boxes.body_ids (boxes.count - 1 - i) i
          count := boxes.count - 1 },
        env.rigid_bodies_remove rigid_bodies (boxes.body_ids i))
    else
      delete_first_hit env rect_contains_point position rounds (i + 1) boxes rigid_bodies

/-- The function `boxes_delete_at` (boxes.c, lines 200-219): the value returned, and the
boxes and the rigid bodies after the call. -/
def boxes_delete_at (env : BoxesEnv RigidBodies RigidBodyId Color)
    (rect_contains_point : Rect → Vec → Bool) (boxes : Boxes RigidBodyId Color)
    (rigid_bodies : RigidBodies) (position : Vec) :
    Int × Boxes RigidBodyId Color × RigidBodies :=
  (0, delete_first_hit env rect_contains_point position boxes.count 0 boxes rigid_bodies)

/-- The boxes in use, as `boxes_render` goes through them (boxes.c, lines 106-114): the
first `count` pairs of a body id and a colour. -/
def boxes_pairs (boxes : Boxes RigidBodyId Color) : List (RigidBodyId × Color) :=
  (List.range boxes.count).map (fun i => (boxes.body_ids i, boxes.body_colors i))

end BoxesCode

/-! ## Reachable states, section orders, and a concrete environment -/

/-- The editor states of a running program: the one `create_level_editor` returns, the
ones `create_level_editor_from_file` returns, and every state in which
`level_editor_event` returns from such a state. -/
inductive Reachable {EditField Layer Color : Type} (env : Env EditField Layer Color) :
    LevelEditor EditField Layer → Prop where
  | create : Reachable env (create_level_editor env)
  | load (fs : FileSystem) (file_name : String) (level_editor : LevelEditor EditField Layer) :
      create_level_editor_from_file env fs file_name = some level_editor →
      Reachable env level_editor
  | event (level_editor : LevelEditor EditField Layer) (fs : FileSystem) (event : SDL_Event)
      (camera : Camera) (code : Int) :
      Reachable env level_editor →
      (level_editor_event env level_editor fs event camera).status = .returned code →
      Reachable env (level_editor_event env level_editor fs event camera).level_editor

/-- The layers in the order in which `create_level_editor_from_file` reads their sections
(level_editor.c, lines 190-265). -/
def reader_section_order : List LayerPicker :=
  [.LAYER_PICKER_BACKGROUND, .LAYER_PICKER_PLAYER, .LAYER_PICKER_PLATFORMS,
   .LAYER_PICKER_GOALS, .LAYER_PICKER_LAVA, .LAYER_PICKER_BACK_PLATFORMS,
   .LAYER_PICKER_BOXES, .LAYER_PICKER_LABELS, .LAYER_PICKER_REGIONS]

/-- Modelled from the spec: `n` lines of a newline-delimited text, as one text. -/
def read_lines : Nat → LineStream → Option (List Char × LineStream)
  | 0, line_stream => some ([], line_stream)
  | n + 1, line_stream =>
    match line_stream_next line_stream with
    | none => none
    | some (line, rest) =>
      match read_lines n rest with
      | none => none
      | some (lines, rest2) => some (line ++ lines, rest2)

/-- Modelled from the spec: a layer section that is "a count line, followed by that many
lines" (section 4.3), for the readers of the rect, point and label layers, which are not
among the embedded files.  The layer read is the text of its section. -/
def read_counted_section (line_stream : LineStream) : Option (List Char × LineStream) :=
  match line_stream_next line_stream with
  | none => none
  | some (line, rest) =>
    match scan_lu line with
    | .converted n _ =>
      match read_lines n rest with
      | none => none
      | some (lines, rest2) => some (line ++ lines, rest2)
    | _ => none

/-- Modelled from the spec: the "title line (one line, raw text)" of section 4.3, for the
reader of the metadata, which is not among the embedded files. -/
def read_title (line_stream : LineStream) : Option (List Char × LineStream) :=
  match line_stream_next line_stream with
  | none => none
  | some (line, rest) => some (line.takeWhile (fun c => c ≠ newline), rest)

/-- Modelled from the spec: an environment in which a layer is the text of its section
(one line for the background colour and for the player, a counted section for the other
layers), the edit field is the text typed so far, the script is "every remaining byte
in the stream", the picker and the layers ignore the events, and no write fails.  The
declaration order of `LayerPicker` is the parameter. -/
def text_env (decl : List LayerPicker) : Env String (List Char) (List Char) where
  layer_picker_decl := decl
  hexstr := fun text => text
  create_edit_field := ""
  edit_field_text_input := fun field event =>
    match event with
    | .SDL_TEXTINPUT text => (0, field ++ text)
    | _ => (0, field)
  edit_field_keyboard := fun field _ => (0, field)
  edit_field_as_text := fun field => field
  create_color_picker_from_rgba := fun color => color ++ [newline]
  create_player_layer := fun _ color => "0 0 ".toList ++ color ++ [newline]
  create_rect_layer := ['0', newline]
  create_point_layer := ['0', newline]
  create_label_layer := ['0', newline]
  create_level_metadata_from_line_stream := read_title
  color_picker_read_from_line_stream := line_stream_next
  create_player_layer_from_line_stream := line_stream_next
  create_rect_layer_from_line_stream := read_counted_section
  create_point_layer_from_line_stream := read_counted_section
  create_label_layer_from_line_stream := read_counted_section
  line_stream_collect_until_end := fun line_stream => some line_stream
  layer_picker_event := fun picker _ _ => (0, picker, false)
  layer_event := fun layer _ _ => (0, layer)
  layer_dump_stream := fun layer => (0, layer)
  fopen_fails := fun _ => false
  fprintf_fails := fun _ _ => false

/-- A file system without files. -/
def no_files : FileSystem := fun _ => none

/-- A camera as `create_camera` makes it, on a view port of 800 by 450. -/
def plain_camera : Camera :=
  { debug_mode := false, blackwhite_mode := false, position := vec 0 0, scale := 1,
    view_port := ⟨0, 0, 800, 450⟩ }

/-- A fresh editor of `text_env` to which one platform and one goal have been added and
that has the file name `level.txt`. -/
def sample_editor (decl : List LayerPicker) : LevelEditor String (List Char) :=
  { create_level_editor (text_env decl) with
    platforms_layer := "1\nplatform 0 0 100 20 ff0000\n".toList
    goals_layer := "1\ngoal 50 50 00ff00\n".toList
    file_name := some "level.txt" }

/-- The files after the sample editor has been dumped. -/
def sample_files (decl : List LayerPicker) : FileSystem :=
  (level_editor_dump (text_env decl) (sample_editor decl) no_files).fs

/-- The zoom after a wheel event of amount `y` (level_editor.c, lines 408-415). -/
def wheel_zoom (camera_scale : ℚ) (y : Int) : ℚ :=
  if y > 0 then camera_scale + 1 / 10
  else if y < 0 then fmaxf (1 / 10) (camera_scale - 1 / 10)
  else camera_scale

/-- A sequence of wheel events, given by the amount `y` of every event and the camera
the host passes with it. -/
def wheel_events (ws : List (Int × Camera)) : List (SDL_Event × Camera) :=
  ws.map (fun w => (.SDL_MOUSEWHEEL w.1, w.2))

/-! ## Well-formed rect sections, and concrete surroundings for the boxes -/

/-- A number in plain decimal notation: an optional minus sign, the digits before the
point, and the digits after it (no point is written when there are none). -/
structure Decimal where
  negative : Bool
  int_part : List Char
  frac_part : List Char

/-- The text of a number in decimal notation. -/
def Decimal.text (d : Decimal) : List Char :=
  (if d.negative then ['-'] else []) ++ d.int_part
    ++ (if d.frac_part = [] then [] else '.' :: d.frac_part)

/-- The `float` nearest to the number written. -/
def Decimal.binary32 (d : Decimal) : Binary32 :=
  decimal_binary32 d.negative d.int_part d.frac_part 0

/-- There is a digit before the point, and only digits on both sides of it. -/
def Decimal.WellFormed (d : Decimal) : Prop :=
  d.int_part ≠ [] ∧ (∀ c ∈ d.int_part, c.isDigit = true) ∧
    ∀ c ∈ d.frac_part, c.isDigit = true

/-- The six fields `id x y w h colorHex` of a data line of a rect section. -/
structure BoxLine where
  id : List Char
  x : Decimal
  y : Decimal
  w : Decimal
  h : Decimal
  color : List Char

/-- The text of a data line, without the line feed: the fields, separated by a space. -/
def BoxLine.text (b : BoxLine) : List Char :=
  b.id ++ ' ' :: (b.x.text ++ ' ' :: (b.y.text ++ ' ' :: (b.w.text ++ ' ' ::
    (b.h.text ++ ' ' :: b.color))))

/-- The rectangle of a data line. -/
def BoxLine.rect (b : BoxLine) : Rect :=
  ⟨b.x.binary32, b.y.binary32, b.w.binary32, b.h.binary32⟩

/-- The id and the colour are words of ASCII characters without white space, the id has
at most 36 characters, the colour has at most six, and the four numbers are well
formed. -/
def BoxLine.WellFormed (b : BoxLine) : Prop :=
  b.id ≠ [] ∧ b.id.length ≤ 36 ∧ (∀ c ∈ b.id, isspace c = false) ∧
  b.x.WellFormed ∧ b.y.WellFormed ∧ b.w.WellFormed ∧ b.h.WellFormed ∧
  b.color ≠ [] ∧ b.color.length ≤ 6 ∧ (∀ c ∈ b.color, isspace c = false) ∧
  (∀ c ∈ b.id, c.toNat < 128) ∧ (∀ c ∈ b.color, c.toNat < 128)

/-- The text of a rect section: the count line, written with the digits `count`, and one
line for every entry. -/
def boxes_section (count : List Char) (lines : List BoxLine) : List Char :=
  count ++ newline :: (lines.map (fun b => b.text ++ [newline])).flatten

/-- The rigid bodies after `rigid_bodies_add` has been called for the rectangles of a
list, from the first to the last, and the ids the calls returned. -/
def register_boxes {RigidBodies RigidBodyId Color : Type}
    (env : BoxesEnv RigidBodies RigidBodyId Color) :
    RigidBodies → List Rect → RigidBodies × List RigidBodyId
  | rigid_bodies, [] => (rigid_bodies, [])
  | rigid_bodies, rect :: rects =>
    ((register_boxes env (env.rigid_bodies_add rigid_bodies rect).1 rects).1,
      (env.rigid_bodies_add rigid_bodies rect).2
        :: (register_boxes env (env.rigid_bodies_add rigid_bodies rect).1 rects).2)

/-- An instance for the parameter `rect_contains_point`: the numbers of the rectangle are
finite and the point lies in the closed rectangle. -/
def closed_rect_contains_point (rect : Rect) (point : Vec) : Bool :=
  match rect.x.value, rect.y.value, rect.w.value, rect.h.value with
  | some x, some y, some w, some h =>
    decide (x ≤ point.x ∧ point.x ≤ x + w ∧ y ≤ point.y ∧ point.y ≤ y + h)
  | _, _, _, _ => false

/-- An instance for the parameters of boxes.c: the rigid bodies are the list of their
rectangles, the id of a body is its place in the list, a body that has been removed
leaves its place empty, and a colour is the text it is written with.  Memory that has
not been written holds zeros. -/
def list_boxes_env : BoxesEnv (List (Option Rect)) Nat (List Char) where
  hexstr := fun text => text
  rigid_bodies_add := fun bodies rect => (bodies ++ [some rect], bodies.length)
  rigid_bodies_remove := fun bodies id => bodies.set id none
  rigid_bodies_hitbox := fun bodies id => ((bodies.getD id none).getD ⟨0, 0, 0, 0⟩)
  uninit_count := 0
  uninit_rect := fun _ => ⟨0, 0, 0, 0⟩
  uninit_color := fun _ => []
  uninit_id := 0
  uninit_body_color := []

/-- The environment `text_env` on a host on which every write to a file fails. -/
def full_disk_env (decl : List LayerPicker) : Env String (List Char) (List Char) :=
  { text_env decl with fprintf_fails := fun _ _ => true }

/-- The environment `text_env` on a host on which no file can be opened for writing. -/
def read_only_env (decl : List LayerPicker) : Env String (List Char) (List Char) :=
  { text_env decl with fopen_fails := fun _ => true }

/-- The environment `text_env` on a host on which, as everywhere, the file with the empty
name cannot be opened. -/
def empty_name_env (decl : List LayerPicker) : Env String (List Char) (List Char) :=
  { text_env decl with fopen_fails := fun file_name => decide (file_name = "") }

/-- The two data lines of the section `2`, `A 10 20 30 40 ff0000`, `B 0 0 5 5 00ff00`. -/
def sample_box_lines : List BoxLine :=
  [⟨"A".toList, ⟨false, "10".toList, []⟩, ⟨false, "20".toList, []⟩,
      ⟨false, "30".toList, []⟩, ⟨false, "40".toList, []⟩, "ff0000".toList⟩,
    ⟨"B".toList, ⟨false, "0".toList, []⟩, ⟨false, "0".toList, []⟩,
      ⟨false, "5".toList, []⟩, ⟨false, "5".toList, []⟩, "00ff00".toList⟩]

/-- A data line whose id has 36 characters, the most the spec allows. -/
def long_id_box_line : BoxLine :=
  ⟨List.replicate 36 'a', ⟨false, "10".toList, []⟩, ⟨false, "20".toList, []⟩,
    ⟨false, "30".toList, []⟩, ⟨false, "40".toList, []⟩, "ff0000".toList⟩

/-- The rigid bodies of `list_boxes_env` after the two rectangles of `sample_box_lines`
have been added. -/
def sample_bodies : List (Option Rect) := [some ⟨10, 20, 30, 40⟩, some ⟨0, 0, 5, 5⟩]

/-- The boxes of `sample_box_lines` in `list_boxes_env`: the first one red, the second one
green. -/
def sample_boxes : Boxes Nat (List Char) :=
  { body_ids := fun i => i
    body_colors := fun i => if i = 0 then "ff0000".toList else "00ff00".toList
    count := 2 }

/-! ## The camera and the pan in binary32 -/

/-- The vector of `math/point.h` with its two `float`s. -/
structure Vec_binary32 where
  x : Binary32
  y : Binary32
deriving DecidableEq, Repr

/-- Constructor `vec(x, y)`. -/
def vec_binary32 (x y : Binary32) : Vec_binary32 := ⟨x, y⟩

/-- Component-wise sum `vec_sum`, also what `vec_add` leaves in its first argument. -/
def vec_sum_binary32 (v1 v2 : Vec_binary32) : Vec_binary32 := ⟨v1.x.add v2.x, v1.y.add v2.y⟩

/-- Component-wise difference `vec_sub`. -/
def vec_sub_binary32 (v1 v2 : Vec_binary32) : Vec_binary32 := ⟨v1.x.sub v2.x, v1.y.sub v2.y⟩

/-- Multiplication by a scalar `vec_scala_mult`. -/
def vec_scala_mult_binary32 (v : Vec_binary32) (scalar : Binary32) : Vec_binary32 :=
  ⟨v.x.mul scalar, v.y.mul scalar⟩

/-- Component-wise product `vec_entry_mult`. -/
def vec_entry_mult_binary32 (v1 v2 : Vec_binary32) : Vec_binary32 :=
  ⟨v1.x.mul v2.x, v1.y.mul v2.y⟩

/-- Component-wise quotient `vec_entry_div`. -/
def vec_entry_div_binary32 (v1 v2 : Vec_binary32) : Vec_binary32 :=
  ⟨v1.x.div v2.x, v1.y.div v2.y⟩

/-- What `camera_map_screen` reads of a camera: its position, its scale and the view port
of its renderer. -/
structure Camera_binary32 where
  position : Vec_binary32
  scale : Binary32
  view_port : SDL_Rect
deriving DecidableEq, Repr

/-- The function `effective_ratio` (camera.c, lines 337-344) in binary32; `RATIO_X` is
`16.0f` and `RATIO_Y` is `9.0f`. -/
def effective_ratio_binary32 (view_port : SDL_Rect) : Vec_binary32 :=
  if ((Binary32.of_int view_port.w).div 16).gt ((Binary32.of_int view_port.h).div 9) then
    vec_binary32 16 ((Binary32.of_int view_port.h).div ((Binary32.of_int view_port.w).div 16))
  else
    vec_binary32 ((Binary32.of_int view_port.w).div ((Binary32.of_int view_port.h).div 9)) 9

/-- The function `effective_scale` (camera.c, lines 346-351) in binary32. -/
def effective_scale_binary32 (view_port : SDL_Rect) : Vec_binary32 :=
  vec_entry_div_binary32
    (vec_binary32 (Binary32.of_int view_port.w) (Binary32.of_int view_port.h))
    (vec_scala_mult_binary32 (effective_ratio_binary32 view_port) 50)

/-- The function `camera_map_screen` (camera.c, lines 405-429) in binary32; `-0.5f` is
`Binary32.round true 1 2`. -/
def camera_map_screen_binary32 (camera : Camera_binary32) (x y : Int) : Vec_binary32 :=
  vec_sum_binary32
    (vec_entry_mult_binary32
      (vec_scala_mult_binary32
        (vec_sum_binary32
          (vec_binary32 (Binary32.of_int x) (Binary32.of_int y))
          (vec_binary32
            ((Binary32.of_int camera.view_port.w).mul (Binary32.round true 1 2))
            ((Binary32.of_int camera.view_port.h).mul (Binary32.round true 1 2))))
        ((1 : Binary32).div camera.scale))
      ⟨(1 : Binary32).div (effective_scale_binary32 camera.view_port).x,
        (1 : Binary32).div (effective_scale_binary32 camera.view_port).y⟩)
    camera.position

/-- The amount that the pointer-motion branch of `level_editor_event` (level_editor.c,
lines 429-437) adds to the camera position of a dragging editor, in binary32:
`vec_sub(next_position, prev_position)`.  The sums `x + xrel` and `y + yrel` are those of
the integers. -/
def motion_pan_binary32 (camera : Camera_binary32) (x y xrel yrel : Int) : Vec_binary32 :=
  vec_sub_binary32 (camera_map_screen_binary32 camera x y)
    (camera_map_screen_binary32 camera (x + xrel) (y + yrel))

/-- The camera position of a dragging editor after the pointer-motion branch of
`level_editor_event`, in binary32. -/
def motion_binary32 (camera_position : Vec_binary32) (camera : Camera_binary32)
    (x y xrel yrel : Int) : Vec_binary32 :=
  vec_sum_binary32 camera_position (motion_pan_binary32 camera x y xrel yrel)

/-- A camera at `(0, 0)` with the scale `0.3f` on a view port of 1024 by 768. -/
def zoomed_camera_binary32 : Camera_binary32 :=
  { position := vec_binary32 0 0, scale := Binary32.round false 3 10,
    view_port := ⟨0, 0, 1024, 768⟩ }

/-! ## Lemmas on the editor -/

section EditorLemmas

variable {EditField Layer Color : Type}

theorem layers_set_layer (ed : LevelEditor EditField Layer) (k j : LayerPicker) (l : Layer) :
    layers (set_layer ed k l) j = if j = k then l else layers ed j := by
  cases k <;> cases j <;> simp [layers, set_layer]

theorem set_layer_fields (ed : LevelEditor EditField Layer) (k : LayerPicker) (l : Layer) :
    (set_layer ed k l).state = ed.state ∧
    (set_layer ed k l).file_name = ed.file_name ∧
    (set_layer ed k l).camera_scale = ed.camera_scale ∧
    (set_layer ed k l).camera_position = ed.camera_position ∧
    (set_layer ed k l).drag = ed.drag ∧
    (set_layer ed k l).metadata = ed.metadata ∧
    (set_layer ed k l).supa_script_source = ed.supa_script_source ∧
    (set_layer ed k l).edit_field_filename = ed.edit_field_filename ∧
    (set_layer ed k l).layer_picker = ed.layer_picker := by
  cases k <;> simp [set_layer]

/-- The end of the editing branch returns, and writes nothing but the picker and the
layers. -/
theorem offer_event_fields (env : Env EditField Layer Color) (ed : LevelEditor EditField Layer)
    (fs : FileSystem) (calls : List Call) (event : SDL_Event) (camera : Camera) :
    (∃ code, (offer_event env ed fs calls event camera).status = .returned code) ∧
    (offer_event env ed fs calls event camera).fs = fs ∧
    (offer_event env ed fs calls event camera).level_editor.state = ed.state ∧
    (offer_event env ed fs calls event camera).level_editor.file_name = ed.file_name ∧
    (offer_event env ed fs calls event camera).level_editor.camera_scale = ed.camera_scale ∧
    (offer_event env ed fs calls event camera).level_editor.camera_position
      = ed.camera_position ∧
    (offer_event env ed fs calls event camera).level_editor.drag = ed.drag ∧
    (offer_event env ed fs calls event camera).level_editor.metadata = ed.metadata ∧
    (offer_event env ed fs calls event camera).level_editor.supa_script_source
      = ed.supa_script_source ∧
    (offer_event env ed fs calls event camera).level_editor.edit_field_filename
      = ed.edit_field_filename := by
  unfold offer_event
  simp only
  split_ifs <;> simp [set_layer_fields]

/-- The calls of the end of the editing branch are the calls before it, the call of the
picker and at most one call of a layer. -/
theorem offer_event_calls (env : Env EditField Layer Color) (ed : LevelEditor EditField Layer)
    (fs : FileSystem) (calls : List Call) (event : SDL_Event) (camera : Camera) (c : Call) :
    c ∈ (offer_event env ed fs calls event camera).calls →
      c ∈ calls ∨ c = .layer_picker_event ∨ ∃ k, c = .layer_event k := by
  unfold offer_event
  simp only
  split_ifs <;> (simp; tauto)

theorem offer_event_calls_mono (env : Env EditField Layer Color)
    (ed : LevelEditor EditField Layer) (fs : FileSystem) (calls : List Call)
    (event : SDL_Event) (camera : Camera) (c : Call) (h : c ∈ calls) :
    c ∈ (offer_event env ed fs calls event camera).calls := by
  unfold offer_event
  simp only
  split_ifs <;> simp [h]

theorem level_editor_event_saveas (env : Env EditField Layer Color)
    (ed : LevelEditor EditField Layer) (fs : FileSystem) (event : SDL_Event) (camera : Camera)
    (h : ed.state = .LEVEL_EDITOR_SAVEAS) :
    level_editor_event env ed fs event camera = saveas_switch env ed fs event := by
  simp [level_editor_event, h]

theorem level_editor_event_editing_aborted (env : Env EditField Layer Color)
    (ed : LevelEditor EditField Layer) (fs : FileSystem) (event : SDL_Event) (camera : Camera)
    (h : ed.state = .LEVEL_EDITOR_EDITING)
    (ha : (editing_switch env ed fs event camera).status = .aborted) :
    level_editor_event env ed fs event camera = editing_switch env ed fs event camera := by
  simp [level_editor_event, h, ha]

theorem level_editor_event_editing_returned (env : Env EditField Layer Color)
    (ed : LevelEditor EditField Layer) (fs : FileSystem) (event : SDL_Event) (camera : Camera)
    (code : Int) (h : ed.state = .LEVEL_EDITOR_EDITING)
    (ha : (editing_switch env ed fs event camera).status = .returned code) :
    level_editor_event env ed fs event camera =
      offer_event env (editing_switch env ed fs event camera).level_editor
        (editing_switch env ed fs event camera).fs
        (editing_switch env ed fs event camera).calls event camera := by
  simp [level_editor_event, h, ha]

/-- What it takes for `create_level_editor_from_file` to return an editor: the file
exists, every section is read from what the sections before it left, and the other
fields have their initial values. -/
theorem load_eq_some (env : Env EditField Layer Color) (fs : FileSystem)
    (file_name : String) (ed : LevelEditor EditField Layer) :
    create_level_editor_from_file env fs file_name = some ed ↔
    ∃ text s1 s2 s3 s4 s5 s6 s7 s8 s9 s10,
      fs file_name = some text ∧
      env.create_level_metadata_from_line_stream text = some (ed.metadata, s1) ∧
      env.color_picker_read_from_line_stream s1 = some (ed.background_layer, s2) ∧
      env.create_player_layer_from_line_stream s2 = some (ed.player_layer, s3) ∧
      env.create_rect_layer_from_line_stream s3 = some (ed.platforms_layer, s4) ∧
      env.create_point_layer_from_line_stream s4 = some (ed.goals_layer, s5) ∧
      env.create_rect_layer_from_line_stream s5 = some (ed.lava_layer, s6) ∧
      env.create_rect_layer_from_line_stream s6 = some (ed.back_platforms_layer, s7) ∧
      env.create_rect_layer_from_line_stream s7 = some (ed.boxes_layer, s8) ∧
      env.create_label_layer_from_line_stream s8 = some (ed.label_layer, s9) ∧
      env.create_rect_layer_from_line_stream s9 = some (ed.regions_layer, s10) ∧
      env.line_stream_collect_until_end s10 = some ed.supa_script_source ∧
      ed.edit_field_filename = env.create_edit_field ∧
      ed.layer_picker = env.layer_picker_decl.headD .LAYER_PICKER_BOXES ∧
      ed.state = .LEVEL_EDITOR_EDITING ∧
      ed.file_name = some file_name ∧
      ed.camera_scale = 0 ∧
      ed.camera_position = vec 0 0 ∧
      ed.drag = false := by
  constructor
  · intro h
    unfold create_level_editor_from_file create_line_stream at h
    rcases h0 : fs file_name with _ | text
    · simp [h0] at h
    simp only [h0] at h
    rcases h1 : env.create_level_metadata_from_line_stream text with _ | ⟨m, s1⟩
    · simp [h1] at h
    simp only [h1] at h
    rcases h2 : env.color_picker_read_from_line_stream s1 with _ | ⟨l1, s2⟩
    · simp [h2] at h
    simp only [h2] at h
    rcases h3 : env.create_player_layer_from_line_stream s2 with _ | ⟨l2, s3⟩
    · simp [h3] at h
    simp only [h3] at h
    rcases h4 : env.create_rect_layer_from_line_stream s3 with _ | ⟨l3, s4⟩
    · simp [h4] at h
    simp only [h4] at h
    rcases h5 : env.create_point_layer_from_line_stream s4 with _ | ⟨l4, s5⟩
    · simp [h5] at h
    simp only [h5] at h
    rcases h6 : env.create_rect_layer_from_line_stream s5 with _ | ⟨l5, s6⟩
    · simp [h6] at h
    simp only [h6] at h
    rcases h7 : env.create_rect_layer_from_line_stream s6 with _ | ⟨l6, s7⟩
    · simp [h7] at h
    simp only [h7] at h
    rcases h8 : env.create_rect_layer_from_line_stream s7 with _ | ⟨l7, s8⟩
    · simp [h8] at h
    simp only [h8] at h
    rcases h9 : env.create_label_layer_from_line_stream s8 with _ | ⟨l8, s9⟩
    · simp [h9] at h
    simp only [h9] at h
    rcases h10 : env.create_rect_layer_from_line_stream s9 with _ | ⟨l9, s10⟩
    · simp [h10] at h
    simp only [h10] at h
    rcases h11 : env.line_stream_collect_until_end s10 with _ | script
    · simp [h11] at h
    simp only [h11] at h
    simp only [Option.some.injEq] at h
    subst h
    exact ⟨text, s1, s2, s3, s4, s5, s6, s7, s8, s9, s10, rfl, h1, h2, h3, h4, h5, h6, h7, h8,
      h9, h10, h11, rfl, rfl, rfl, rfl, rfl, rfl, rfl⟩
  · rintro ⟨text, s1, s2, s3, s4, s5, s6, s7, s8, s9, s10, h0, h1, h2, h3, h4, h5, h6, h7, h8,
      h9, h10, h11, e1, e2, e3, e4, e5, e6, e7⟩
    unfold create_level_editor_from_file create_line_stream
    simp only [h0, h1, h2, h3, h4, h5, h6, h7, h8, h9, h10, h11]
    cases ed
    simp_all

/-- The `switch` of the editing branch writes neither the layers, the picker, the title,
the script, the edit field nor the file name. -/
theorem editing_switch_fields (env : Env EditField Layer Color)
    (ed : LevelEditor EditField Layer) (fs : FileSystem) (event : SDL_Event) (camera : Camera) :
    (∀ k, layers (editing_switch env ed fs event camera).level_editor k = layers ed k) ∧
    (editing_switch env ed fs event camera).level_editor.layer_picker = ed.layer_picker ∧
    (editing_switch env ed fs event camera).level_editor.metadata = ed.metadata ∧
    (editing_switch env ed fs event camera).level_editor.supa_script_source
      = ed.supa_script_source ∧
    (editing_switch env ed fs event camera).level_editor.edit_field_filename
      = ed.edit_field_filename ∧
    (editing_switch env ed fs event camera).level_editor.file_name = ed.file_name := by
  refine ⟨fun k => ?_, ?_, ?_, ?_, ?_, ?_⟩
  · cases k <;> cases event <;> simp only [editing_switch, layers] <;>
      (repeat' split) <;> rfl
  all_goals
    cases event <;> simp only [editing_switch] <;> (repeat' split) <;> rfl

/-- The `switch` of the save-as branch writes nothing but the edit field, the file name
and the state, and calls neither the picker nor a layer. -/
theorem saveas_switch_fields (env : Env EditField Layer Color)
    (ed : LevelEditor EditField Layer) (fs : FileSystem) (event : SDL_Event) :
    (∀ k, layers (saveas_switch env ed fs event).level_editor k = layers ed k) ∧
    (saveas_switch env ed fs event).level_editor.layer_picker = ed.layer_picker ∧
    (saveas_switch env ed fs event).level_editor.metadata = ed.metadata ∧
    (saveas_switch env ed fs event).level_editor.supa_script_source = ed.supa_script_source ∧
    (saveas_switch env ed fs event).level_editor.camera_position = ed.camera_position ∧
    (saveas_switch env ed fs event).level_editor.camera_scale = ed.camera_scale ∧
    (saveas_switch env ed fs event).level_editor.drag = ed.drag ∧
    Call.layer_picker_event ∉ (saveas_switch env ed fs event).calls ∧
    (∀ k, Call.layer_event k ∉ (saveas_switch env ed fs event).calls) := by
  refine ⟨fun k => ?_, ?_, ?_, ?_, ?_, ?_, ?_, ?_, fun k => ?_⟩
  · cases k <;> cases event <;> simp only [saveas_switch, saveas_key, layers] <;>
      (repeat' split) <;> rfl
  all_goals
    cases event <;> simp only [saveas_switch, saveas_key] <;> (repeat' split) <;>
      first | rfl | simp

/-- The file name, once set, survives every event (in memory, also when the program
stops inside the event). -/
theorem event_keeps_file_name (env : Env EditField Layer Color)
    (ed : LevelEditor EditField Layer) (fs : FileSystem) (event : SDL_Event) (camera : Camera)
    (p : String) (h : ed.file_name = some p) :
    (level_editor_event env ed fs event camera).level_editor.file_name = some p := by
  cases hs : ed.state with
  | LEVEL_EDITOR_SAVEAS =>
    rw [level_editor_event_saveas env ed fs event camera hs]
    cases event <;> simp only [saveas_switch, saveas_key, h] <;> (repeat' split) <;>
      first | exact h | simp_all
  | LEVEL_EDITOR_EDITING =>
    cases ha : (editing_switch env ed fs event camera).status with
    | aborted =>
      rw [level_editor_event_editing_aborted env ed fs event camera hs ha,
        (editing_switch_fields env ed fs event camera).2.2.2.2.2, h]
    | returned code =>
      rw [level_editor_event_editing_returned env ed fs event camera code hs ha,
        (offer_event_fields env _ _ _ event camera).2.2.2.1,
        (editing_switch_fields env ed fs event camera).2.2.2.2.2, h]

/-- A key-down of `s` in the editing state without file name leads to the save-as
state; every other event in the editing state keeps the state. -/
theorem editing_switch_state (env : Env EditField Layer Color)
    (ed : LevelEditor EditField Layer) (fs : FileSystem) (event : SDL_Event) (camera : Camera) :
    (editing_switch env ed fs event camera).level_editor.state =
      if event = .SDL_KEYDOWN SDLK_s ∧ ed.file_name = none then .LEVEL_EDITOR_SAVEAS
      else ed.state := by
  cases event <;> simp only [editing_switch] <;> (repeat' split) <;> simp_all

/-- The states in which the program is in the save-as state never have a file name. -/
theorem reachable_saveas_file_name (env : Env EditField Layer Color)
    (ed : LevelEditor EditField Layer) (hr : Reachable env ed)
    (hs : ed.state = .LEVEL_EDITOR_SAVEAS) : ed.file_name = none := by
  induction hr with
  | create => simp [create_level_editor] at hs
  | load fs file_name ed h =>
    obtain ⟨_, _, _, _, _, _, _, _, _, _, _, _, _, _, _, _, _, _, _, _, _, _, _, _, _, he, _⟩ :=
      (load_eq_some env fs file_name ed).1 h
    rw [he] at hs
    exact absurd hs (by simp)
  | event ed fs event camera code _ hret ih =>
    cases hst : ed.state with
    | LEVEL_EDITOR_SAVEAS =>
      have hnone := ih hst
      rw [level_editor_event_saveas env ed fs event camera hst] at hret hs ⊢
      revert hret hs
      cases event <;> simp only [saveas_switch, saveas_key, hnone] <;> (repeat' split) <;>
        simp_all
    | LEVEL_EDITOR_EDITING =>
      cases ha : (editing_switch env ed fs event camera).status with
      | aborted =>
        rw [level_editor_event_editing_aborted env ed fs event camera hst ha] at hret
        rw [ha] at hret
        exact absurd hret (by simp)
      | returned c =>
        rw [level_editor_event_editing_returned env ed fs event camera c hst ha] at hs ⊢
        rw [(offer_event_fields env _ _ _ event camera).2.2.1, editing_switch_state] at hs
        rw [(offer_event_fields env _ _ _ event camera).2.2.2.1,
          (editing_switch_fields env ed fs event camera).2.2.2.2.2]
        by_cases hc : event = .SDL_KEYDOWN SDLK_s ∧ ed.file_name = none
        · exact hc.2
        · rw [if_neg hc, hst] at hs
          exact absurd hs (by simp)

/-- The Return key in a save-as state without file name, when the file can be opened. -/
theorem saveas_key_return (env : Env EditField Layer Color)
    (ed : LevelEditor EditField Layer) (fs : FileSystem) (event : SDL_Event)
    (hn : ed.file_name = none)
    (hopen : env.fopen_fails (env.edit_field_as_text ed.edit_field_filename) = false) :
    saveas_key env ed fs event SDLK_RETURN =
      ⟨.returned 0,
        { ed with
          file_name := some (env.edit_field_as_text ed.edit_field_filename)
          state := .LEVEL_EDITOR_EDITING },
        (level_editor_dump env
          { ed with file_name := some (env.edit_field_as_text ed.edit_field_filename) } fs).fs,
        [.level_editor_dump (some (env.edit_field_as_text ed.edit_field_filename)),
          .SDL_StopTextInput]⟩ := by
  have hst : ∃ code, (level_editor_dump env
      { ed with file_name := some (env.edit_field_as_text ed.edit_field_filename) }
      fs).status = .returned code := by
    simp only [level_editor_dump, hopen]
    simp only [Bool.false_eq_true, if_false]
    split_ifs <;> simp
  obtain ⟨code, hcode⟩ := hst
  simp only [saveas_key, hn, if_true, hcode]

/-- The save key in an editing state without file name: the event returns, writes no
file and leaves the edit field alone. -/
theorem save_key_without_file_name (env : Env EditField Layer Color)
    (ed : LevelEditor EditField Layer) (fs : FileSystem) (camera : Camera)
    (h : ed.state = .LEVEL_EDITOR_EDITING) (hn : ed.file_name = none) :
    (∃ code, (level_editor_event env ed fs (.SDL_KEYDOWN SDLK_s) camera).status
      = .returned code) ∧
    (∀ f, Call.level_editor_dump f
      ∉ (level_editor_event env ed fs (.SDL_KEYDOWN SDLK_s) camera).calls) ∧
    (level_editor_event env ed fs (.SDL_KEYDOWN SDLK_s) camera).fs = fs ∧
    (level_editor_event env ed fs (.SDL_KEYDOWN SDLK_s) camera).level_editor.file_name
      = none ∧
    (level_editor_event env ed fs (.SDL_KEYDOWN SDLK_s) camera).level_editor.state
      = .LEVEL_EDITOR_SAVEAS ∧
    (level_editor_event env ed fs (.SDL_KEYDOWN SDLK_s) camera).level_editor.edit_field_filename
      = ed.edit_field_filename := by
  have hsw : editing_switch env ed fs (.SDL_KEYDOWN SDLK_s) camera
      = ⟨.returned 0, { ed with state := .LEVEL_EDITOR_SAVEAS }, fs,
          [.SDL_StartTextInput]⟩ := by
    simp [editing_switch, hn]
  rw [level_editor_event_editing_returned env ed fs _ camera 0 h (by rw [hsw]), hsw]
  obtain ⟨h1, h2, h3, h4, _, _, _, _, _, h10⟩ := offer_event_fields env
    { ed with state := .LEVEL_EDITOR_SAVEAS } fs [.SDL_StartTextInput]
    (.SDL_KEYDOWN SDLK_s) camera
  refine ⟨h1, fun f hf => ?_, h2, by rw [h4]; exact hn, by rw [h3], by rw [h10]⟩
  rcases offer_event_calls env _ _ _ _ _ _ hf with h1 | h1 | ⟨k, h1⟩ <;> simp at h1

theorem level_editor_events_cons (env : Env EditField Layer Color)
    (ed : LevelEditor EditField Layer) (fs : FileSystem) (event : SDL_Event) (camera : Camera)
    (rest : List (SDL_Event × Camera)) (code : Int)
    (h : (level_editor_event env ed fs event camera).status = .returned code) :
    level_editor_events env ed fs ((event, camera) :: rest) =
      level_editor_events env (level_editor_event env ed fs event camera).level_editor
        (level_editor_event env ed fs event camera).fs rest := by
  simp [level_editor_events, h]

/-- Once the program has stopped or the events have been used up, the rest of a sequence
of events starts from the state the first `n` events have led to. -/
theorem level_editor_events_take (env : Env EditField Layer Color) (n : Nat) :
    ∀ (events : List (SDL_Event × Camera)) (ed : LevelEditor EditField Layer)
      (fs : FileSystem),
      ∃ tail, level_editor_events env ed fs events =
        level_editor_events env (level_editor_events env ed fs (events.take n)).1
          (level_editor_events env ed fs (events.take n)).2 tail := by
  induction n with
  | zero => intro events ed fs; exact ⟨events, by simp [level_editor_events]⟩
  | succ n ih =>
    intro events ed fs
    cases events with
    | nil => exact ⟨[], by simp [level_editor_events]⟩
    | cons e rest =>
      obtain ⟨event, camera⟩ := e
      cases hst : (level_editor_event env ed fs event camera).status with
      | aborted => exact ⟨[], by simp [level_editor_events, hst]⟩
      | returned code =>
        obtain ⟨tail, ht⟩ := ih rest (level_editor_event env ed fs event camera).level_editor
          (level_editor_event env ed fs event camera).fs
        exact ⟨tail, by simp only [List.take_succ_cons, level_editor_events, hst]; exact ht⟩

theorem events_keep_file_name (env : Env EditField Layer Color) (p : String) :
    ∀ (events : List (SDL_Event × Camera)) (ed : LevelEditor EditField Layer)
      (fs : FileSystem), ed.file_name = some p →
      (level_editor_events env ed fs events).1.file_name = some p := by
  intro events
  induction events with
  | nil => intro ed fs h; simpa [level_editor_events] using h
  | cons e rest ih =>
    intro ed fs h
    obtain ⟨event, camera⟩ := e
    have hk := event_keeps_file_name env ed fs event camera p h
    cases hst : (level_editor_event env ed fs event camera).status with
    | aborted => simpa [level_editor_events, hst] using hk
    | returned code =>
      simp only [level_editor_events, hst]
      exact ih _ _ hk

theorem fmaxf_eq_max (a b : ℚ) : fmaxf a b = max a b := by
  unfold fmaxf
  split_ifs with h
  · exact (max_eq_right h.le).symm
  · exact (max_eq_left (not_lt.1 h)).symm

/-- A wheel event returns, keeps the state, and changes the zoom in the editing state
only. -/
theorem wheel_event (env : Env EditField Layer Color) (ed : LevelEditor EditField Layer)
    (fs : FileSystem) (y : Int) (camera : Camera) :
    (∃ code, (level_editor_event env ed fs (.SDL_MOUSEWHEEL y) camera).status
      = .returned code) ∧
    (level_editor_event env ed fs (.SDL_MOUSEWHEEL y) camera).level_editor.state = ed.state ∧
    (level_editor_event env ed fs (.SDL_MOUSEWHEEL y) camera).level_editor.camera_scale =
      if ed.state = .LEVEL_EDITOR_EDITING then wheel_zoom ed.camera_scale y
      else ed.camera_scale := by
  cases hs : ed.state with
  | LEVEL_EDITOR_SAVEAS =>
    rw [level_editor_event_saveas env ed fs _ camera hs]
    simp [saveas_switch, hs]
  | LEVEL_EDITOR_EDITING =>
    have hsw : editing_switch env ed fs (.SDL_MOUSEWHEEL y) camera
        = ⟨.returned 0, { ed with camera_scale := wheel_zoom ed.camera_scale y }, fs, []⟩ := by
      simp only [editing_switch, wheel_zoom]
      split_ifs <;> rfl
    rw [level_editor_event_editing_returned env ed fs _ camera 0 hs (by rw [hsw]), hsw]
    obtain ⟨h1, _, h3, _, h5, _⟩ := offer_event_fields env
      { ed with camera_scale := wheel_zoom ed.camera_scale y } fs [] (.SDL_MOUSEWHEEL y) camera
    exact ⟨h1, by rw [h3]; exact hs, by rw [h5]; simp⟩

theorem wheel_zoom_floor (z : ℚ) (y : Int) (h : 1 / 10 ≤ z) : 1 / 10 ≤ wheel_zoom z y := by
  unfold wheel_zoom
  split_ifs
  · linarith
  · rw [fmaxf_eq_max]; exact le_max_left _ _
  · exact h

/-- The zoom after a sequence of wheel events in the editing state. -/
theorem wheel_events_zoom (env : Env EditField Layer Color) :
    ∀ (ws : List (Int × Camera)) (ed : LevelEditor EditField Layer) (fs : FileSystem),
      ed.state = .LEVEL_EDITOR_EDITING →
      (level_editor_events env ed fs (wheel_events ws)).1.camera_scale
        = (ws.map Prod.fst).foldl wheel_zoom ed.camera_scale := by
  intro ws
  induction ws with
  | nil => intro ed fs _; simp [wheel_events, level_editor_events]
  | cons w rest ih =>
    intro ed fs hs
    obtain ⟨⟨code, h1⟩, h2, h3⟩ := wheel_event env ed fs w.1 w.2
    have := ih _ (level_editor_event env ed fs (.SDL_MOUSEWHEEL w.1) w.2).fs (h2.trans hs)
    simp only [wheel_events, List.map_cons, level_editor_events, h1] at this ⊢
    rw [this, h3, if_pos hs]
    simp

theorem wheel_events_floor (env : Env EditField Layer Color) :
    ∀ (ws : List (Int × Camera)) (ed : LevelEditor EditField Layer) (fs : FileSystem),
      1 / 10 ≤ ed.camera_scale →
      1 / 10 ≤ (level_editor_events env ed fs (wheel_events ws)).1.camera_scale := by
  intro ws
  induction ws with
  | nil => intro ed fs h; simpa [wheel_events, level_editor_events] using h
  | cons w rest ih =>
    intro ed fs h
    obtain ⟨⟨code, h1⟩, _, h3⟩ := wheel_event env ed fs w.1 w.2
    have := ih (level_editor_event env ed fs (.SDL_MOUSEWHEEL w.1) w.2).level_editor
      (level_editor_event env ed fs (.SDL_MOUSEWHEEL w.1) w.2).fs
      (by rw [h3]; split_ifs; exacts [wheel_zoom_floor _ _ h, h])
    simpa only [wheel_events, List.map_cons, level_editor_events, h1] using this

/-- The `switch` of the editing branch changes the zoom on wheel events only. -/
theorem editing_switch_zoom (env : Env EditField Layer Color)
    (ed : LevelEditor EditField Layer) (fs : FileSystem) (event : SDL_Event) (camera : Camera) :
    (editing_switch env ed fs event camera).level_editor.camera_scale = ed.camera_scale ∨
    ∃ y, (editing_switch env ed fs event camera).level_editor.camera_scale
      = wheel_zoom ed.camera_scale y := by
  cases event with
  | SDL_MOUSEWHEEL y =>
    right
    refine ⟨y, ?_⟩
    simp only [editing_switch, wheel_zoom]
    split_ifs <;> rfl
  | _ =>
    left
    simp only [editing_switch] <;> (repeat' split) <;> rfl

/-- A positive zoom stays positive through every event. -/
theorem event_keeps_zoom_positive (env : Env EditField Layer Color)
    (ed : LevelEditor EditField Layer) (fs : FileSystem) (event : SDL_Event) (camera : Camera)
    (h : 0 < ed.camera_scale) :
    0 < (level_editor_event env ed fs event camera).level_editor.camera_scale := by
  have hz : 0 < (editing_switch env ed fs event camera).level_editor.camera_scale := by
    rcases editing_switch_zoom env ed fs event camera with h1 | ⟨y, h1⟩
    · rw [h1]; exact h
    · rw [h1]
      unfold wheel_zoom
      split_ifs
      · linarith
      · rw [fmaxf_eq_max]; exact lt_of_lt_of_le (by norm_num) (le_max_left _ _)
      · exact h
  cases hs : ed.state with
  | LEVEL_EDITOR_SAVEAS =>
    rw [level_editor_event_saveas env ed fs event camera hs,
      (saveas_switch_fields env ed fs event).2.2.2.2.2.1]
    exact h
  | LEVEL_EDITOR_EDITING =>
    cases ha : (editing_switch env ed fs event camera).status with
    | aborted =>
      rw [level_editor_event_editing_aborted env ed fs event camera hs ha]
      exact hz
    | returned code =>
      rw [level_editor_event_editing_returned env ed fs event camera code hs ha,
        (offer_event_fields env _ _ _ event camera).2.2.2.2.1]
      exact hz

/-- A line that ends with the line feed is handed out whole. -/
theorem line_stream_next_line (rest : List Char) :
    ∀ line : List Char, newline ∉ line →
      line_stream_next (line ++ newline :: rest) = some (line ++ [newline], rest) := by
  intro line
  induction line with
  | nil => intro _; simp [line_stream_next]
  | cons c cs ih =>
    intro h
    have hc : c ≠ newline := fun e => h (by simp [e])
    have hcs : newline ∉ cs := fun e => h (List.mem_cons_of_mem _ e)
    simp [line_stream_next, hc, ih hcs]

/-- On a view port with positive sides both components of `effective_scale` are the
larger of `w / 800` and `h / 450`. -/
theorem effective_scale_eq (view_port : SDL_Rect) (hw : 0 < view_port.w)
    (hh : 0 < view_port.h) :
    (effective_scale view_port).x = max ((view_port.w : ℚ) / 800) ((view_port.h : ℚ) / 450) ∧
    (effective_scale view_port).y = max ((view_port.w : ℚ) / 800) ((view_port.h : ℚ) / 450) := by
  have hw' : (0 : ℚ) < view_port.w := by exact_mod_cast hw
  have hh' : (0 : ℚ) < view_port.h := by exact_mod_cast hh
  unfold effective_scale effective_ratio
  by_cases hc : (view_port.w : ℚ) / RATIO_X > (view_port.h : ℚ) / RATIO_Y
  · rw [if_pos hc]
    have hmax : max ((view_port.w : ℚ) / 800) ((view_port.h : ℚ) / 450)
        = (view_port.w : ℚ) / 800 := by
      apply max_eq_left
      unfold RATIO_X RATIO_Y at hc
      rw [gt_iff_lt, div_lt_div_iff₀ (by norm_num) (by norm_num)] at hc
      rw [div_le_div_iff₀ (by norm_num) (by norm_num)]
      linarith
    rw [hmax]
    simp only [vec_entry_div, vec_scala_mult, vec, RATIO_X]
    constructor
    · field_simp; left; norm_num
    · field_simp; ring
  · rw [if_neg hc]
    have hmax : max ((view_port.w : ℚ) / 800) ((view_port.h : ℚ) / 450)
        = (view_port.h : ℚ) / 450 := by
      apply max_eq_right
      unfold RATIO_X RATIO_Y at hc
      rw [gt_iff_lt, not_lt, div_le_div_iff₀ (by norm_num) (by norm_num)] at hc
      rw [div_le_div_iff₀ (by norm_num) (by norm_num)]
      linarith
    rw [hmax]
    simp only [vec_entry_div, vec_scala_mult, vec, RATIO_Y]
    constructor
    · field_simp; ring
    · field_simp; left; norm_num

theorem effective_scale_pos (view_port : SDL_Rect) (hw : 0 < view_port.w)
    (hh : 0 < view_port.h) :
    0 < (effective_scale view_port).x ∧ 0 < (effective_scale view_port).y := by
  have hw' : (0 : ℚ) < view_port.w := by exact_mod_cast hw
  obtain ⟨hx, hy⟩ := effective_scale_eq view_port hw hh
  rw [hx, hy]
  have : (0 : ℚ) < max ((view_port.w : ℚ) / 800) ((view_port.h : ℚ) / 450) :=
    lt_of_lt_of_le (by positivity) (le_max_left _ _)
  exact ⟨this, this⟩

/-- A pointer-motion event in the editing state returns and moves the camera offset when
the editor drags, by the difference the source computes. -/
theorem motion_event (env : Env EditField Layer Color) (ed : LevelEditor EditField Layer)
    (fs : FileSystem) (x y xrel yrel : Int) (camera : Camera)
    (hs : ed.state = .LEVEL_EDITOR_EDITING) :
    (level_editor_event env ed fs (.SDL_MOUSEMOTION x y xrel yrel) camera).level_editor.camera_position
      = if ed.drag then
          vec_sum ed.camera_position
            (vec_sub (camera_map_screen camera x y)
              (camera_map_screen camera (x + xrel) (y + yrel)))
        else ed.camera_position := by
  have hsw : editing_switch env ed fs (.SDL_MOUSEMOTION x y xrel yrel) camera
      = ⟨.returned 0,
          { ed with camera_position :=
              (if ed.drag then
                vec_sum ed.camera_position
                  (vec_sub (camera_map_screen camera x y)
                    (camera_map_screen camera (x + xrel) (y + yrel)))
              else ed.camera_position) }, fs, []⟩ := by
    simp only [editing_switch]
    split_ifs <;> rfl
  rw [level_editor_event_editing_returned env ed fs _ camera 0 hs (by rw [hsw]), hsw,
    (offer_event_fields env _ _ _ _ camera).2.2.2.2.2.1]

/-- The difference of two values of `camera_map_screen`. -/
theorem camera_map_screen_sub (camera : Camera) (x1 y1 x2 y2 : Int) :
    vec_sub (camera_map_screen camera x1 y1) (camera_map_screen camera x2 y2)
      = vec (((x1 : ℚ) - x2) * (1 / camera.scale) * (1 / (effective_scale camera.view_port).x))
          (((y1 : ℚ) - y2) * (1 / camera.scale) * (1 / (effective_scale camera.view_port).y)) := by
  simp only [camera_map_screen, vec_sub, vec_sum, vec_entry_mult, vec_scala_mult, vec,
    Vec.mk.injEq]
  constructor <;> ring

/-- The program stops inside `level_editor_dump` only when the file cannot be opened. -/
theorem level_editor_dump_aborted (env : Env EditField Layer Color)
    (ed : LevelEditor EditField Layer) (fs : FileSystem) (p : String)
    (hn : ed.file_name = some p) (ha : (level_editor_dump env ed fs).status = .aborted) :
    env.fopen_fails p = true := by
  by_contra hopen
  simp only [level_editor_dump, hn, hopen, Bool.false_eq_true, if_false] at ha
  split_ifs at ha

/-- The calls of `level_editor_dump` that an event makes are made with a file name, and
when the program stops inside the event of a state of the running program, it does so in
such a call, the file of which cannot be opened. -/
theorem event_dump_calls (env : Env EditField Layer Color) (ed : LevelEditor EditField Layer)
    (fs : FileSystem) (event : SDL_Event) (camera : Camera) :
    (∀ f, Call.level_editor_dump f ∈ (level_editor_event env ed fs event camera).calls →
      ∃ p, f = some p) ∧
    ((ed.state = .LEVEL_EDITOR_SAVEAS → ed.file_name = none) →
      (level_editor_event env ed fs event camera).status = .aborted →
      ∃ p, Call.level_editor_dump (some p) ∈ (level_editor_event env ed fs event camera).calls ∧
        env.fopen_fails p = true) := by
  cases hs : ed.state with
  | LEVEL_EDITOR_SAVEAS =>
    rw [level_editor_event_saveas env ed fs event camera hs]
    constructor
    · intro f
      cases event <;> simp only [saveas_switch, saveas_key] <;> (repeat' split) <;>
        simp_all
    · intro hinv
      have hn := hinv rfl
      cases event <;> simp only [saveas_switch, saveas_key, hn] <;> (repeat' split) <;>
        first
          | (intro h; simp at h; done)
          | (intro hab
             rename_i hd
             exact ⟨_, by simp, level_editor_dump_aborted env _ fs _ rfl hd⟩)
  | LEVEL_EDITOR_EDITING =>
    have hsw : (∀ f, Call.level_editor_dump f ∈ (editing_switch env ed fs event camera).calls →
          ∃ p, f = some p) ∧
        ((editing_switch env ed fs event camera).status = .aborted →
          ∃ p, Call.level_editor_dump (some p)
              ∈ (editing_switch env ed fs event camera).calls ∧
            env.fopen_fails p = true) := by
      constructor
      · intro f
        cases event <;> simp only [editing_switch] <;> (repeat' split) <;> simp_all
      · cases event <;> simp only [editing_switch] <;> (repeat' split) <;>
          first
            | (intro h; simp at h; done)
            | (intro hab
               rename_i hn _ hd
               exact ⟨_, by simp [hn], level_editor_dump_aborted env _ fs _ hn hd⟩)
    cases ha : (editing_switch env ed fs event camera).status with
    | aborted =>
      rw [level_editor_event_editing_aborted env ed fs event camera hs ha]
      exact ⟨hsw.1, fun _ _ => hsw.2 ha⟩
    | returned code =>
      rw [level_editor_event_editing_returned env ed fs event camera code hs ha]
      constructor
      · intro f hf
        rcases offer_event_calls env _ _ _ _ _ _ hf with h | h | ⟨k, h⟩
        · exact hsw.1 f h
        · exact absurd h (by simp)
        · exact absurd h (by simp)
      · intro _ hab
        obtain ⟨c, hc⟩ := (offer_event_fields env
          (editing_switch env ed fs event camera).level_editor
          (editing_switch env ed fs event camera).fs
          (editing_switch env ed fs event camera).calls event camera).1
        rw [hc] at hab
        exact absurd hab (by simp)

/-- An editor with a file name stays in the editing state through every event. -/
theorem event_keeps_editing (env : Env EditField Layer Color)
    (ed : LevelEditor EditField Layer) (fs : FileSystem) (event : SDL_Event) (camera : Camera)
    (p : String) (hs : ed.state = .LEVEL_EDITOR_EDITING) (hn : ed.file_name = some p) :
    (level_editor_event env ed fs event camera).level_editor.state = .LEVEL_EDITOR_EDITING := by
  have hsw := editing_switch_state env ed fs event camera
  rw [if_neg (by rw [hn]; simp), hs] at hsw
  cases ha : (editing_switch env ed fs event camera).status with
  | aborted => rw [level_editor_event_editing_aborted env ed fs event camera hs ha, hsw]
  | returned code =>
    rw [level_editor_event_editing_returned env ed fs event camera code hs ha,
      (offer_event_fields env _ _ _ event camera).2.2.1, hsw]

theorem events_keep_editing (env : Env EditField Layer Color) (p : String) :
    ∀ (events : List (SDL_Event × Camera)) (ed : LevelEditor EditField Layer)
      (fs : FileSystem), ed.state = .LEVEL_EDITOR_EDITING → ed.file_name = some p →
      (level_editor_events env ed fs events).1.state = .LEVEL_EDITOR_EDITING := by
  intro events
  induction events with
  | nil => intro ed fs hs _; simpa [level_editor_events] using hs
  | cons e rest ih =>
    intro ed fs hs hn
    obtain ⟨event, camera⟩ := e
    have h1 := event_keeps_editing env ed fs event camera p hs hn
    have h2 := event_keeps_file_name env ed fs event camera p hn
    cases hst : (level_editor_event env ed fs event camera).status with
    | aborted => simpa [level_editor_events, hst] using h1
    | returned code =>
      simp only [level_editor_events, hst]
      exact ih _ _ h1 h2

/-- The status with which `offer_event` returns depends on the picker and the layers
only. -/
theorem offer_event_status (env : Env EditField Layer Color)
    (ed : LevelEditor EditField Layer) (fs fs2 : FileSystem) (calls calls2 : List Call)
    (event : SDL_Event) (camera : Camera) :
    (offer_event env ed fs calls event camera).status
      = (offer_event env ed fs2 calls2 event camera).status := by
  simp only [offer_event]
  split_ifs <;> rfl

/-- The Return key in the save-as state when the file cannot be opened: the file name is
set, and the program stops inside `level_editor_dump`, before `SDL_StopTextInput` and
before the state changes. -/
theorem saveas_key_return_stops (env : Env EditField Layer Color)
    (ed : LevelEditor EditField Layer) (fs : FileSystem) (event : SDL_Event)
    (hn : ed.file_name = none)
    (hopen : env.fopen_fails (env.edit_field_as_text ed.edit_field_filename) = true) :
    saveas_key env ed fs event SDLK_RETURN
      = ⟨.aborted,
          { ed with file_name := some (env.edit_field_as_text ed.edit_field_filename) }, fs,
          [.level_editor_dump (some (env.edit_field_as_text ed.edit_field_filename))]⟩ := by
  have hd : level_editor_dump env
      { ed with file_name := some (env.edit_field_as_text ed.edit_field_filename) } fs
      = ⟨.aborted, fs⟩ := by
    simp only [level_editor_dump, hopen, if_true]
  simp only [saveas_key, if_true, hn, hd]

end EditorLemmas

/-! ## Lemmas on the reader of the boxes -/

section BoxesLemmas

variable {RigidBodies RigidBodyId Color : Type}

/-- The call of `sscanf` on a data line is negative only when the line holds nothing but
white space. -/
theorem sscanf_rect_neg (line : List Char) (rect : Rect) (color : List Char) :
    (sscanf_rect line rect color).1 < 0 ↔ scan_s 36 line = .input_failure := by
  unfold sscanf_rect
  constructor
  · intro h
    repeat' split at h
    all_goals first
      | assumption
      | simp at h
  · intro h
    rw [h]
    simp

/-- The call of `sscanf` on the count line is `EOF` only when the line holds nothing but
white space. -/
theorem sscanf_count_eof (line : List Char) (count : Nat) :
    (sscanf_count line count).1 = -1 ↔ scan_lu line = .input_failure := by
  unfold sscanf_count
  constructor
  · intro h
    split at h
    · assumption
    · simp at h
    · simp at h
  · intro h
    rw [h]

/-- A count line without a number leaves `count` as it was. -/
theorem sscanf_count_no_number (line : List Char) (count : Nat)
    (h : scan_lu line = .matching_failure) : sscanf_count line count = (0, count) := by
  simp [sscanf_count, h]

/-- One round of the loop on a line that is not blank, the last line of the stream. -/
theorem read_boxes_last_line (env : BoxesEnv RigidBodies RigidBodyId Color)
    (line : List Char) (i : Nat) (boxes : Boxes RigidBodyId Color)
    (rigid_bodies : RigidBodies) (hnl : newline ∉ line)
    (hov : id_overflows (line ++ [newline]) = false)
    (hs : scan_s 36 (line ++ [newline]) ≠ .input_failure) :
    ∃ loaded rigid_bodies2,
      read_boxes env 1 i boxes rigid_bodies (line ++ [newline])
        = .returned (some loaded) rigid_bodies2 [] ∧ loaded.count = boxes.count := by
  have hl := line_stream_next_line [] line hnl
  have hneg : ¬ (sscanf_rect (line ++ [newline]) (env.uninit_rect i) (env.uninit_color i)).1 < 0 :=
    fun h => hs ((sscanf_rect_neg _ _ _).1 h)
  simp only [read_boxes, hl, hov, hneg, if_false, Bool.false_eq_true]
  exact ⟨_, _, rfl, rfl⟩

theorem isDigit_toNat (c : Char) (h : c.isDigit = true) : 48 ≤ c.toNat ∧ c.toNat ≤ 57 := by
  simp only [Char.isDigit, Bool.and_eq_true, decide_eq_true_eq] at h
  exact ⟨h.1, h.2⟩

theorem isDigit_not_space (c : Char) (h : c.isDigit = true) : isspace c = false := by
  obtain ⟨h1, h2⟩ := isDigit_toNat c h
  simp only [isspace, Bool.or_eq_false_iff, decide_eq_false_iff_not, Bool.and_eq_false_iff]
  omega

theorem isDigit_ne (c d : Char) (h : c.isDigit = true) (hd : d.isDigit = false) : c ≠ d := by
  rintro rfl
  rw [h] at hd
  exact absurd hd (by decide)

/-- A run of characters that satisfy `p`, followed by one that does not, is what
`takeWhile p` takes and `dropWhile p` leaves. -/
theorem takeWhile_dropWhile_run (p : Char → Bool) (sep : Char) (rest : List Char)
    (hsep : p sep = false) :
    ∀ run : List Char, (∀ c ∈ run, p c = true) →
      (run ++ sep :: rest).takeWhile p = run ∧ (run ++ sep :: rest).dropWhile p = sep :: rest := by
  intro run
  induction run with
  | nil => intro _; simp [List.takeWhile, List.dropWhile, hsep]
  | cons c cs ih =>
    intro h
    have hc := h c (List.mem_cons_self _ _)
    obtain ⟨h1, h2⟩ := ih (fun x hx => h x (List.mem_cons_of_mem _ hx))
    simp [List.takeWhile, List.dropWhile, hc, h1, h2]

/-- A word without white space, no longer than the width and followed by white space, is
what `%<width>s` reads. -/
theorem scan_s_word (width : Nat) (word : List Char) (sep : Char) (rest : List Char)
    (hne : word ≠ []) (hword : ∀ c ∈ word, isspace c = false) (hlen : word.length ≤ width)
    (hsep : isspace sep = true) :
    scan_s width (word ++ sep :: rest) = .converted word (sep :: rest) ∧
    scan_s width (' ' :: (word ++ sep :: rest)) = .converted word (sep :: rest) := by
  obtain ⟨c, cs, rfl⟩ := List.exists_cons_of_ne_nil hne
  have hc : isspace c = false := hword c (List.mem_cons_self _ _)
  have hrun := (takeWhile_dropWhile_run (fun d => !isspace d) sep rest (by simp [hsep])
    (c :: cs) (fun x hx => by simp [hword x hx])).1
  have hdrop : (c :: cs ++ sep :: rest).dropWhile isspace = c :: (cs ++ sep :: rest) := by
    simp [List.dropWhile, hc]
  have hsp : isspace ' ' = true := by decide
  have key : scan_s width (c :: cs ++ sep :: rest) = .converted (c :: cs) (sep :: rest) := by
    unfold scan_s
    rw [hdrop]
    simp only
    rw [show c :: (cs ++ sep :: rest) = (c :: cs) ++ sep :: rest from rfl, hrun,
      List.take_of_length_le hlen, List.drop_left]
  refine ⟨key, ?_⟩
  have : scan_s width (' ' :: (c :: cs ++ sep :: rest)) = scan_s width (c :: cs ++ sep :: rest) := by
    unfold scan_s
    simp [List.dropWhile, hsp]
  rw [this, key]

theorem decimal_text_cases (d : Decimal) (h : d.WellFormed) :
    (d.negative = true ∧ d.text = '-' :: (d.int_part
      ++ (if d.frac_part = [] then [] else '.' :: d.frac_part))) ∨
    (d.negative = false ∧ ∃ c cs, d.int_part = c :: cs ∧ c.isDigit = true ∧
      d.text = c :: (cs ++ (if d.frac_part = [] then [] else '.' :: d.frac_part))) := by
  obtain ⟨hne, hip, _⟩ := h
  obtain ⟨c, cs, hc⟩ := List.exists_cons_of_ne_nil hne
  unfold Decimal.text
  cases hn : d.negative with
  | true => left; simp
  | false =>
    right
    exact ⟨rfl, c, cs, hc, hip c (by rw [hc]; exact List.mem_cons_self _ _), by simp [hc]⟩

/-- A digit is not a letter. -/
theorem is_letter_digit (lower c : Char) (h : c.isDigit = true) (hl : lower.isDigit = false)
    (hn : 90 ≤ lower.toNat) : is_letter lower c = false := by
  obtain ⟨_, h2⟩ := isDigit_toNat c h
  have hne : c ≠ lower := isDigit_ne c lower h hl
  simp only [is_letter, Bool.or_eq_false_iff, decide_eq_false_iff_not]
  exact ⟨hne, by omega⟩

/-- The text of a number in decimal notation that is followed by a space has no exponent
part. -/
theorem scan_exponent_space (marker : Char) (rest : List Char)
    (h : is_letter marker ' ' = false) :
    scan_exponent marker (' ' :: rest) = (0, ' ' :: rest) := by
  simp only [scan_exponent, h, Bool.false_eq_true, if_false]

/-- What `%f` makes of a text that starts with the digits `ip`, goes on with the fraction
`fp` (if there is one) and then with a space. -/
theorem scan_float_decimal_run (negative : Bool) (ip fp rest : List Char)
    (hne : ip ≠ []) (hip : ∀ c ∈ ip, c.isDigit = true) (hfp : ∀ c ∈ fp, c.isDigit = true) :
    scan_float_decimal negative (ip ++ ((if fp = [] then [] else '.' :: fp) ++ ' ' :: rest))
      = .converted (decimal_binary32 negative ip fp 0) (' ' :: rest) := by
  have hsd : (' ' : Char).isDigit = false := by decide
  have hexp := scan_exponent_space 'e' rest (by decide)
  by_cases hf : fp = []
  · subst hf
    obtain ⟨h1, h2⟩ := takeWhile_dropWhile_run Char.isDigit ' ' rest hsd ip hip
    simp only [if_true, List.nil_append]
    unfold scan_float_decimal
    rw [h1, h2]
    split
    · rename_i heq
      simp only [List.cons.injEq] at heq
      exact absurd heq.1 (by decide)
    · simp only [hne, if_false, hexp]
  · obtain ⟨h1, h2⟩ := takeWhile_dropWhile_run Char.isDigit '.' (fp ++ ' ' :: rest)
      (by decide) ip hip
    obtain ⟨h3, h4⟩ := takeWhile_dropWhile_run Char.isDigit ' ' rest hsd fp hfp
    simp only [hf, if_false, List.cons_append]
    unfold scan_float_decimal
    rw [h1, h2]
    simp only [h3, h4, hne, false_and, if_false, hexp]

/-- A text that starts with a digit and does not go on with the letter `x` is read as a
number in decimal notation. -/
theorem scan_float_digit (negative : Bool) (c : Char) (tail : List Char)
    (hc : c.isDigit = true) (hx : starts_with_word "x".toList tail = false) :
    scan_float negative (c :: tail) = scan_float_decimal negative (c :: tail) := by
  have hn := is_letter_digit 'n' c hc (by decide) (by decide)
  have hi := is_letter_digit 'i' c hc (by decide) (by decide)
  simp only [scan_float, hn, hi, hx, Bool.false_eq_true, if_false, and_false]

/-- The digits and the fraction of a well-formed number, followed by a space, do not
start with the letter `x`. -/
theorem decimal_tail_not_x (cs fp rest : List Char) (hcs : ∀ c ∈ cs, c.isDigit = true) :
    starts_with_word "x".toList (cs ++ ((if fp = [] then [] else '.' :: fp) ++ ' ' :: rest))
      = false := by
  cases cs with
  | nil =>
    by_cases hf : fp = []
    · simp only [hf, if_true, List.nil_append]
      show (is_letter 'x' ' ' && starts_with_word [] rest) = false
      rw [show is_letter 'x' ' ' = false from by decide]
      rfl
    · simp only [hf, if_false, List.nil_append, List.cons_append]
      show (is_letter 'x' '.' && starts_with_word [] _) = false
      rw [show is_letter 'x' '.' = false from by decide]
      rfl
  | cons d ds =>
    have hd := is_letter_digit 'x' d (hcs d (List.mem_cons_self _ _)) (by decide) (by decide)
    simp only [List.cons_append]
    show (is_letter 'x' d && starts_with_word [] _) = false
    rw [hd]
    rfl

/-- The text of a well-formed number, after a space and followed by a space, is read by
`%f` as the `float` nearest to the number. -/
theorem scan_f_decimal_text (d : Decimal) (h : d.WellFormed) (rest : List Char) :
    scan_f (' ' :: (d.text ++ ' ' :: rest)) = .converted d.binary32 (' ' :: rest) := by
  have hsp : isspace ' ' = true := by decide
  obtain ⟨hne, hip, hfp⟩ := h
  obtain ⟨c, cs, hc⟩ := List.exists_cons_of_ne_nil hne
  have hcd : c.isDigit = true := hip c (by rw [hc]; exact List.mem_cons_self _ _)
  have hcsd : ∀ x ∈ cs, x.isDigit = true :=
    fun x hx => hip x (by rw [hc]; exact List.mem_cons_of_mem _ hx)
  have hcs : isspace c = false := isDigit_not_space c hcd
  have hcm : c ≠ '-' := isDigit_ne c '-' hcd (by decide)
  have hcp : c ≠ '+' := isDigit_ne c '+' hcd (by decide)
  have hbody : scan_float d.negative
      (c :: (cs ++ ((if d.frac_part = [] then [] else '.' :: d.frac_part) ++ ' ' :: rest)))
      = .converted d.binary32 (' ' :: rest) := by
    rw [scan_float_digit d.negative c _ hcd (decimal_tail_not_x cs d.frac_part rest hcsd)]
    have := scan_float_decimal_run d.negative d.int_part d.frac_part rest hne hip hfp
    rw [hc] at this
    rw [Decimal.binary32, hc]
    exact this
  cases hn : d.negative with
  | true =>
    have hm : isspace '-' = false := by decide
    have e : ' ' :: (d.text ++ ' ' :: rest)
        = ' ' :: '-' :: c :: (cs ++ ((if d.frac_part = [] then [] else '.' :: d.frac_part)
            ++ ' ' :: rest)) := by
      simp [Decimal.text, hn, hc]
    rw [e]
    unfold scan_f
    rw [show (' ' :: '-' :: c :: (cs ++ ((if d.frac_part = [] then []
        else '.' :: d.frac_part) ++ ' ' :: rest))).dropWhile isspace
        = '-' :: c :: (cs ++ ((if d.frac_part = [] then [] else '.' :: d.frac_part)
            ++ ' ' :: rest)) from by simp [List.dropWhile, hsp, hm]]
    simp only [true_or, if_true, decide_True]
    rw [← hn]
    exact hbody
  | false =>
    have e : ' ' :: (d.text ++ ' ' :: rest)
        = ' ' :: c :: (cs ++ ((if d.frac_part = [] then [] else '.' :: d.frac_part)
            ++ ' ' :: rest)) := by
      simp [Decimal.text, hn, hc]
    rw [e]
    unfold scan_f
    rw [show (' ' :: c :: (cs ++ ((if d.frac_part = [] then []
        else '.' :: d.frac_part) ++ ' ' :: rest))).dropWhile isspace
        = c :: (cs ++ ((if d.frac_part = [] then [] else '.' :: d.frac_part)
            ++ ' ' :: rest)) from by simp [List.dropWhile, hsp, hcs]]
    simp only [hcm, hcp, or_self, if_false, decide_False]
    rw [← hn]
    exact hbody

theorem decimal_text_no_newline (d : Decimal) (h : d.WellFormed) : newline ∉ d.text := by
  obtain ⟨_, hip, hfp⟩ := h
  have hd : ∀ c : Char, c.isDigit = true → c ≠ newline :=
    fun c hc => isDigit_ne c newline hc (by decide)
  unfold Decimal.text
  intro hmem
  simp only [List.mem_append] at hmem
  rcases hmem with (hmem | hmem) | hmem
  · split_ifs at hmem
    · simp only [List.mem_singleton] at hmem
      exact absurd hmem (by decide)
    · simp at hmem
  · exact hd _ (hip _ hmem) rfl
  · split_ifs at hmem
    · simp at hmem
    · simp only [List.mem_cons] at hmem
      rcases hmem with hmem | hmem
      · exact absurd hmem (by decide)
      · exact hd _ (hfp _ hmem) rfl

theorem box_line_text_no_newline (b : BoxLine) (h : b.WellFormed) : newline ∉ b.text := by
  obtain ⟨_, _, hid, hx, hy, hw, hh, _, _, hcolor, _, _⟩ := h
  have hsp : isspace newline = true := by decide
  have hword : ∀ word : List Char, (∀ c ∈ word, isspace c = false) → newline ∉ word :=
    fun word hw hmem => by
      have := hw _ hmem
      rw [hsp] at this
      exact absurd this (by decide)
  unfold BoxLine.text
  simp only [List.mem_append, List.mem_cons, not_or]
  have hs : newline ≠ ' ' := by decide
  exact ⟨hword _ hid, hs, decimal_text_no_newline _ hx, hs, decimal_text_no_newline _ hy, hs,
    decimal_text_no_newline _ hw, hs, decimal_text_no_newline _ hh, hs, hword _ hcolor⟩

/-- What `sscanf` reads from a well-formed data line: six fields, namely the id, the four
numbers and the colour; the id fits `id` unless it has 36 characters. -/
theorem sscanf_rect_box_line (b : BoxLine) (h : b.WellFormed) (rect : Rect)
    (color : List Char) :
    sscanf_rect (b.text ++ [newline]) rect color = (6, b.rect, b.color) ∧
    id_overflows (b.text ++ [newline]) = decide (36 ≤ b.id.length) := by
  obtain ⟨hidne, hidlen, hid, hx, hy, hw, hh, hcne, hclen, hcolor, _, _⟩ := h
  have hsp : isspace ' ' = true := by decide
  have hnl : isspace newline = true := by decide
  have e : b.text ++ [newline]
      = b.id ++ ' ' :: (b.x.text ++ ' ' :: (b.y.text ++ ' ' :: (b.w.text ++ ' ' ::
          (b.h.text ++ ' ' :: (b.color ++ newline :: []))))) := by
    simp [BoxLine.text, List.append_assoc]
  have h1 := (scan_s_word 36 b.id ' '
    (b.x.text ++ ' ' :: (b.y.text ++ ' ' :: (b.w.text ++ ' ' ::
      (b.h.text ++ ' ' :: (b.color ++ newline :: []))))) hidne hid hidlen hsp).1
  have h2 := scan_f_decimal_text b.x hx
    (b.y.text ++ ' ' :: (b.w.text ++ ' ' :: (b.h.text ++ ' ' :: (b.color ++ newline :: []))))
  have h3 := scan_f_decimal_text b.y hy
    (b.w.text ++ ' ' :: (b.h.text ++ ' ' :: (b.color ++ newline :: [])))
  have h4 := scan_f_decimal_text b.w hw (b.h.text ++ ' ' :: (b.color ++ newline :: []))
  have h5 := scan_f_decimal_text b.h hh (b.color ++ newline :: [])
  have h6 := (scan_s_word 6 b.color newline [] hcne hcolor hclen hnl).2
  rw [e]
  constructor
  · unfold sscanf_rect
    simp only [h1, h2, h3, h4, h5, h6, BoxLine.rect]
  · unfold id_overflows
    simp only [h1, BOXES_MAX_ID_SIZE]

/-- The count line of a section with fewer than `2 ^ 64` entries. -/
theorem sscanf_count_digits (count : List Char) (uninit : Nat) (hne : count ≠ [])
    (hd : ∀ c ∈ count, c.isDigit = true) (hmax : digits_value count ≤ ULONG_MAX) :
    sscanf_count (count ++ [newline]) uninit = (1, digits_value count) := by
  obtain ⟨c, cs, rfl⟩ := List.exists_cons_of_ne_nil hne
  have hcd := hd c (List.mem_cons_self _ _)
  have hcs : isspace c = false := isDigit_not_space c hcd
  have hcm : c ≠ '-' := isDigit_ne c '-' hcd (by decide)
  have hcp : c ≠ '+' := isDigit_ne c '+' hcd (by decide)
  have hdrop : (c :: cs ++ [newline]).dropWhile isspace = c :: (cs ++ [newline]) := by
    simp [List.dropWhile, hcs]
  obtain ⟨ht, _⟩ := takeWhile_dropWhile_run Char.isDigit newline [] (by decide) (c :: cs) hd
  unfold sscanf_count scan_lu
  rw [hdrop]
  simp only [hcm, hcp, or_self, if_false, decide_False, Bool.false_eq_true]
  rw [show c :: (cs ++ [newline]) = (c :: cs) ++ [newline] from rfl, ht]
  simp only [List.cons_ne_nil, if_false, not_lt.2 hmax]

/-- One round of the loop of `create_boxes_from_line_stream` on a line whose id fits and
that is not blank. -/
theorem read_boxes_round (env : BoxesEnv RigidBodies RigidBodyId Color) (rounds i : Nat)
    (boxes : Boxes RigidBodyId Color) (rigid_bodies : RigidBodies) (line rest : List Char)
    (hnl : newline ∉ line) (hov : id_overflows (line ++ [newline]) = false)
    (hs : ¬ (sscanf_rect (line ++ [newline]) (env.uninit_rect i) (env.uninit_color i)).1 < 0) :
    read_boxes env (rounds + 1) i boxes rigid_bodies (line ++ newline :: rest)
      = read_boxes env rounds (i + 1)
          { boxes with
            body_colors :=
              Function.update boxes.body_colors i
                (env.hexstr
                  (sscanf_rect (line ++ [newline]) (env.uninit_rect i) (env.uninit_color i)).2.2)
            body_ids :=
              Function.update boxes.body_ids i
                (env.rigid_bodies_add rigid_bodies
                  (sscanf_rect (line ++ [newline]) (env.uninit_rect i)
                    (env.uninit_color i)).2.1).2 }
          (env.rigid_bodies_add rigid_bodies
            (sscanf_rect (line ++ [newline]) (env.uninit_rect i) (env.uninit_color i)).2.1).1
          rest := by
  rw [read_boxes, line_stream_next_line rest line hnl]
  simp only [hov, hs, if_false, Bool.false_eq_true]

/-- The loop of `create_boxes_from_line_stream` on well-formed lines: it returns, the
rectangles are registered from the first to the last, and entry `i + j` of the two arrays
holds the id and the colour of line `j`; the entries before `i` stay. -/
theorem read_boxes_lines (env : BoxesEnv RigidBodies RigidBodyId Color) (rest : List Char) :
    ∀ (lines : List BoxLine) (i : Nat) (boxes : Boxes RigidBodyId Color)
      (rigid_bodies : RigidBodies), (∀ b ∈ lines, b.WellFormed) →
      (∀ b ∈ lines, b.id.length < 36) →
      ∃ loaded,
        read_boxes env lines.length i boxes rigid_bodies
            ((lines.map (fun b => b.text ++ [newline])).flatten ++ rest)
          = .returned (some loaded)
              (register_boxes env rigid_bodies (lines.map BoxLine.rect)).1 rest ∧
        loaded.count = boxes.count ∧
        (∀ k, k < i → loaded.body_ids k = boxes.body_ids k ∧
          loaded.body_colors k = boxes.body_colors k) ∧
        (∀ j b, lines[j]? = some b →
          loaded.body_colors (i + j) = env.hexstr b.color ∧
          (register_boxes env rigid_bodies (lines.map BoxLine.rect)).2[j]?
            = some (loaded.body_ids (i + j))) := by
  intro lines
  induction lines with
  | nil =>
    intro i boxes rigid_bodies _ _
    exact ⟨boxes, by simp [read_boxes, register_boxes], rfl, fun k _ => ⟨rfl, rfl⟩,
      fun j b h => by simp at h⟩
  | cons b tail ih =>
    intro i boxes rigid_bodies hwf hshort
    have hb := hwf b (List.mem_cons_self _ _)
    have hbs := hshort b (List.mem_cons_self _ _)
    obtain ⟨hscan, hov⟩ := sscanf_rect_box_line b hb (env.uninit_rect i) (env.uninit_color i)
    rw [decide_eq_false (by omega)] at hov
    have hstep := read_boxes_round env tail.length i boxes rigid_bodies b.text
      ((tail.map (fun b => b.text ++ [newline])).flatten ++ rest)
      (box_line_text_no_newline b hb) hov (by rw [hscan]; simp)
    rw [hscan] at hstep
    obtain ⟨loaded, hrun, hcount, hbefore, hat⟩ := ih (i + 1)
      { boxes with
        body_colors := Function.update boxes.body_colors i (env.hexstr b.color)
        body_ids := Function.update boxes.body_ids i
          (env.rigid_bodies_add rigid_bodies b.rect).2 }
      (env.rigid_bodies_add rigid_bodies b.rect).1
      (fun x hx => hwf x (List.mem_cons_of_mem _ hx))
      (fun x hx => hshort x (List.mem_cons_of_mem _ hx))
    refine ⟨loaded, ?_, hcount, fun k hk => ?_, fun j c hj => ?_⟩
    · have e : (((b :: tail).map (fun b => b.text ++ [newline])).flatten ++ rest)
          = b.text ++ newline :: ((tail.map (fun b => b.text ++ [newline])).flatten ++ rest) := by
        simp
      rw [e, List.length_cons, hstep, hrun]
      simp [register_boxes]
    · obtain ⟨h1, h2⟩ := hbefore k (Nat.lt_succ_of_lt hk)
      have hne : k ≠ i := Nat.ne_of_lt hk
      simp only [Function.update_noteq hne] at h1 h2
      exact ⟨h1, h2⟩
    · cases j with
      | zero =>
        simp only [List.getElem?_cons_zero, Option.some.injEq] at hj
        subst hj
        obtain ⟨h1, h2⟩ := hbefore i (Nat.lt_succ_self i)
        simp only [Function.update_same] at h1 h2
        simp [register_boxes, h1, h2]
      | succ j =>
        simp only [List.getElem?_cons_succ] at hj
        obtain ⟨h1, h2⟩ := hat j c hj
        have e : i + (j + 1) = i + 1 + j := by omega
        rw [e]
        simp only [List.map_cons, register_boxes, List.getElem?_cons_succ]
        exact ⟨h1, h2⟩


/-- The loop of `create_boxes_from_line_stream` on well-formed lines of which one has an
id of 36 characters: in the round of the first such line `sscanf` writes past the end of
`id`. -/
theorem read_boxes_long_id (env : BoxesEnv RigidBodies RigidBodyId Color) (rest : List Char) :
    ∀ (lines : List BoxLine) (i : Nat) (boxes : Boxes RigidBodyId Color)
      (rigid_bodies : RigidBodies), (∀ b ∈ lines, b.WellFormed) →
      (∃ b ∈ lines, b.id.length = 36) →
      read_boxes env lines.length i boxes rigid_bodies
          ((lines.map (fun b => b.text ++ [newline])).flatten ++ rest)
        = .aborted := by
  intro lines
  induction lines with
  | nil =>
    intro i boxes rigid_bodies _ h
    obtain ⟨b, hb, _⟩ := h
    simp at hb
  | cons b tail ih =>
    intro i boxes rigid_bodies hwf hlong
    have hb := hwf b (List.mem_cons_self _ _)
    obtain ⟨hscan, hov⟩ := sscanf_rect_box_line b hb (env.uninit_rect i) (env.uninit_color i)
    have e : (((b :: tail).map (fun b => b.text ++ [newline])).flatten ++ rest)
        = b.text ++ newline :: ((tail.map (fun b => b.text ++ [newline])).flatten ++ rest) := by
      simp
    rw [e, List.length_cons]
    by_cases h36 : b.id.length = 36
    · rw [decide_eq_true (by omega)] at hov
      rw [read_boxes, line_stream_next_line _ b.text (box_line_text_no_newline b hb)]
      simp only [hov, if_true]
    · have hshort : b.id.length < 36 := lt_of_le_of_ne hb.2.1 h36
      rw [decide_eq_false (by omega)] at hov
      have hstep := read_boxes_round env tail.length i boxes rigid_bodies b.text
        ((tail.map (fun b => b.text ++ [newline])).flatten ++ rest)
        (box_line_text_no_newline b hb) hov (by rw [hscan]; simp)
      rw [hstep]
      apply ih _ _ _ (fun x hx => hwf x (List.mem_cons_of_mem _ hx))
      obtain ⟨c, hc, hc36⟩ := hlong
      rcases List.mem_cons.1 hc with rfl | hc
      · exact absurd hc36 h36
      · exact ⟨c, hc, hc36⟩

/-- The inner loop of `boxes_delete_at` moves the ids of the places `j + 1`, ...,
`j + rounds` one place down and leaves the other places as they are. -/
theorem shift_body_ids_apply :
    ∀ (rounds j : Nat) (body_ids : Nat → RigidBodyId) (k : Nat),
      shift_body_ids body_ids rounds j k
        = if j ≤ k ∧ k < j + rounds then body_ids (k + 1) else body_ids k := by
  intro rounds
  induction rounds with
  | zero =>
    intro j body_ids k
    rw [shift_body_ids, if_neg (by omega)]
  | succ n ih =>
    intro j body_ids k
    rw [shift_body_ids, ih]
    by_cases h1 : j + 1 ≤ k ∧ k < j + 1 + n
    · rw [if_pos h1, if_pos ⟨by omega, by omega⟩,
        Function.update_noteq (by omega : k + 1 ≠ j)]
    · rw [if_neg h1]
      by_cases h2 : k = j
      · subst h2
        rw [Function.update_same, if_pos ⟨le_refl _, by omega⟩]
      · rw [Function.update_noteq h2, if_neg (by omega)]

/-- The outer loop of `boxes_delete_at` changes nothing when no hitbox of the places it
goes through contains the position. -/
theorem delete_first_hit_none (env : BoxesEnv RigidBodies RigidBodyId Color)
    (rect_contains_point : Rect → Vec → Bool) (position : Vec)
    (boxes : Boxes RigidBodyId Color) (rigid_bodies : RigidBodies) :
    ∀ (rounds i : Nat),
      (∀ k, i ≤ k → k < i + rounds →
        rect_contains_point (env.rigid_bodies_hitbox rigid_bodies (boxes.body_ids k)) position
          = false) →
      delete_first_hit env rect_contains_point position rounds i boxes rigid_bodies
        = (boxes, rigid_bodies) := by
  intro rounds
  induction rounds with
  | zero => intro i _; rfl
  | succ n ih =>
    intro i h
    rw [delete_first_hit, h i (le_refl _) (by omega)]
    simp only [Bool.false_eq_true, if_false]
    exact ih (i + 1) (fun k h1 h2 => h k (by omega) (by omega))

/-- The outer loop of `boxes_delete_at` stops at the first place `m` whose hitbox contains
the position: the body is removed, the ids after it move one place down, and the count
goes down by one. -/
theorem delete_first_hit_some (env : BoxesEnv RigidBodies RigidBodyId Color)
    (rect_contains_point : Rect → Vec → Bool) (position : Vec)
    (boxes : Boxes RigidBodyId Color) (rigid_bodies : RigidBodies) (m : Nat)
    (hhit : rect_contains_point
      (env.rigid_bodies_hitbox rigid_bodies (boxes.body_ids m)) position = true) :
    ∀ (rounds i : Nat), i ≤ m → m < i + rounds →
      (∀ k, i ≤ k → k < m →
        rect_contains_point (env.rigid_bodies_hitbox rigid_bodies (boxes.body_ids k)) position
          = false) →
      delete_first_hit env rect_contains_point position rounds i boxes rigid_bodies
        = ({ boxes with
              body_ids := shift_body_ids boxes.body_ids (boxes.count - 1 - m) m
              count := boxes.count - 1 },
            env.rigid_bodies_remove rigid_bodies (boxes.body_ids m)) := by
  intro rounds
  induction rounds with
  | zero => intro i h1 h2; omega
  | succ n ih =>
    intro i h1 h2 h
    rw [delete_first_hit]
    by_cases him : i = m
    · subst him
      rw [if_pos hhit]
    · rw [h i (le_refl _) (by omega)]
      simp only [Bool.false_eq_true, if_false]
      exact ih (i + 1) (by omega) (by omega) (fun k h3 h4 => h k (by omega) h4)

end BoxesLemmas

/-! ## The claims -/

section Claims

variable {EditField Layer Color : Type}

/-- C3.  In the save-as state `level_editor_event` calls neither the layer picker nor a
layer, whatever the event, and it leaves every layer, the picker, the camera offset,
the zoom, the drag flag, the title and the script as they were; the file name and the
state stay as well unless the event is the Return key. -/
theorem saveas_owns_the_input (env : Env EditField Layer Color)
    (ed : LevelEditor EditField Layer) (fs : FileSystem) (event : SDL_Event) (camera : Camera)
    (h : ed.state = .LEVEL_EDITOR_SAVEAS) :
    Call.layer_picker_event ∉ (level_editor_event env ed fs event camera).calls ∧
    (∀ k, Call.layer_event k ∉ (level_editor_event env ed fs event camera).calls) ∧
    (∀ k, layers (level_editor_event env ed fs event camera).level_editor k = layers ed k) ∧
    (level_editor_event env ed fs event camera).level_editor.layer_picker = ed.layer_picker ∧
    (level_editor_event env ed fs event camera).level_editor.camera_position
      = ed.camera_position ∧
    (level_editor_event env ed fs event camera).level_editor.camera_scale = ed.camera_scale ∧
    (level_editor_event env ed fs event camera).level_editor.drag = ed.drag ∧
    (level_editor_event env ed fs event camera).level_editor.metadata = ed.metadata ∧
    (level_editor_event env ed fs event camera).level_editor.supa_script_source
      = ed.supa_script_source ∧
    (event ≠ .SDL_KEYUP SDLK_RETURN → event ≠ .SDL_KEYDOWN SDLK_RETURN →
      (level_editor_event env ed fs event camera).level_editor.file_name = ed.file_name ∧
      (level_editor_event env ed fs event camera).level_editor.state = ed.state ∧
      (level_editor_event env ed fs event camera).fs = fs) := by
  rw [level_editor_event_saveas env ed fs event camera h]
  obtain ⟨h1, h2, h3, h4, h5, h6, h7, h8, h9⟩ := saveas_switch_fields env ed fs event
  refine ⟨h8, h9, h1, h2, h5, h6, h7, h3, h4, ?_⟩
  intro hup hdown
  cases event <;> simp only [saveas_switch, saveas_key] <;> (repeat' split) <;> simp_all

/-- Witness of C3: the fresh editor of `text_env` after the save key is in the save-as
state, and the text input that follows reaches neither picker nor layer. -/
theorem saveas_owns_the_input_witness :
    (level_editor_event (text_env reader_section_order)
        (create_level_editor (text_env reader_section_order)) no_files
        (.SDL_KEYDOWN SDLK_s) plain_camera).level_editor.state = .LEVEL_EDITOR_SAVEAS ∧
    Call.layer_picker_event ∉
      (level_editor_event (text_env reader_section_order)
        (level_editor_event (text_env reader_section_order)
          (create_level_editor (text_env reader_section_order)) no_files
          (.SDL_KEYDOWN SDLK_s) plain_camera).level_editor
        no_files (.SDL_TEXTINPUT "a") plain_camera).calls :=
  ⟨by decide,
    (saveas_owns_the_input (text_env reader_section_order) _ no_files (.SDL_TEXTINPUT "a")
      plain_camera (by decide)).1⟩

/-- C4.  In the editing state a key-down of `s` dumps to the current file and stays in
the editing state when the file name is set; when it is not set, nothing is dumped, the
file name stays unset and the state becomes save-as. -/
theorem save_key_dumps_or_prompts (env : Env EditField Layer Color)
    (ed : LevelEditor EditField Layer) (fs : FileSystem) (camera : Camera)
    (h : ed.state = .LEVEL_EDITOR_EDITING) :
    (∀ p, ed.file_name = some p →
      Call.level_editor_dump (some p)
        ∈ (level_editor_event env ed fs (.SDL_KEYDOWN SDLK_s) camera).calls ∧
      (level_editor_event env ed fs (.SDL_KEYDOWN SDLK_s) camera).fs
        = (level_editor_dump env ed fs).fs ∧
      (level_editor_event env ed fs (.SDL_KEYDOWN SDLK_s) camera).level_editor.file_name
        = some p ∧
      (level_editor_event env ed fs (.SDL_KEYDOWN SDLK_s) camera).level_editor.state
        = .LEVEL_EDITOR_EDITING) ∧
    (ed.file_name = none →
      (∀ f, Call.level_editor_dump f
        ∉ (level_editor_event env ed fs (.SDL_KEYDOWN SDLK_s) camera).calls) ∧
      (level_editor_event env ed fs (.SDL_KEYDOWN SDLK_s) camera).fs = fs ∧
      (level_editor_event env ed fs (.SDL_KEYDOWN SDLK_s) camera).level_editor.file_name
        = none ∧
      (level_editor_event env ed fs (.SDL_KEYDOWN SDLK_s) camera).level_editor.state
        = .LEVEL_EDITOR_SAVEAS) := by
  constructor
  · intro p hp
    cases hd : (level_editor_dump env ed fs).status with
    | aborted =>
      have hsw : editing_switch env ed fs (.SDL_KEYDOWN SDLK_s) camera
          = ⟨.aborted, ed, (level_editor_dump env ed fs).fs, [.level_editor_dump (some p)]⟩ := by
        simp [editing_switch, hp, hd]
      rw [level_editor_event_editing_aborted env ed fs _ camera h (by rw [hsw]), hsw]
      simp [hp, h]
    | returned code =>
      have hsw : editing_switch env ed fs (.SDL_KEYDOWN SDLK_s) camera
          = ⟨.returned 0, ed, (level_editor_dump env ed fs).fs,
              [.level_editor_dump (some p)]⟩ := by
        simp [editing_switch, hp, hd]
      rw [level_editor_event_editing_returned env ed fs _ camera 0 h (by rw [hsw]), hsw]
      obtain ⟨_, h2, h3, h4, _⟩ := offer_event_fields env ed (level_editor_dump env ed fs).fs
        [.level_editor_dump (some p)] (.SDL_KEYDOWN SDLK_s) camera
      exact ⟨offer_event_calls_mono env _ _ _ _ _ _ (by simp), h2, by rw [h4, hp],
        by rw [h3, h]⟩
  · intro hn
    have hsw : editing_switch env ed fs (.SDL_KEYDOWN SDLK_s) camera
        = ⟨.returned 0, { ed with state := .LEVEL_EDITOR_SAVEAS }, fs,
            [.SDL_StartTextInput]⟩ := by
      simp [editing_switch, hn]
    rw [level_editor_event_editing_returned env ed fs _ camera 0 h (by rw [hsw]), hsw]
    obtain ⟨_, h2, h3, h4, _⟩ := offer_event_fields env
      { ed with state := .LEVEL_EDITOR_SAVEAS } fs [.SDL_StartTextInput]
      (.SDL_KEYDOWN SDLK_s) camera
    refine ⟨fun f hf => ?_, h2, by rw [h4]; exact hn, by rw [h3]⟩
    rcases offer_event_calls env _ _ _ _ _ _ hf with h1 | h1 | ⟨k, h1⟩ <;> simp at h1

/-- Witness of C4: the sample editor (which has a file name) and the fresh editor (which
has none), both in `text_env`. -/
theorem save_key_dumps_or_prompts_witness :
    (level_editor_event (text_env reader_section_order) (sample_editor reader_section_order)
        no_files (.SDL_KEYDOWN SDLK_s) plain_camera).level_editor.state
      = .LEVEL_EDITOR_EDITING ∧
    (level_editor_event (text_env reader_section_order)
        (create_level_editor (text_env reader_section_order))
        no_files (.SDL_KEYDOWN SDLK_s) plain_camera).level_editor.state
      = .LEVEL_EDITOR_SAVEAS :=
  ⟨((save_key_dumps_or_prompts (text_env reader_section_order)
        (sample_editor reader_section_order) no_files plain_camera rfl).1
        "level.txt" rfl).2.2.2,
    ((save_key_dumps_or_prompts (text_env reader_section_order)
        (create_level_editor (text_env reader_section_order)) no_files plain_camera rfl).2
        rfl).2.2.2⟩

/-- C5, as the code has it.  In a save-as state of the running program whose edit field
holds the text `t`, the Return key (pressed or released) sets the file name to `t`.  When
the file `t` can be opened, the editor is dumped under that name and the state becomes
the editing state; in particular the save key, the text `foo.lvl` and the Return key,
given to a fresh editor, end in the editing state with the file name `foo.lvl`.  When
the file `t` cannot be opened, `level_editor_dump` hands the `NULL` of `fopen` to
`fprintf`: the program stops there, in the save-as state, without a file written and
before `SDL_StopTextInput`. -/
theorem confirm_names_the_file_or_stops (env : Env EditField Layer Color) :
    (∀ (ed : LevelEditor EditField Layer) (fs : FileSystem) (event : SDL_Event)
        (camera : Camera),
      Reachable env ed → ed.state = .LEVEL_EDITOR_SAVEAS →
      (event = .SDL_KEYUP SDLK_RETURN ∨ event = .SDL_KEYDOWN SDLK_RETURN) →
      env.fopen_fails (env.edit_field_as_text ed.edit_field_filename) = false →
      (level_editor_event env ed fs event camera).level_editor.file_name
        = some (env.edit_field_as_text ed.edit_field_filename) ∧
      (level_editor_event env ed fs event camera).level_editor.state
        = .LEVEL_EDITOR_EDITING ∧
      Call.level_editor_dump (some (env.edit_field_as_text ed.edit_field_filename))
        ∈ (level_editor_event env ed fs event camera).calls ∧
      (level_editor_event env ed fs event camera).fs
        = (level_editor_dump env
            { ed with file_name := some (env.edit_field_as_text ed.edit_field_filename) }
            fs).fs ∧
      (level_editor_event env ed fs event camera).status = .returned 0) ∧
    (∀ (fs : FileSystem) (c1 c2 c3 : Camera),
      env.edit_field_as_text
        (env.edit_field_text_input env.create_edit_field (.SDL_TEXTINPUT "foo.lvl")).2
          = "foo.lvl" →
      env.fopen_fails "foo.lvl" = false →
      (level_editor_events env (create_level_editor env) fs
        [(.SDL_KEYDOWN SDLK_s, c1), (.SDL_TEXTINPUT "foo.lvl", c2),
          (.SDL_KEYDOWN SDLK_RETURN, c3)]).1.file_name = some "foo.lvl" ∧
      (level_editor_events env (create_level_editor env) fs
        [(.SDL_KEYDOWN SDLK_s, c1), (.SDL_TEXTINPUT "foo.lvl", c2),
          (.SDL_KEYDOWN SDLK_RETURN, c3)]).1.state = .LEVEL_EDITOR_EDITING) ∧
    (∀ (ed : LevelEditor EditField Layer) (fs : FileSystem) (event : SDL_Event)
        (camera : Camera),
      Reachable env ed → ed.state = .LEVEL_EDITOR_SAVEAS →
      (event = .SDL_KEYUP SDLK_RETURN ∨ event = .SDL_KEYDOWN SDLK_RETURN) →
      env.fopen_fails (env.edit_field_as_text ed.edit_field_filename) = true →
      (level_editor_event env ed fs event camera).status = .aborted ∧
      (level_editor_event env ed fs event camera).level_editor.state
        = .LEVEL_EDITOR_SAVEAS ∧
      (level_editor_event env ed fs event camera).level_editor.file_name
        = some (env.edit_field_as_text ed.edit_field_filename) ∧
      (level_editor_event env ed fs event camera).calls
        = [.level_editor_dump (some (env.edit_field_as_text ed.edit_field_filename))] ∧
      (level_editor_event env ed fs event camera).fs = fs) := by
  refine ⟨?_, ?_, ?_⟩
  · intro ed fs event camera hr hs hev hopen
    have hn := reachable_saveas_file_name env ed hr hs
    rw [level_editor_event_saveas env ed fs event camera hs]
    rcases hev with rfl | rfl <;>
      simp [saveas_switch, saveas_key_return env ed fs _ hn hopen]
  · intro fs c1 c2 c3 htext hopen
    obtain ⟨⟨code1, hst1⟩, _, _, hname1, hstate1, hfield1⟩ :=
      save_key_without_file_name env (create_level_editor env) fs c1 rfl rfl
    rw [level_editor_events_cons env _ fs _ c1 _ code1 hst1]
    generalize (level_editor_event env (create_level_editor env) fs
      (.SDL_KEYDOWN SDLK_s) c1).level_editor = ed1 at hname1 hstate1 hfield1 ⊢
    generalize (level_editor_event env (create_level_editor env) fs
      (.SDL_KEYDOWN SDLK_s) c1).fs = fs1
    have hev2 : level_editor_event env ed1 fs1 (.SDL_TEXTINPUT "foo.lvl") c2 =
        ⟨.returned (if (env.edit_field_text_input ed1.edit_field_filename
            (.SDL_TEXTINPUT "foo.lvl")).1 < 0 then -1 else 0),
          { ed1 with edit_field_filename :=
              (env.edit_field_text_input ed1.edit_field_filename
                (.SDL_TEXTINPUT "foo.lvl")).2 }, fs1, [.edit_field_text_input]⟩ := by
      rw [level_editor_event_saveas env ed1 fs1 _ c2 hstate1]
      rfl
    rw [level_editor_events_cons env ed1 fs1 _ c2 _ _ (by rw [hev2]), hev2]
    simp only
    have hev3 := level_editor_event_saveas env
      { ed1 with edit_field_filename :=
          (env.edit_field_text_input ed1.edit_field_filename (.SDL_TEXTINPUT "foo.lvl")).2 }
      fs1 (.SDL_KEYDOWN SDLK_RETURN) c3 hstate1
    have hret := saveas_key_return env
      { ed1 with edit_field_filename :=
          (env.edit_field_text_input ed1.edit_field_filename (.SDL_TEXTINPUT "foo.lvl")).2 }
      fs1 (.SDL_KEYDOWN SDLK_RETURN) hname1 (by simp only [hfield1, create_level_editor, htext, hopen])
    simp only [saveas_switch] at hev3
    rw [hret] at hev3
    rw [level_editor_events_cons env _ fs1 _ c3 _ 0 (by rw [hev3]), hev3]
    simp only [level_editor_events, hfield1, create_level_editor, htext]
    exact ⟨trivial, trivial⟩
  · intro ed fs event camera hr hs hev hopen
    have hn := reachable_saveas_file_name env ed hr hs
    rw [level_editor_event_saveas env ed fs event camera hs]
    rcases hev with rfl | rfl <;>
      simp [saveas_switch, saveas_key_return_stops env ed fs _ hn hopen, hs]

set_option maxRecDepth 100000 in
/-- Witness of C5, on a host on which the file with the empty name cannot be opened: the
fresh editor after the save key is a save-as state of the running program whose edit
field is empty, and the Return key stops the program there; with the text `foo.lvl`
typed before the Return key the file is named and the state is the editing state. -/
theorem confirm_names_the_file_or_stops_witness :
    (level_editor_event (empty_name_env reader_section_order)
      (level_editor_event (empty_name_env reader_section_order)
        (create_level_editor (empty_name_env reader_section_order)) no_files
        (.SDL_KEYDOWN SDLK_s) plain_camera).level_editor
      no_files (.SDL_KEYDOWN SDLK_RETURN) plain_camera).status = .aborted ∧
    (level_editor_event (empty_name_env reader_section_order)
      (level_editor_event (empty_name_env reader_section_order)
        (create_level_editor (empty_name_env reader_section_order)) no_files
        (.SDL_KEYDOWN SDLK_s) plain_camera).level_editor
      no_files (.SDL_KEYDOWN SDLK_RETURN) plain_camera).level_editor.state
        = .LEVEL_EDITOR_SAVEAS ∧
    (level_editor_events (empty_name_env reader_section_order)
      (create_level_editor (empty_name_env reader_section_order)) no_files
      [(.SDL_KEYDOWN SDLK_s, plain_camera), (.SDL_TEXTINPUT "foo.lvl", plain_camera),
        (.SDL_KEYDOWN SDLK_RETURN, plain_camera)]).1.file_name = some "foo.lvl" ∧
    (level_editor_events (empty_name_env reader_section_order)
      (create_level_editor (empty_name_env reader_section_order)) no_files
      [(.SDL_KEYDOWN SDLK_s, plain_camera), (.SDL_TEXTINPUT "foo.lvl", plain_camera),
        (.SDL_KEYDOWN SDLK_RETURN, plain_camera)]).1.state = .LEVEL_EDITOR_EDITING :=
  ⟨((confirm_names_the_file_or_stops (empty_name_env reader_section_order)).2.2 _ no_files
      (.SDL_KEYDOWN SDLK_RETURN) plain_camera
      (Reachable.event _ no_files (.SDL_KEYDOWN SDLK_s) plain_camera 0 Reachable.create
        (by decide))
      (by decide) (Or.inr rfl) (by decide)).1,
    ((confirm_names_the_file_or_stops (empty_name_env reader_section_order)).2.2 _ no_files
      (.SDL_KEYDOWN SDLK_RETURN) plain_camera
      (Reachable.event _ no_files (.SDL_KEYDOWN SDLK_s) plain_camera 0 Reachable.create
        (by decide))
      (by decide) (Or.inr rfl) (by decide)).2.1,
    ((confirm_names_the_file_or_stops (empty_name_env reader_section_order)).2.1 no_files
      plain_camera plain_camera plain_camera (by decide) (by decide)).1,
    ((confirm_names_the_file_or_stops (empty_name_env reader_section_order)).2.1 no_files
      plain_camera plain_camera plain_camera (by decide) (by decide)).2⟩

/-- C6.  The file name is written once: from a state whose file name is `p`, every
event and every sequence of events leads to a state whose file name is `p`; so, along
any sequence of events from any state, once some first events have set the file name to
`p`, it is `p` at the end. -/
theorem file_name_is_write_once (env : Env EditField Layer Color)
    (ed : LevelEditor EditField Layer) (fs : FileSystem) (p : String) :
    (ed.file_name = some p →
      (∀ event camera,
        (level_editor_event env ed fs event camera).level_editor.file_name = some p) ∧
      (∀ events, (level_editor_events env ed fs events).1.file_name = some p)) ∧
    (∀ events n, (level_editor_events env ed fs (events.take n)).1.file_name = some p →
      (level_editor_events env ed fs events).1.file_name = some p) := by
  refine ⟨fun h => ⟨fun event camera => event_keeps_file_name env ed fs event camera p h,
    fun events => events_keep_file_name env p events ed fs h⟩, fun events n h => ?_⟩
  obtain ⟨tail, ht⟩ := level_editor_events_take env n events ed fs
  rw [ht]
  exact events_keep_file_name env p tail _ _ h

/-- Witness of C6: the sample editor keeps its file name `level.txt` through the save
key. -/
theorem file_name_is_write_once_witness :
    (sample_editor reader_section_order).file_name = some "level.txt" ∧
    (level_editor_event (text_env reader_section_order) (sample_editor reader_section_order)
      no_files (.SDL_KEYDOWN SDLK_s) plain_camera).level_editor.file_name
        = some "level.txt" :=
  ⟨rfl, ((file_name_is_write_once (text_env reader_section_order)
    (sample_editor reader_section_order) no_files "level.txt").1 rfl).1
      (.SDL_KEYDOWN SDLK_s) plain_camera⟩

/-- C7.  In the editing state a wheel event with positive `y` adds `0.1` to the zoom and
one with negative `y` sets it to `max(0.1, zoom - 0.1)`; a zoom of at least `0.1` stays
at least `0.1` through every sequence of wheel events; and two wheel events up followed
by thirty down, from the zoom `1.0`, end with the zoom `0.1` exactly. -/
theorem wheel_changes_zoom_with_floor (env : Env EditField Layer Color)
    (ed : LevelEditor EditField Layer) (fs : FileSystem) :
    (ed.state = .LEVEL_EDITOR_EDITING → ∀ (y : Int) (camera : Camera),
      (0 < y → (level_editor_event env ed fs (.SDL_MOUSEWHEEL y) camera).level_editor.camera_scale
        = ed.camera_scale + 1 / 10) ∧
      (y < 0 → (level_editor_event env ed fs (.SDL_MOUSEWHEEL y) camera).level_editor.camera_scale
        = max (1 / 10) (ed.camera_scale - 1 / 10))) ∧
    (1 / 10 ≤ ed.camera_scale → ∀ ws : List (Int × Camera),
      1 / 10 ≤ (level_editor_events env ed fs (wheel_events ws)).1.camera_scale) ∧
    (ed.state = .LEVEL_EDITOR_EDITING → ed.camera_scale = 1 → ∀ camera : Camera,
      (level_editor_events env ed fs
        (wheel_events ([(1, camera), (1, camera)] ++ List.replicate 30 (-1, camera)))).1.camera_scale
          = 1 / 10) := by
  refine ⟨fun hs y camera => ⟨fun hy => ?_, fun hy => ?_⟩,
    fun h ws => wheel_events_floor env ws ed fs h, fun hs h1 camera => ?_⟩
  · rw [(wheel_event env ed fs y camera).2.2, if_pos hs, wheel_zoom, if_pos hy]
  · rw [(wheel_event env ed fs y camera).2.2, if_pos hs, wheel_zoom, if_neg (by omega),
      if_pos hy, fmaxf_eq_max]
  · rw [wheel_events_zoom env _ ed fs hs, h1]
    norm_num [List.replicate, wheel_zoom, fmaxf]

/-- Witness of C7: the fresh editor of `text_env`, given the zoom `1`. -/
theorem wheel_changes_zoom_with_floor_witness :
    (level_editor_events (text_env reader_section_order)
      { create_level_editor (text_env reader_section_order) with camera_scale := 1 } no_files
      (wheel_events ([(1, plain_camera), (1, plain_camera)]
        ++ List.replicate 30 (-1, plain_camera)))).1.camera_scale = 1 / 10 :=
  (wheel_changes_zoom_with_floor (text_env reader_section_order)
    { create_level_editor (text_env reader_section_order) with camera_scale := 1 }
    no_files).2.2 rfl rfl plain_camera

/-- C8, at the input where the code falls short of it.  The editor `create_level_editor`
returns has the zoom `0`, not a positive zoom, and so has every editor
`create_level_editor_from_file` returns: neither function assigns `camera_scale`. -/
theorem initial_zoom_is_zero (env : Env EditField Layer Color) :
    (create_level_editor env).camera_scale = 0 ∧
    ¬ 0 < (create_level_editor env).camera_scale ∧
    ∀ (fs : FileSystem) (file_name : String) (ed : LevelEditor EditField Layer),
      create_level_editor_from_file env fs file_name = some ed →
        ed.camera_scale = 0 ∧ ¬ 0 < ed.camera_scale := by
  refine ⟨rfl, by simp [create_level_editor], fun fs file_name ed h => ?_⟩
  obtain ⟨_, _, _, _, _, _, _, _, _, _, _, _, _, _, _, _, _, _, _, _, _, _, _, _, _, _, _, hz, _⟩ :=
    (load_eq_some env fs file_name ed).1 h
  rw [hz]
  simp

set_option maxRecDepth 100000 in
/-- Witness of C8: the editor read back from the file of the sample editor has the zoom
`0`. -/
theorem initial_zoom_is_zero_witness :
    ∃ ed, create_level_editor_from_file (text_env reader_section_order)
        (sample_files reader_section_order) "level.txt" = some ed ∧ ed.camera_scale = 0 :=
  (Option.isSome_iff_exists.1
    (by decide : (create_level_editor_from_file (text_env reader_section_order)
      (sample_files reader_section_order) "level.txt").isSome = true)).elim
    fun ed hed => ⟨ed, hed,
      ((initial_zoom_is_zero (text_env reader_section_order)).2.2
        (sample_files reader_section_order) "level.txt" ed hed).1⟩

/-- C9.  `create_level_editor_from_file` returns no editor when the file cannot be
opened; it returns an editor exactly when the file can be opened and each of the eleven
sections is read, in the order of the source, from what the section before it left of
the stream, so that a section that fails leaves no editor however many sections before
it were read; and an editor it returns has the path as file name, is in the editing
state and does not drag. -/
theorem load_is_all_or_nothing (env : Env EditField Layer Color) (fs : FileSystem)
    (file_name : String) :
    (fs file_name = none → create_level_editor_from_file env fs file_name = none) ∧
    ((create_level_editor_from_file env fs file_name).isSome ↔
      ∃ text title s1 background s2 player s3 platforms s4 goals s5 lava s6 back_platforms s7
        boxes s8 labels s9 regions s10 script,
        fs file_name = some text ∧
        env.create_level_metadata_from_line_stream text = some (title, s1) ∧
        env.color_picker_read_from_line_stream s1 = some (background, s2) ∧
        env.create_player_layer_from_line_stream s2 = some (player, s3) ∧
        env.create_rect_layer_from_line_stream s3 = some (platforms, s4) ∧
        env.create_point_layer_from_line_stream s4 = some (goals, s5) ∧
        env.create_rect_layer_from_line_stream s5 = some (lava, s6) ∧
        env.create_rect_layer_from_line_stream s6 = some (back_platforms, s7) ∧
        env.create_rect_layer_from_line_stream s7 = some (boxes, s8) ∧
        env.create_label_layer_from_line_stream s8 = some (labels, s9) ∧
        env.create_rect_layer_from_line_stream s9 = some (regions, s10) ∧
        env.line_stream_collect_until_end s10 = some script) ∧
    (∀ ed, create_level_editor_from_file env fs file_name = some ed →
      ed.file_name = some file_name ∧ ed.state = .LEVEL_EDITOR_EDITING ∧ ed.drag = false) := by
  refine ⟨fun h => ?_, ⟨fun h => ?_, ?_⟩, fun ed h => ?_⟩
  · simp [create_level_editor_from_file, create_line_stream, h]
  · obtain ⟨ed, hed⟩ := Option.isSome_iff_exists.1 h
    obtain ⟨text, s1, s2, s3, s4, s5, s6, s7, s8, s9, s10, h0, h1, h2, h3, h4, h5, h6, h7, h8,
      h9, h10, h11, _⟩ := (load_eq_some env fs file_name ed).1 hed
    exact ⟨text, _, s1, _, s2, _, s3, _, s4, _, s5, _, s6, _, s7, _, s8, _, s9, _, s10, _,
      h0, h1, h2, h3, h4, h5, h6, h7, h8, h9, h10, h11⟩
  · rintro ⟨text, title, s1, background, s2, player, s3, platforms, s4, goals, s5, lava, s6,
      back_platforms, s7, boxes, s8, labels, s9, regions, s10, script, h0, h1, h2, h3, h4, h5,
      h6, h7, h8, h9, h10, h11⟩
    simp [create_level_editor_from_file, create_line_stream, h0, h1, h2, h3, h4, h5, h6, h7,
      h8, h9, h10, h11]
  · obtain ⟨_, _, _, _, _, _, _, _, _, _, _, _, _, _, _, _, _, _, _, _, _, _, _, _, _, hs, hn, _,
      _, hd⟩ := (load_eq_some env fs file_name ed).1 h
    exact ⟨hn, hs, hd⟩

set_option maxRecDepth 100000 in
/-- Witness of C9: without files there is no editor; from the file of the sample editor
there is one, and it has the file name `level.txt`. -/
theorem load_is_all_or_nothing_witness :
    create_level_editor_from_file (text_env reader_section_order) no_files "level.txt"
      = none ∧
    ∃ ed, create_level_editor_from_file (text_env reader_section_order)
        (sample_files reader_section_order) "level.txt" = some ed ∧
      ed.file_name = some "level.txt" :=
  ⟨(load_is_all_or_nothing (text_env reader_section_order) no_files "level.txt").1 rfl,
    (Option.isSome_iff_exists.1
      (by decide : (create_level_editor_from_file (text_env reader_section_order)
        (sample_files reader_section_order) "level.txt").isSome = true)).elim
      fun ed hed => ⟨ed, hed,
        ((load_is_all_or_nothing (text_env reader_section_order)
          (sample_files reader_section_order) "level.txt").2.2 ed hed).1⟩⟩

/-- C17.  In every state of the running program the save-as state has no file name.
Hence, when the program stops inside an event, it does so inside a dump whose file cannot
be opened, not at the assertion `file_name == NULL`; every call of `level_editor_dump` is
made with a file name; and an editor read from a file stays in the editing state through
every sequence of events. -/
theorem saveas_has_no_file_name (env : Env EditField Layer Color) :
    (∀ ed, Reachable env ed → ed.state = .LEVEL_EDITOR_SAVEAS → ed.file_name = none) ∧
    (∀ ed fs event camera, Reachable env ed →
      (level_editor_event env ed fs event camera).status = .aborted →
      ∃ p, Call.level_editor_dump (some p) ∈ (level_editor_event env ed fs event camera).calls ∧
        env.fopen_fails p = true) ∧
    (∀ (ed : LevelEditor EditField Layer) fs event camera f,
      Call.level_editor_dump f ∈ (level_editor_event env ed fs event camera).calls →
      ∃ p, f = some p) ∧
    (∀ fs file_name ed fs2 events, create_level_editor_from_file env fs file_name = some ed →
      (level_editor_events env ed fs2 events).1.state = .LEVEL_EDITOR_EDITING) := by
  refine ⟨fun ed hr hs => reachable_saveas_file_name env ed hr hs,
    fun ed fs event camera hr => (event_dump_calls env ed fs event camera).2
      (reachable_saveas_file_name env ed hr),
    fun ed fs event camera f => (event_dump_calls env ed fs event camera).1 f,
    fun fs file_name ed fs2 events h => ?_⟩
  obtain ⟨_, _, _, _, _, _, _, _, _, _, _, _, _, _, _, _, _, _, _, _, _, _, _, _, _, hs, hn, _⟩ :=
    (load_eq_some env fs file_name ed).1 h
  exact events_keep_editing env file_name events ed fs2 hs hn

set_option maxRecDepth 100000 in
/-- Witness of C17: the editor read back from the file of the sample editor is in the
editing state after the save key. -/
theorem saveas_has_no_file_name_witness :
    ∃ ed, create_level_editor_from_file (text_env reader_section_order)
        (sample_files reader_section_order) "level.txt" = some ed ∧
      (level_editor_events (text_env reader_section_order) ed no_files
        [(.SDL_KEYDOWN SDLK_s, plain_camera)]).1.state = .LEVEL_EDITOR_EDITING :=
  (Option.isSome_iff_exists.1
    (by decide : (create_level_editor_from_file (text_env reader_section_order)
      (sample_files reader_section_order) "level.txt").isSome = true)).elim
    fun ed hed => ⟨ed, hed,
      (saveas_has_no_file_name (text_env reader_section_order)).2.2.2
        (sample_files reader_section_order) "level.txt" ed no_files _ hed⟩

/-- C13, as the code has it.  When `level_editor_dump` returns, whatever it returns, the
save key in the editing state goes on to the picker and the layers and returns what they
answer, and the Return key in the save-as state returns `0`: the value `-1` of a failed
write is dropped.  When the file cannot be opened, the program stops inside the dump
instead of returning. -/
theorem event_drops_the_result_of_the_dump (env : Env EditField Layer Color)
    (ed : LevelEditor EditField Layer) (fs : FileSystem) (camera : Camera) (code : Int)
    (p : String) :
    (ed.state = .LEVEL_EDITOR_EDITING → ed.file_name = some p →
      (level_editor_dump env ed fs).status = .returned code →
      (level_editor_event env ed fs (.SDL_KEYDOWN SDLK_s) camera).status
        = (offer_event env ed fs [] (.SDL_KEYDOWN SDLK_s) camera).status) ∧
    (ed.state = .LEVEL_EDITOR_SAVEAS → ed.file_name = none →
      (level_editor_dump env
        { ed with file_name := some (env.edit_field_as_text ed.edit_field_filename) }
        fs).status = .returned code →
      (level_editor_event env ed fs (.SDL_KEYDOWN SDLK_RETURN) camera).status = .returned 0) ∧
    (ed.state = .LEVEL_EDITOR_EDITING → ed.file_name = some p → env.fopen_fails p = true →
      (level_editor_event env ed fs (.SDL_KEYDOWN SDLK_s) camera).status = .aborted) := by
  refine ⟨fun hs hn hd => ?_, fun hs hn hd => ?_, fun hs hn ho => ?_⟩
  · have hsw : editing_switch env ed fs (.SDL_KEYDOWN SDLK_s) camera
        = ⟨.returned 0, ed, (level_editor_dump env ed fs).fs,
            [.level_editor_dump ed.file_name]⟩ := by
      simp only [editing_switch, if_true, hn, hd]
    rw [level_editor_event_editing_returned env ed fs _ camera 0 hs (by rw [hsw]), hsw]
    exact offer_event_status env ed _ fs _ [] _ camera
  · rw [level_editor_event_saveas env ed fs _ camera hs]
    simp only [saveas_switch, saveas_key, if_true, hn, hd]
  · have hd : (level_editor_dump env ed fs).status = .aborted := by
      simp only [level_editor_dump, hn, ho, if_true]
    have hsw : (editing_switch env ed fs (.SDL_KEYDOWN SDLK_s) camera).status = .aborted := by
      simp only [editing_switch, if_true, hn, hd]
    rw [level_editor_event_editing_aborted env ed fs _ camera hs hsw, hsw]

set_option maxRecDepth 100000 in
/-- Witness of C13: on a host on which every write fails, `level_editor_dump` of the
sample editor returns `-1` and the save key returns `0`, and so does the Return key in
the save-as state that the save key has led the fresh editor to; on a host on which no
file can be opened, the program stops inside the save key. -/
theorem event_drops_the_result_of_the_dump_witness :
    (level_editor_dump (full_disk_env reader_section_order)
      (sample_editor reader_section_order) no_files).status = .returned (-1) ∧
    (level_editor_event (full_disk_env reader_section_order)
      (sample_editor reader_section_order) no_files
      (.SDL_KEYDOWN SDLK_s) plain_camera).status = .returned 0 ∧
    (level_editor_dump (full_disk_env reader_section_order)
      { create_level_editor (full_disk_env reader_section_order) with
        state := .LEVEL_EDITOR_SAVEAS, file_name := some "" } no_files).status
        = .returned (-1) ∧
    (level_editor_event (full_disk_env reader_section_order)
      { create_level_editor (full_disk_env reader_section_order) with
        state := .LEVEL_EDITOR_SAVEAS } no_files
      (.SDL_KEYDOWN SDLK_RETURN) plain_camera).status = .returned 0 ∧
    (level_editor_event (read_only_env reader_section_order)
      (sample_editor reader_section_order) no_files
      (.SDL_KEYDOWN SDLK_s) plain_camera).status = .aborted :=
  ⟨by decide,
    ((event_drops_the_result_of_the_dump (full_disk_env reader_section_order)
      (sample_editor reader_section_order) no_files plain_camera (-1) "level.txt").1
      rfl rfl (by decide)).trans (by decide),
    by decide,
    (event_drops_the_result_of_the_dump (full_disk_env reader_section_order)
      { create_level_editor (full_disk_env reader_section_order) with
        state := .LEVEL_EDITOR_SAVEAS } no_files plain_camera (-1) "").2.1
      rfl rfl (by decide),
    (event_drops_the_result_of_the_dump (read_only_env reader_section_order)
      (sample_editor reader_section_order) no_files plain_camera 0 "level.txt").2.2
      rfl rfl rfl⟩

/-- C14, as the code has it.  In the editing state a pointer-motion event at the screen
position `c` with the relative motion `r` adds `camera_map_screen(c) -
camera_map_screen(c + r)` to the camera offset when the editor drags, which is the
negative of `camera_map_screen(c) - camera_map_screen(c - r)`; when the editor does not
drag, the camera offset stays. -/
theorem motion_pans_against_the_pointer (env : Env EditField Layer Color)
    (ed : LevelEditor EditField Layer) (fs : FileSystem) (x y xrel yrel : Int)
    (camera : Camera) (hs : ed.state = .LEVEL_EDITOR_EDITING) :
    (ed.drag = true →
      (level_editor_event env ed fs (.SDL_MOUSEMOTION x y xrel yrel) camera).level_editor.camera_position
        = vec_sum ed.camera_position
            (vec_sub (camera_map_screen camera x y)
              (camera_map_screen camera (x + xrel) (y + yrel))) ∧
      vec_sub (camera_map_screen camera x y) (camera_map_screen camera (x + xrel) (y + yrel))
        = vec_neg (vec_sub (camera_map_screen camera x y)
            (camera_map_screen camera (x - xrel) (y - yrel)))) ∧
    (ed.drag = false →
      (level_editor_event env ed fs (.SDL_MOUSEMOTION x y xrel yrel) camera).level_editor.camera_position
        = ed.camera_position) := by
  rw [motion_event env ed fs x y xrel yrel camera hs]
  refine ⟨fun hd => ⟨by rw [if_pos hd], ?_⟩, fun hd => by rw [hd]; rfl⟩
  rw [camera_map_screen_sub, camera_map_screen_sub]
  simp only [vec_neg, vec, Vec.mk.injEq]
  push_cast
  constructor <;> ring

/-- Witness of C14: the fresh editor of `text_env`, dragging, and a motion to `(10, 10)`
by `(5, 0)` seen by `plain_camera`. -/
theorem motion_pans_against_the_pointer_witness :
    (level_editor_event (text_env reader_section_order)
      { create_level_editor (text_env reader_section_order) with drag := true } no_files
      (.SDL_MOUSEMOTION 10 10 5 0) plain_camera).level_editor.camera_position
      = vec_sum (vec 0 0)
          (vec_sub (camera_map_screen plain_camera 10 10)
            (camera_map_screen plain_camera (10 + 5) (10 + 0))) :=
  ((motion_pans_against_the_pointer (text_env reader_section_order)
    { create_level_editor (text_env reader_section_order) with drag := true } no_files
    10 10 5 0 plain_camera rfl).1 rfl).1

/-- Counterexample to C14 as stated: the fresh editor of `text_env`, dragging, and a
motion to `(10, 10)` by `(5, 0)` seen by `plain_camera`.  The camera offset moves from
`(0, 0)` to `(-5, 0)`, while `camera_map_screen(c) - camera_map_screen(c - r)` is
`(5, 0)`. -/
theorem motion_does_not_add_the_pointer_delta :
    (level_editor_event (text_env reader_section_order)
      { create_level_editor (text_env reader_section_order) with drag := true } no_files
      (.SDL_MOUSEMOTION 10 10 5 0) plain_camera).level_editor.camera_position = vec (-5) 0 ∧
    vec_sum (vec 0 0)
      (vec_sub (camera_map_screen plain_camera 10 10)
        (camera_map_screen plain_camera (10 - 5) (10 - 0))) = vec 5 0 := by
  have he : effective_scale plain_camera.view_port = vec 1 1 := by
    simp only [effective_scale, effective_ratio, plain_camera, RATIO_X, RATIO_Y, vec,
      vec_entry_div, vec_scala_mult]
    norm_num
  rw [motion_event _ _ _ _ _ _ _ _ rfl, camera_map_screen_sub, camera_map_screen_sub, he]
  simp only [create_level_editor, if_true, vec_sum, vec, plain_camera, Vec.mk.injEq]
  norm_num

/-- C20, in exact arithmetic.  For a camera with positive scale `s` on a view port with
positive sides, a pointer-motion event in the editing state of a dragging editor adds
`(-xrel / (s * e), -yrel / (s * e))` to the camera offset, `e` being the common component
of `effective_scale`: the amount depends neither on the position of the camera nor on
the position of the pointer, and a motion by `(0, 0)` leaves the camera offset as it
is. -/
theorem pan_depends_on_the_relative_motion_only (env : Env EditField Layer Color)
    (ed : LevelEditor EditField Layer) (fs : FileSystem) (x y xrel yrel : Int)
    (camera : Camera) (hs : ed.state = .LEVEL_EDITOR_EDITING) (hd : ed.drag = true)
    (hscale : 0 < camera.scale) (hw : 0 < camera.view_port.w) (hh : 0 < camera.view_port.h) :
    (effective_scale camera.view_port).x = (effective_scale camera.view_port).y ∧
    (level_editor_event env ed fs (.SDL_MOUSEMOTION x y xrel yrel) camera).level_editor.camera_position
      = vec_sum ed.camera_position
          (vec (-(xrel : ℚ) / (camera.scale * (effective_scale camera.view_port).x))
            (-(yrel : ℚ) / (camera.scale * (effective_scale camera.view_port).x))) ∧
    (level_editor_event env ed fs (.SDL_MOUSEMOTION x y 0 0) camera).level_editor.camera_position
      = ed.camera_position := by
  obtain ⟨hx, hy⟩ := effective_scale_eq camera.view_port hw hh
  obtain ⟨hpx, hpy⟩ := effective_scale_pos camera.view_port hw hh
  have hxy : (effective_scale camera.view_port).x = (effective_scale camera.view_port).y :=
    hx.trans hy.symm
  have hs' : camera.scale ≠ 0 := ne_of_gt hscale
  have hx' := ne_of_gt hpx
  refine ⟨hxy, ?_, ?_⟩
  · rw [motion_event env ed fs x y xrel yrel camera hs, if_pos hd, camera_map_screen_sub,
      ← hxy]
    simp only [vec_sum, vec, Vec.mk.injEq]
    push_cast
    constructor
    · congr 1; field_simp
    · congr 1; field_simp
  · rw [motion_event env ed fs x y 0 0 camera hs, if_pos hd, camera_map_screen_sub]
    cases hp : ed.camera_position
    simp [vec_sum, vec]

/-- Witness of C20: the fresh editor of `text_env`, dragging, and `plain_camera`: a motion
by `(5, 0)` and a motion by `(0, 0)`. -/
theorem pan_depends_on_the_relative_motion_only_witness :
    (level_editor_event (text_env reader_section_order)
      { create_level_editor (text_env reader_section_order) with drag := true } no_files
      (.SDL_MOUSEMOTION 10 10 5 0) plain_camera).level_editor.camera_position
      = vec_sum (vec 0 0)
          (vec
            (-((5 : Int) : ℚ)
              / (plain_camera.scale * (effective_scale plain_camera.view_port).x))
            (-((0 : Int) : ℚ)
              / (plain_camera.scale * (effective_scale plain_camera.view_port).x))) ∧
    (level_editor_event (text_env reader_section_order)
      { create_level_editor (text_env reader_section_order) with drag := true } no_files
      (.SDL_MOUSEMOTION 10 10 0 0) plain_camera).level_editor.camera_position = vec 0 0 :=
  ⟨(pan_depends_on_the_relative_motion_only (text_env reader_section_order)
      { create_level_editor (text_env reader_section_order) with drag := true } no_files
      10 10 5 0 plain_camera rfl rfl (by decide) (by decide) (by decide)).2.1,
    (pan_depends_on_the_relative_motion_only (text_env reader_section_order)
      { create_level_editor (text_env reader_section_order) with drag := true } no_files
      10 10 5 0 plain_camera rfl rfl (by decide) (by decide) (by decide)).2.2⟩

set_option maxRecDepth 100000 in
/-- Counterexample to C20 as stated, in binary32, which is what the code computes in: for
the camera at `(0, 0)` with the scale `0.3f` on a view port of 1024 by 768, a motion by
`(7, 0)` adds `-13.671814` to the x of the camera offset when the pointer is at
`(100, 100)`, `-13.671875` when it is at `(517, 100)` and `-13.671906` when it is at
`(700, 100)`; with the camera at `(1000000, 0)` the last amount is `-13.6875`. -/
theorem pan_depends_on_the_positions_in_binary32 :
    motion_pan_binary32 zoomed_camera_binary32 100 100 7 0
      = ⟨.finite true 14335936 (-20), .finite false 0 (-149)⟩ ∧
    motion_pan_binary32 zoomed_camera_binary32 517 100 7 0
      = ⟨.finite true 14336000 (-20), .finite false 0 (-149)⟩ ∧
    motion_pan_binary32 zoomed_camera_binary32 700 100 7 0
      = ⟨.finite true 14336032 (-20), .finite false 0 (-149)⟩ ∧
    motion_pan_binary32
        { zoomed_camera_binary32 with position := vec_binary32 1000000 0 } 700 100 7 0
      = ⟨.finite true 14352384 (-20), .finite false 0 (-149)⟩ ∧
    motion_binary32 (vec_binary32 0 0) zoomed_camera_binary32 100 100 7 0
      ≠ motion_binary32 (vec_binary32 0 0) zoomed_camera_binary32 517 100 7 0 := by
  decide

/-- C16.  After `level_editor_focus_camera` the position of the camera is the camera
offset of the editor and its scale is the larger of `0.1` and the zoom of the editor, so
at least `0.1`; the two flags and the view port of the camera are as before, and so is
the editor. -/
theorem focus_camera_pushes_offset_and_zoom (ed : LevelEditor EditField Layer)
    (camera : Camera) :
    (level_editor_focus_camera ed camera).2.2.position = ed.camera_position ∧
    (level_editor_focus_camera ed camera).2.2.scale = max (1 / 10) ed.camera_scale ∧
    1 / 10 ≤ (level_editor_focus_camera ed camera).2.2.scale ∧
    (level_editor_focus_camera ed camera).2.2.debug_mode = camera.debug_mode ∧
    (level_editor_focus_camera ed camera).2.2.blackwhite_mode = camera.blackwhite_mode ∧
    (level_editor_focus_camera ed camera).2.2.view_port = camera.view_port ∧
    (level_editor_focus_camera ed camera).2.1 = ed ∧
    (level_editor_focus_camera ed camera).1 = 0 := by
  refine ⟨rfl, ?_, ?_, rfl, rfl, rfl, rfl, rfl⟩
  · simp only [level_editor_focus_camera, camera_scale, fmaxf_eq_max]
  · simp only [level_editor_focus_camera, camera_scale, fmaxf_eq_max]
    exact le_max_left _ _

/-- C19.  On a view port with positive sides the two components of `effective_scale` are
equal, both being the larger of `w / 800` and `h / 450`, and `effective_ratio` has
`x ≤ 16` and `y ≤ 9` with one of the two at its bound. -/
theorem effective_scale_is_isotropic (view_port : SDL_Rect) (hw : 0 < view_port.w)
    (hh : 0 < view_port.h) :
    (effective_scale view_port).x = (effective_scale view_port).y ∧
    (effective_scale view_port).x = max ((view_port.w : ℚ) / 800) ((view_port.h : ℚ) / 450) ∧
    (effective_scale view_port).y = max ((view_port.w : ℚ) / 800) ((view_port.h : ℚ) / 450) ∧
    (effective_ratio view_port).x ≤ 16 ∧ (effective_ratio view_port).y ≤ 9 ∧
    ((effective_ratio view_port).x = 16 ∨ (effective_ratio view_port).y = 9) := by
  obtain ⟨hx, hy⟩ := effective_scale_eq view_port hw hh
  refine ⟨hx.trans hy.symm, hx, hy, ?_⟩
  have hw' : (0 : ℚ) < view_port.w := by exact_mod_cast hw
  have hh' : (0 : ℚ) < view_port.h := by exact_mod_cast hh
  unfold effective_ratio
  by_cases hc : (view_port.w : ℚ) / RATIO_X > (view_port.h : ℚ) / RATIO_Y
  · rw [if_pos hc]
    simp only [RATIO_X, RATIO_Y] at hc ⊢
    simp only [vec]
    refine ⟨le_refl _, ?_, Or.inl trivial⟩
    rw [gt_iff_lt, div_lt_div_iff₀ (by norm_num) (by norm_num)] at hc
    rw [div_le_iff₀ (by positivity)]
    linarith
  · rw [if_neg hc]
    simp only [RATIO_X, RATIO_Y] at hc ⊢
    simp only [vec]
    refine ⟨?_, le_refl _, Or.inr trivial⟩
    rw [gt_iff_lt, not_lt, div_le_div_iff₀ (by norm_num) (by norm_num)] at hc
    rw [div_le_iff₀ (by positivity)]
    linarith

/-- Witness of C19: the view port of 800 by 450. -/
theorem effective_scale_is_isotropic_witness :
    (effective_scale ⟨0, 0, 800, 450⟩).x = (effective_scale ⟨0, 0, 800, 450⟩).y :=
  (effective_scale_is_isotropic ⟨0, 0, 800, 450⟩ (by decide) (by decide)).1

/-- C15.  For a camera with positive scale on a view port with positive sides,
`camera_point` and `camera_map_screen` are inverse to each other: the screen point
`(x, y)` is the image of the world point it is mapped to, and a world point whose image
is the screen point `(x, y)` is what `camera_map_screen` returns for `(x, y)`. -/
theorem camera_point_map_screen_inverse (camera : Camera) (hs : 0 < camera.scale)
    (hw : 0 < camera.view_port.w) (hh : 0 < camera.view_port.h) :
    (∀ x y : Int, camera_point camera (camera_map_screen camera x y) = vec x y) ∧
    (∀ (p : Vec) (x y : Int), camera_point camera p = vec x y →
      camera_map_screen camera x y = p) := by
  obtain ⟨hx, hy⟩ := effective_scale_pos camera.view_port hw hh
  have hs' : camera.scale ≠ 0 := ne_of_gt hs
  have hx' := ne_of_gt hx
  have hy' := ne_of_gt hy
  constructor
  · intro x y
    simp only [camera_point, camera_map_screen, vec_sum, vec_scala_mult, vec_entry_mult,
      vec_neg, vec, Vec.mk.injEq]
    constructor
    · field_simp; ring
    · field_simp; ring
  · intro p x y h
    simp only [camera_point, vec_sum, vec_scala_mult, vec_entry_mult,
      vec_neg, vec, Vec.mk.injEq] at h
    obtain ⟨h1, h2⟩ := h
    cases p with
    | mk px py =>
      simp only [camera_map_screen, vec_sum, vec_scala_mult, vec_entry_mult,
        vec, Vec.mk.injEq]
      simp only at h1 h2
      constructor
      · rw [← h1]; field_simp
      · rw [← h2]; field_simp

/-- Witness of C15: `plain_camera` and the screen point `(10, 20)`. -/
theorem camera_point_map_screen_inverse_witness :
    camera_point plain_camera (camera_map_screen plain_camera 10 20) = vec 10 20 :=
  (camera_point_map_screen_inverse plain_camera (by decide) (by decide) (by decide)).1 10 20

end Claims

section BoxesClaims

variable {RigidBodies RigidBodyId Color : Type}

/-- C10, at inputs where the code falls short of it.  `create_boxes_from_line_stream`
never returns `NULL` for a section whose count line is `abc`; it returns boxes, with the
count `1`, for a section of one data line that lacks fields (`A 10 20`) or whose second
number cannot be read (`A 10 xx 30 40 ff0000`); and for a data line whose id has 37
characters it writes past the end of `id` instead of returning `NULL`. -/
theorem boxes_reader_accepts_malformed_sections
    (env : BoxesEnv RigidBodies RigidBodyId Color) (rigid_bodies : RigidBodies) :
    (∀ rigid_bodies2 rest,
      create_boxes_from_line_stream env "abc\n".toList rigid_bodies
        ≠ .returned none rigid_bodies2 rest) ∧
    (∃ boxes rigid_bodies2,
      create_boxes_from_line_stream env "1\nA 10 20\n".toList rigid_bodies
        = .returned (some boxes) rigid_bodies2 [] ∧ boxes.count = 1) ∧
    (∃ boxes rigid_bodies2,
      create_boxes_from_line_stream env "1\nA 10 xx 30 40 ff0000\n".toList rigid_bodies
        = .returned (some boxes) rigid_bodies2 [] ∧ boxes.count = 1) ∧
    create_boxes_from_line_stream env
        ("1\n".toList ++ List.replicate 37 'a' ++ " 10 20 30 40 ff0000\n".toList) rigid_bodies
      = .aborted := by
  have hcount : ∀ rest : List Char, line_stream_next ("1\n".toList ++ rest)
      = some ("1\n".toList, rest) := fun rest => line_stream_next_line rest "1".toList (by decide)
  have hone : ∀ n, sscanf_count "1\n".toList n = (1, 1) := fun n => by
    have : scan_lu "1\n".toList = .converted 1 [newline] := by decide
    unfold sscanf_count
    rw [this]
  have hsection : ∀ line : List Char, newline ∉ line →
      id_overflows (line ++ [newline]) = false →
      scan_s 36 (line ++ [newline]) ≠ .input_failure →
      ∃ boxes rigid_bodies2,
        create_boxes_from_line_stream env ("1\n".toList ++ (line ++ [newline])) rigid_bodies
          = .returned (some boxes) rigid_bodies2 [] ∧ boxes.count = 1 := by
    intro line hnl hov hs
    obtain ⟨loaded, rb2, h1, h2⟩ := read_boxes_last_line env line 0
      { body_ids := fun _ => env.uninit_id
        body_colors := fun _ => env.uninit_body_color
        count := 1 } rigid_bodies hnl hov hs
    refine ⟨loaded, rb2, ?_, h2⟩
    simp only [create_boxes_from_line_stream, hcount, hone]
    simp only [BOXES_CAPACITY]
    exact h1
  refine ⟨fun rb2 rest => ?_, hsection "A 10 20".toList (by decide) (by decide) (by decide),
    hsection "A 10 xx 30 40 ff0000".toList (by decide) (by decide) (by decide), ?_⟩
  · have hline : line_stream_next "abc\n".toList = some ("abc\n".toList, []) := by decide
    have hscan : scan_lu "abc\n".toList = .matching_failure := by decide
    simp only [create_boxes_from_line_stream, hline, sscanf_count_no_number _ _ hscan]
    rw [if_neg (by decide)]
    split_ifs
    · cases env.uninit_count with
      | zero => simp [read_boxes]
      | succ n => simp [read_boxes, line_stream_next]
    · simp
  · have e : "1\n".toList ++ List.replicate 37 'a' ++ " 10 20 30 40 ff0000\n".toList
        = "1\n".toList
          ++ ((List.replicate 37 'a' ++ " 10 20 30 40 ff0000".toList) ++ [newline]) := by
      decide
    have hl := line_stream_next_line []
      (List.replicate 37 'a' ++ " 10 20 30 40 ff0000".toList) (by decide)
    have hov : id_overflows
        ((List.replicate 37 'a' ++ " 10 20 30 40 ff0000".toList) ++ [newline]) = true := by
      decide
    rw [e]
    simp only [create_boxes_from_line_stream, hcount, hone]
    simp only [BOXES_CAPACITY, read_boxes, hl, hov]
    simp

/-- C11, at inputs where the code falls short of it.  For the section with the count line
`2` and the single data line `A 10 20 30 40 ff0000`, `create_boxes_from_line_stream` hands
the `NULL` that `line_stream_next` returns at the end of the stream to `sscanf` instead of
returning `NULL` itself; and when the text goes on, here with the line `0`, it takes the
next line for the second data line and returns boxes with the count `2`. -/
theorem boxes_reader_runs_past_short_sections
    (env : BoxesEnv RigidBodies RigidBodyId Color) (rigid_bodies : RigidBodies) :
    create_boxes_from_line_stream env "2\nA 10 20 30 40 ff0000\n".toList rigid_bodies
      = .aborted ∧
    ∃ boxes rigid_bodies2,
      create_boxes_from_line_stream env "2\nA 10 20 30 40 ff0000\n0\n".toList rigid_bodies
        = .returned (some boxes) rigid_bodies2 [] ∧ boxes.count = 2 := by
  have hcount : ∀ rest : List Char, line_stream_next ("2\n".toList ++ rest)
      = some ("2\n".toList, rest) := fun rest => line_stream_next_line rest "2".toList (by decide)
  have htwo : ∀ n, sscanf_count "2\n".toList n = (1, 2) := fun n => by
    have : scan_lu "2\n".toList = .converted 2 [newline] := by decide
    unfold sscanf_count
    rw [this]
  have hround : ∀ rest : List Char,
      create_boxes_from_line_stream env
          ("2\n".toList ++ ("A 10 20 30 40 ff0000".toList ++ newline :: rest)) rigid_bodies
        = read_boxes env 1 1
          { body_ids := Function.update (fun _ => env.uninit_id) 0
              (env.rigid_bodies_add rigid_bodies
                (sscanf_rect ("A 10 20 30 40 ff0000".toList ++ [newline]) (env.uninit_rect 0)
                  (env.uninit_color 0)).2.1).2
            body_colors := Function.update (fun _ => env.uninit_body_color) 0
              (env.hexstr
                (sscanf_rect ("A 10 20 30 40 ff0000".toList ++ [newline]) (env.uninit_rect 0)
                  (env.uninit_color 0)).2.2)
            count := 2 }
          (env.rigid_bodies_add rigid_bodies
            (sscanf_rect ("A 10 20 30 40 ff0000".toList ++ [newline]) (env.uninit_rect 0)
              (env.uninit_color 0)).2.1).1
          rest := by
    intro rest
    simp only [create_boxes_from_line_stream, hcount, htwo]
    simp only [BOXES_CAPACITY]
    rw [if_neg (by decide), if_pos (by decide)]
    exact read_boxes_round env 1 0 _ rigid_bodies "A 10 20 30 40 ff0000".toList rest
      (by decide) (by decide)
      (fun h => absurd ((sscanf_rect_neg _ _ _).1 h) (by decide))
  constructor
  · have e : "2\nA 10 20 30 40 ff0000\n".toList
        = "2\n".toList ++ ("A 10 20 30 40 ff0000".toList ++ newline :: []) := by decide
    rw [e, hround, read_boxes]
    rfl
  · have e : "2\nA 10 20 30 40 ff0000\n0\n".toList
        = "2\n".toList ++ ("A 10 20 30 40 ff0000".toList ++ newline :: ("0".toList ++ [newline]))
          := by decide
    rw [e, hround]
    obtain ⟨loaded, rb2, h1, h2⟩ := read_boxes_last_line env "0".toList 1
      { body_ids := Function.update (fun _ => env.uninit_id) 0
          (env.rigid_bodies_add rigid_bodies
            (sscanf_rect ("A 10 20 30 40 ff0000".toList ++ [newline]) (env.uninit_rect 0)
              (env.uninit_color 0)).2.1).2
        body_colors := Function.update (fun _ => env.uninit_body_color) 0
          (env.hexstr
            (sscanf_rect ("A 10 20 30 40 ff0000".toList ++ [newline]) (env.uninit_rect 0)
              (env.uninit_color 0)).2.2)
        count := 2 }
      (env.rigid_bodies_add rigid_bodies
        (sscanf_rect ("A 10 20 30 40 ff0000".toList ++ [newline]) (env.uninit_rect 0)
          (env.uninit_color 0)).2.1).1
      (by decide) (by decide) (by decide)
    exact ⟨loaded, rb2, h1, h2⟩

/-- C12, as the code has it.  Let a rect section consist of a count line that writes the
number `n < 1000` in digits, and of `n` well-formed lines `id x y w h colorHex`, the ids of
at most 36 characters.  When every id has fewer than 36 characters,
`create_boxes_from_line_stream` returns boxes with the count `n`, has registered the
rectangles of the lines from the first to the last, and box `i` has the id the
registration of the rectangle of line `i` returned and the colour `hexstr` makes of the
colour of line `i`; what follows the section is left in the stream.  When an id has 36
characters, `sscanf` writes its terminating zero past the end of `id` and no boxes are
returned. -/
theorem boxes_reader_overruns_an_id_of_36_characters
    (env : BoxesEnv RigidBodies RigidBodyId Color) (rigid_bodies : RigidBodies)
    (count : List Char) (lines : List BoxLine) (rest : List Char)
    (hne : count ≠ []) (hdigits : ∀ c ∈ count, c.isDigit = true)
    (hcount : digits_value count = lines.length) (hcap : lines.length < BOXES_CAPACITY)
    (hlines : ∀ b ∈ lines, b.WellFormed) :
    ((∀ b ∈ lines, b.id.length < 36) →
      ∃ boxes,
        create_boxes_from_line_stream env (boxes_section count lines ++ rest) rigid_bodies
          = .returned (some boxes)
              (register_boxes env rigid_bodies (lines.map BoxLine.rect)).1 rest ∧
        boxes.count = lines.length ∧
        ∀ i b, lines[i]? = some b →
          boxes.body_colors i = env.hexstr b.color ∧
          (register_boxes env rigid_bodies (lines.map BoxLine.rect)).2[i]?
            = some (boxes.body_ids i)) ∧
    ((∃ b ∈ lines, b.id.length = 36) →
      create_boxes_from_line_stream env (boxes_section count lines ++ rest) rigid_bodies
        = .aborted) := by
  have hnl : newline ∉ count := fun hmem =>
    isDigit_ne _ newline (hdigits _ hmem) (by decide) rfl
  have hmax : digits_value count ≤ ULONG_MAX := by
    rw [hcount]
    unfold BOXES_CAPACITY at hcap
    unfold ULONG_MAX
    omega
  have e : boxes_section count lines ++ rest
      = count ++ newline :: ((lines.map (fun b => b.text ++ [newline])).flatten ++ rest) := by
    simp [boxes_section]
  have hstart : create_boxes_from_line_stream env (boxes_section count lines ++ rest)
        rigid_bodies
      = read_boxes env lines.length 0
          { body_ids := fun _ => env.uninit_id
            body_colors := fun _ => env.uninit_body_color
            count := lines.length } rigid_bodies
          ((lines.map (fun b => b.text ++ [newline])).flatten ++ rest) := by
    rw [e]
    unfold create_boxes_from_line_stream
    rw [line_stream_next_line _ count hnl]
    simp only [sscanf_count_digits count env.uninit_count hne hdigits hmax, hcount]
    rw [if_neg (by decide), if_pos hcap]
  constructor
  · intro hshort
    obtain ⟨loaded, hrun, hc, _, hat⟩ := read_boxes_lines env rest lines 0
      { body_ids := fun _ => env.uninit_id
        body_colors := fun _ => env.uninit_body_color
        count := lines.length } rigid_bodies hlines hshort
    refine ⟨loaded, hstart.trans hrun, hc, fun i b hi => ?_⟩
    have := hat i b hi
    simpa using this
  · intro hlong
    rw [hstart]
    exact read_boxes_long_id env rest lines 0 _ rigid_bodies hlines hlong

set_option maxRecDepth 100000 in
/-- Witness of C12: the section `2`, `A 10 20 30 40 ff0000`, `B 0 0 5 5 00ff00` in
`list_boxes_env`, read into rigid bodies that hold nothing: the rectangles
`(10, 20, 30, 40)` and `(0, 0, 5, 5)` are registered in this order, the first box is red
and the second one green.  And the section of the one line
`aaaaaaaaaaaaaaaaaaaaaaaaaaaaaaaaaaaa 10 20 30 40 ff0000`, whose id has 36 characters:
no boxes are returned. -/
theorem boxes_reader_overruns_an_id_of_36_characters_witness :
    (boxes_section "2".toList sample_box_lines
        = "2\nA 10 20 30 40 ff0000\nB 0 0 5 5 00ff00\n".toList ∧
      sample_box_lines.map BoxLine.rect = [⟨10, 20, 30, 40⟩, ⟨0, 0, 5, 5⟩] ∧
      ∃ boxes,
        create_boxes_from_line_stream list_boxes_env
            (boxes_section "2".toList sample_box_lines ++ []) []
          = .returned (some boxes)
              (register_boxes list_boxes_env [] (sample_box_lines.map BoxLine.rect)).1 [] ∧
        boxes.count = 2 ∧
        ∀ i b, sample_box_lines[i]? = some b →
          boxes.body_colors i = b.color ∧
          (register_boxes list_boxes_env [] (sample_box_lines.map BoxLine.rect)).2[i]?
            = some (boxes.body_ids i)) ∧
    (boxes_section "1".toList [long_id_box_line]
        = "1\naaaaaaaaaaaaaaaaaaaaaaaaaaaaaaaaaaaa 10 20 30 40 ff0000\n".toList ∧
      create_boxes_from_line_stream list_boxes_env
          (boxes_section "1".toList [long_id_box_line] ++ []) []
        = .aborted) := by
  have hsample : ∀ b ∈ sample_box_lines, b.WellFormed := by
    intro b hb
    simp only [sample_box_lines, List.mem_cons, List.mem_singleton, List.not_mem_nil,
      or_false] at hb
    rcases hb with rfl | rfl <;>
      (unfold BoxLine.WellFormed Decimal.WellFormed; decide)
  have hlong : ∀ b ∈ [long_id_box_line], b.WellFormed := by
    intro b hb
    simp only [List.mem_singleton] at hb
    subst hb
    unfold BoxLine.WellFormed Decimal.WellFormed
    decide
  exact ⟨⟨by decide, by decide,
      (boxes_reader_overruns_an_id_of_36_characters list_boxes_env [] "2".toList
        sample_box_lines [] (by decide) (by decide) (by decide) (by decide) hsample).1
        (by decide)⟩,
    by decide,
    (boxes_reader_overruns_an_id_of_36_characters list_boxes_env [] "1".toList
      [long_id_box_line] [] (by decide) (by decide) (by decide) (by decide) hlong).2
      ⟨long_id_box_line, List.mem_singleton.2 rfl, by decide⟩⟩

/-- C18, as the code has it.  When no hitbox of the boxes in use contains the position,
`boxes_delete_at` changes nothing.  When `m` is the first box whose hitbox contains the
position, its body is removed from the rigid bodies, the count goes down by one and the
body ids after place `m` move one place down; the colours stay where they are, so every
box after the deleted one is paired with the colour of the box before it. -/
theorem boxes_delete_at_moves_ids_not_colours
    (env : BoxesEnv RigidBodies RigidBodyId Color) (rect_contains_point : Rect → Vec → Bool)
    (boxes : Boxes RigidBodyId Color) (rigid_bodies : RigidBodies) (position : Vec) :
    ((∀ k, k < boxes.count →
        rect_contains_point (env.rigid_bodies_hitbox rigid_bodies (boxes.body_ids k)) position
          = false) →
      boxes_delete_at env rect_contains_point boxes rigid_bodies position
        = (0, boxes, rigid_bodies)) ∧
    (∀ m, m < boxes.count →
      rect_contains_point (env.rigid_bodies_hitbox rigid_bodies (boxes.body_ids m)) position
        = true →
      (∀ k, k < m →
        rect_contains_point (env.rigid_bodies_hitbox rigid_bodies (boxes.body_ids k)) position
          = false) →
      (boxes_delete_at env rect_contains_point boxes rigid_bodies position).1 = 0 ∧
      (boxes_delete_at env rect_contains_point boxes rigid_bodies position).2.1.count
        = boxes.count - 1 ∧
      (boxes_delete_at env rect_contains_point boxes rigid_bodies position).2.2
        = env.rigid_bodies_remove rigid_bodies (boxes.body_ids m) ∧
      boxes_pairs (boxes_delete_at env rect_contains_point boxes rigid_bodies position).2.1
        = (List.range (boxes.count - 1)).map
            (fun j => (boxes.body_ids (if j < m then j else j + 1), boxes.body_colors j))) := by
  constructor
  · intro h
    rw [boxes_delete_at, delete_first_hit_none env rect_contains_point position boxes
      rigid_bodies boxes.count 0 (fun k _ hk => h k (by omega))]
  · intro m hm hhit hfirst
    rw [boxes_delete_at, delete_first_hit_some env rect_contains_point position boxes
      rigid_bodies m hhit boxes.count 0 (Nat.zero_le _) (by omega)
      (fun k _ hk => hfirst k hk)]
    refine ⟨rfl, rfl, rfl, ?_⟩
    simp only [boxes_pairs]
    apply List.map_congr_left
    intro j hj
    rw [List.mem_range] at hj
    rw [shift_body_ids_apply]
    by_cases hjm : j < m
    · rw [if_neg (by omega), if_pos hjm]
    · rw [if_pos ⟨by omega, by omega⟩, if_neg hjm]

/-- Witness of C18: the red box `(10, 20, 30, 40)` and the green box `(0, 0, 5, 5)`, and
the position `(20, 30)`, which lies in the red box only.  The box that is left has the
body of the green box and the colour red. -/
theorem boxes_delete_at_moves_ids_not_colours_witness :
    boxes_pairs sample_boxes = [(0, "ff0000".toList), (1, "00ff00".toList)] ∧
    closed_rect_contains_point
      (list_boxes_env.rigid_bodies_hitbox sample_bodies (sample_boxes.body_ids 0))
      (vec 20 30) = true ∧
    boxes_pairs (boxes_delete_at list_boxes_env closed_rect_contains_point sample_boxes
      sample_bodies (vec 20 30)).2.1 = [(1, "ff0000".toList)] := by
  have h10 : (10 : Binary32) = .finite false 10485760 (-20) := by decide
  have h20 : (20 : Binary32) = .finite false 10485760 (-19) := by decide
  have h30 : (30 : Binary32) = .finite false 15728640 (-19) := by decide
  have h40 : (40 : Binary32) = .finite false 10485760 (-18) := by decide
  have hhit : closed_rect_contains_point
      (list_boxes_env.rigid_bodies_hitbox sample_bodies (sample_boxes.body_ids 0))
      (vec 20 30) = true := by
    simp only [closed_rect_contains_point, list_boxes_env, sample_bodies, sample_boxes, vec,
      List.getD_cons_zero, Option.getD_some, h10, h20, h30, h40, Binary32.value]
    norm_num
  exact ⟨by decide, hhit,
    ((boxes_delete_at_moves_ids_not_colours list_boxes_env closed_rect_contains_point
      sample_boxes sample_bodies (vec 20 30)).2 0 (by decide) hhit
      (fun k hk => absurd hk (Nat.not_lt_zero k))).2.2.2⟩

end BoxesClaims

end Nothing
